import Mathlib

/-! KWin DRM platform: pipeline matching, shuffle and atomic mode setting

A shallow embedding of `DrmGpu::tryAMS`, `DrmGpu::updateOutputs`,
`DrmGpu::shufflePipelines` and `DrmGpu::findWorkingCombination`
(`src/plugins/platforms/drm/drm_gpu.cpp`).

Objects the C++ code handles through pointers are records carrying the kernel
object id; two pointers are equal exactly when the records are equal, so a
`QVector` without a repeated pointer is a `List` with `Nodup`.
`QVector::removeOne` is `List.erase`, `operator<<` appends at the end,
`prepend` is `::`.  Answers of the kernel (ioctls) are fields of `Kernel`.
-/

namespace KWin

/-! ## Data model -/

/-- The connector object `DrmConnector`: its kernel id and the encoder ids
returned by `encoders()`. -/
structure DrmConnector where
  id : Nat
  encoders : List Nat
deriving DecidableEq, Repr

/-- The CRTC object `DrmCrtc`: its kernel id and `pipeIndex()`. -/
structure DrmCrtc where
  id : Nat
  pipeIndex : Nat
deriving DecidableEq, Repr

/-- The enumeration `DrmPlane::TypeIndex`. -/
inductive TypeIndex where
  | Overlay
  | Primary
  | Cursor
deriving DecidableEq, Repr

/-- The plane object `DrmPlane`: kernel id, `type()` and the mask of pipes it can drive. -/
structure DrmPlane where
  id : Nat
  type : TypeIndex
  possibleCrtcs : Nat
deriving DecidableEq, Repr

/-- The test `mask & (1 << pipeIndex)` on 32-bit words, as written in
`findWorkingCombination` for `encoder->possible_crtcs`; a shift by 32 or more, undefined
in C++, selects no bit. -/
def pipeBitSet (mask pipeIndex : Nat) : Bool :=
  (mask % 2 ^ 32) &&& ((1 <<< pipeIndex) % 2 ^ 32) != 0

/-- Modelled from the spec: `DrmPlane::isCrtcSupported` (drm_object_plane.h is absent);
the plane carries a supported-CRTC bitmask indexed by the pipe index. -/
def DrmPlane.isCrtcSupported (p : DrmPlane) (pipeIndex : Nat) : Bool :=
  pipeBitSet p.possibleCrtcs pipeIndex

/-- The binding made by `new DrmPipeline(gpu, connector, crtc, primaryPlane, cursorPlane)`;
a null plane pointer is `none`. -/
structure DrmPipeline where
  connector : DrmConnector
  crtc : DrmCrtc
  primaryPlane : Option DrmPlane
  cursorPlane : Option DrmPlane
deriving DecidableEq, Repr

/-- What the kernel and the absent `DrmPipeline` class answer during a search:
`drmModeGetEncoder` (the `possible_crtcs` word, `none` for a null encoder),
`DrmPipeline::test` and `DrmPipeline::setEnablement` (whether the call succeeds). -/
structure Kernel where
  getEncoder : Nat → Option Nat
  test : DrmPipeline → Bool
  setEnablement : DrmPipeline → Bool → Bool

/-- Outcome of a loop body sequence: `ret v` is a `return v` out of the function,
`cont most` is falling out of the loop with `mostWorkingPipelines = most`. -/
inductive Loop where
  | ret (pipelines : List DrmPipeline)
  | cont (mostWorkingPipelines : List DrmPipeline)
deriving DecidableEq, Repr

/-! ## `DrmGpu::findWorkingCombination` -/

/-- The loop `for (const auto &plane : planes)` (drm_gpu.cpp 293-318) over the planes
still to visit; `recur` is the recursive call of `findWorkingCombination`. -/
def planeLoop (k : Kernel) (recur : List DrmConnector → List DrmCrtc → List DrmPlane → List DrmPipeline)
    (connector : DrmConnector) (connectors : List DrmConnector) (crtcs : List DrmCrtc)
    (planes : List DrmPlane) (crtc : DrmCrtc) :
    List DrmPlane → List DrmPipeline → Loop
  | [], mostWorkingPipelines => .cont mostWorkingPipelines
  | plane :: rest, mostWorkingPipelines =>
    if plane.isCrtcSupported crtc.pipeIndex && plane.type == TypeIndex.Primary then
      let pipeline : DrmPipeline := ⟨connector, crtc, some plane, none⟩
      if !k.test pipeline then
        planeLoop k recur connector connectors crtcs planes crtc rest mostWorkingPipelines
      else
        let remainingCrtcs := crtcs.erase crtc
        let remainingPlanes := planes.erase plane
        let pipelines := pipeline :: recur connectors remainingCrtcs remainingPlanes
        if pipelines.length > connectors.length then
          .ret pipelines
        else if pipelines.length > mostWorkingPipelines.length then
          planeLoop k recur connector connectors crtcs planes crtc rest pipelines
        else
          planeLoop k recur connector connectors crtcs planes crtc rest mostWorkingPipelines
    else
      planeLoop k recur connector connectors crtcs planes crtc rest mostWorkingPipelines

/-- The loop `for (DrmCrtc *crtc : qAsConst(crtcs))` (drm_gpu.cpp 288-330) for one
encoder with word `possible_crtcs`, over the CRTCs still to visit. -/
def crtcLoop (k : Kernel) (m_atomicModeSetting : Bool)
    (recur : List DrmConnector → List DrmCrtc → List DrmPlane → List DrmPipeline)
    (connector : DrmConnector) (connectors : List DrmConnector) (crtcs : List DrmCrtc)
    (planes : List DrmPlane) (possible_crtcs : Nat) :
    List DrmCrtc → List DrmPipeline → Loop
  | [], mostWorkingPipelines => .cont mostWorkingPipelines
  | crtc :: rest, mostWorkingPipelines =>
    if !pipeBitSet possible_crtcs crtc.pipeIndex then
      crtcLoop k m_atomicModeSetting recur connector connectors crtcs planes possible_crtcs rest
        mostWorkingPipelines
    else if m_atomicModeSetting then
      match planeLoop k recur connector connectors crtcs planes crtc planes mostWorkingPipelines with
      | .ret pipelines => .ret pipelines
      | .cont most =>
        crtcLoop k m_atomicModeSetting recur connector connectors crtcs planes possible_crtcs rest most
    else
      -- no planes and no test
      let pipeline : DrmPipeline := ⟨connector, crtc, none, none⟩
      let remainingConnectors := connectors.erase connector
      let remainingCrtcs := crtcs.erase crtc
      let pipelines := recur remainingConnectors remainingCrtcs planes
      .ret (pipelines ++ [pipeline])

/-- The loop `for (auto encId : qAsConst(encoders))` (drm_gpu.cpp 283-331) followed by
the final `return mostWorkingPipelines`. -/
def encoderLoop (k : Kernel) (m_atomicModeSetting : Bool)
    (recur : List DrmConnector → List DrmCrtc → List DrmPlane → List DrmPipeline)
    (connector : DrmConnector) (connectors : List DrmConnector) (crtcs : List DrmCrtc)
    (planes : List DrmPlane) :
    List Nat → List DrmPipeline → List DrmPipeline
  | [], mostWorkingPipelines => mostWorkingPipelines
  | encId :: rest, mostWorkingPipelines =>
    match k.getEncoder encId with
    | none =>
      encoderLoop k m_atomicModeSetting recur connector connectors crtcs planes rest mostWorkingPipelines
    | some possible_crtcs =>
      match crtcLoop k m_atomicModeSetting recur connector connectors crtcs planes possible_crtcs crtcs
          mostWorkingPipelines with
      | .ret pipelines => pipelines
      | .cont most =>
        encoderLoop k m_atomicModeSetting recur connector connectors crtcs planes rest most

/-- The body of `findWorkingCombination` with a recursion budget: every recursive call
is on a connector list one element shorter at least, so `fuel = connectors.length`
is never used up (`findWorkingCombination_cons`). -/
def findWorkingCombinationFuel (k : Kernel) (m_atomicModeSetting : Bool) :
    Nat → List DrmConnector → List DrmCrtc → List DrmPlane → List DrmPipeline
  | 0, _, _, _ => []
  | _ + 1, [], _, _ => []
  | fuel + 1, connector :: connectors, crtcs, planes =>
    encoderLoop k m_atomicModeSetting (findWorkingCombinationFuel k m_atomicModeSetting fuel)
      connector connectors crtcs planes connector.encoders []

/-- `DrmGpu::findWorkingCombination(connectors, crtcs, planes)` (drm_gpu.cpp 273-333). -/
def findWorkingCombination (k : Kernel) (m_atomicModeSetting : Bool)
    (connectors : List DrmConnector) (crtcs : List DrmCrtc) (planes : List DrmPlane) :
    List DrmPipeline :=
  findWorkingCombinationFuel k m_atomicModeSetting connectors.length connectors crtcs planes

/-- A property of the pipeline list a loop hands on, whether returned or carried on. -/
def Loop.All (Q : List DrmPipeline → Prop) : Loop → Prop
  | .ret pipelines => Q pipelines
  | .cont mostWorkingPipelines => Q mostWorkingPipelines

/-- The candidate pipeline the atomic branch builds for a plane it accepts. -/
def atomicCandidate (k : Kernel) (connector : DrmConnector) (crtc : DrmCrtc) (plane : DrmPlane) :
    Prop :=
  plane.isCrtcSupported crtc.pipeIndex = true ∧ plane.type = TypeIndex.Primary ∧
    k.test ⟨connector, crtc, some plane, none⟩ = true

/-- The CRTC's pipe bit is set in `possible_crtcs` of one of the connector's encoders
(one that `drmModeGetEncoder` returns). -/
def encoderAllows (k : Kernel) (connector : DrmConnector) (crtc : DrmCrtc) : Bool :=
  connector.encoders.any fun encId =>
    match k.getEncoder encId with
    | some possible_crtcs => pipeBitSet possible_crtcs crtc.pipeIndex
    | none => false

/-- The pipeline list a loop hands on, whether returned or carried on. -/
def Loop.val : Loop → List DrmPipeline
  | .ret pipelines => pipelines
  | .cont mostWorkingPipelines => mostWorkingPipelines

/-- The connectors `cs` can be served together in atomic mode: `f` gives each of them a
CRTC of `xs` and a plane of `ps` forming a candidate the atomic branch accepts (encoder
allowing the CRTC, Primary plane supporting the pipe, passing test), no CRTC and no plane
being given twice. -/
def Servable (k : Kernel) (cs : List DrmConnector) (xs : List DrmCrtc) (ps : List DrmPlane)
    (f : DrmConnector → DrmCrtc × DrmPlane) : Prop :=
  (∀ c ∈ cs, (f c).1 ∈ xs ∧ (f c).2 ∈ ps ∧ encoderAllows k c (f c).1 = true ∧
    atomicCandidate k c (f c).1 (f c).2) ∧
  (∀ c ∈ cs, ∀ c' ∈ cs, (f c).1 = (f c').1 → c = c') ∧
  (∀ c ∈ cs, ∀ c' ∈ cs, (f c).2 = (f c').2 → c = c')

/-- The assignment a pipeline list stands for: a connector gets the CRTC and the primary
plane of the first pipeline on it. -/
def assignmentOf (r : List DrmPipeline) (c : DrmConnector) : DrmCrtc × DrmPlane :=
  match r.find? (fun q => q.connector == c) with
  | some q => (q.crtc, q.primaryPlane.getD ⟨0, TypeIndex.Overlay, 0⟩)
  | none => (⟨0, 0⟩, ⟨0, TypeIndex.Overlay, 0⟩)

/-- The CRTC the legacy branch settles on for a connector with the given encoders: the
first CRTC of the list allowed by the first encoder that allows any. -/
def legacyChoice (k : Kernel) (crtcs : List DrmCrtc) : List Nat → Option DrmCrtc
  | [] => none
  | encId :: rest =>
    match k.getEncoder encId with
    | none => legacyChoice k crtcs rest
    | some possible_crtcs =>
      match crtcs.find? (fun crtc => pipeBitSet possible_crtcs crtc.pipeIndex) with
      | some crtc => some crtc
      | none => legacyChoice k crtcs rest

/-! ## Device state -/

/-- Modelled from the spec: the output object `DrmOutput` as `DrmGpu` uses it
(`m_pipeline`, `m_dpmsEnabled`, `connector()`, `setPipeline`); the output class of this
revision and `DrmPipeline` are absent.  An Output wraps its Pipeline; `enabled` is the
enablement of that pipeline, toggled by `DrmPipeline::setEnablement`. -/
structure DrmOutput where
  m_pipeline : DrmPipeline
  m_dpmsEnabled : Bool
  enabled : Bool
deriving DecidableEq, Repr

/-- Modelled from the spec: `DrmOutput::connector()`, the connector of the wrapped pipeline. -/
def DrmOutput.connector (o : DrmOutput) : DrmConnector :=
  o.m_pipeline.connector

/-- Modelled from the spec: `DrmPipeline::setEnablement(enable)` on the pipeline of an
output; the enablement changes when the call succeeds and is kept when it fails. -/
def DrmOutput.setEnablement (k : Kernel) (o : DrmOutput) (enable : Bool) : DrmOutput :=
  if k.setEnablement o.m_pipeline enable then { o with enabled := enable } else o

/-- Modelled from the spec: `DrmOutput::setPipeline(pipeline)`; the output wraps the new
pipeline, which was just built and tested and is enabled. -/
def DrmOutput.setPipeline (o : DrmOutput) (pipeline : DrmPipeline) : DrmOutput :=
  { o with m_pipeline := pipeline, enabled := true }

/-- Modelled from the spec: `new DrmOutput(backend, gpu, pipeline)`; a new output is on
(`DpmsMode::On` is the default of the output class) and its pipeline is enabled. -/
def DrmOutput.create (pipeline : DrmPipeline) : DrmOutput :=
  ⟨pipeline, true, true⟩

/-- The members of `DrmGpu` (drm_gpu.h 139-152) the matcher works on. -/
structure DrmGpu where
  m_atomicModeSetting : Bool
  m_planes : List DrmPlane
  m_unusedPlanes : List DrmPlane
  m_pipelines : List DrmPipeline
  m_outputs : List DrmOutput
deriving DecidableEq, Repr

/-- The state the constructor `DrmGpu::DrmGpu` leaves (drm_gpu.cpp 39-46). -/
def DrmGpu.initial : DrmGpu :=
  ⟨false, [], [], [], []⟩

/-- The getter `bool atomicModeSetting() const` (drm_gpu.h 54-56). -/
def DrmGpu.atomicModeSetting (g : DrmGpu) : Bool :=
  g.m_atomicModeSetting

/-! ## `DrmGpu::tryAMS` -/

/-- What the kernel answers during `tryAMS`: whether `drmSetClientCap(fd,
DRM_CLIENT_CAP_ATOMIC, 1)` returns 0, the plane ids of `drmModeGetPlaneResources`
(`none` for a null pointer; `drmModeGetPlane` of a listed id returns a plane with that
id), and for a plane id the object `new DrmPlane(gpu, id)` when its `init()` succeeds. -/
structure AmsKernel where
  setClientCapAtomic : Bool
  planeResources : Option (List Nat)
  planeInit : Nat → Option DrmPlane

/-- The loop creating the plane objects (drm_gpu.cpp 118-126). -/
def createPlanes (planeInit : Nat → Option DrmPlane) : List Nat → List DrmPlane → List DrmPlane
  | [], m_planes => m_planes
  | planeId :: rest, m_planes =>
    match planeInit planeId with
    | some p => createPlanes planeInit rest (m_planes ++ [p])
    | none => createPlanes planeInit rest m_planes

/-- `DrmGpu::tryAMS()` (drm_gpu.cpp 104-135). -/
def tryAMS (ak : AmsKernel) (g : DrmGpu) : DrmGpu :=
  let g := { g with m_atomicModeSetting := false }
  if ak.setClientCapAtomic then
    let g := { g with m_atomicModeSetting := true }
    match ak.planeResources with
    | none => { g with m_atomicModeSetting := false }
    | some planeIds =>
      let g := { g with m_planes := createPlanes ak.planeInit planeIds g.m_planes }
      let g := if g.m_planes.isEmpty then { g with m_atomicModeSetting := false } else g
      { g with m_unusedPlanes := g.m_planes }
  else
    g

/-! ## `DrmGpu::shufflePipelines` -/

/-- The outcome of `shufflePipelines`: the device state, the two vectors passed by
reference, the returned pipelines and the `setEnablement` calls made, in order. -/
structure Shuffle where
  gpu : DrmGpu
  unusedConnectors : List DrmConnector
  unusedCrtcs : List DrmCrtc
  pipelines : List DrmPipeline
  calls : List (DrmPipeline × Bool)
deriving DecidableEq, Repr

/-- The loop turning the outputs off (drm_gpu.cpp 237-244): the outputs afterwards and the
pool of connectors and CRTCs, grown by those of every pipeline that was disabled. -/
def disableLoop (k : Kernel) :
    List DrmOutput → List DrmConnector → List DrmCrtc →
      List DrmOutput × List DrmConnector × List DrmCrtc
  | [], connectors, crtcs => ([], connectors, crtcs)
  | output :: rest, connectors, crtcs =>
    if k.setEnablement output.m_pipeline false then
      let r := disableLoop k rest (connectors ++ [output.m_pipeline.connector])
        (crtcs ++ [output.m_pipeline.crtc])
      (output.setEnablement k false :: r.1, r.2.1, r.2.2)
    else
      let r := disableLoop k rest connectors crtcs
      (output.setEnablement k false :: r.1, r.2.1, r.2.2)

/-- The loop replacing the old pipelines with the new ones (drm_gpu.cpp 249-260): for
each output the first working pipeline with the output's connector is taken. -/
def rebindLoop :
    List DrmOutput → List DrmPipeline → List DrmConnector → List DrmCrtc →
      List DrmOutput × List DrmPipeline × List DrmConnector × List DrmCrtc
  | [], workingPipelines, unusedConnectors, unusedCrtcs =>
    ([], workingPipelines, unusedConnectors, unusedCrtcs)
  | output :: rest, workingPipelines, unusedConnectors, unusedCrtcs =>
    match workingPipelines.find? (fun pipeline => pipeline.connector == output.connector) with
    | some pipeline =>
      let r := rebindLoop rest (workingPipelines.erase pipeline)
        (unusedConnectors.erase pipeline.connector) (unusedCrtcs.erase pipeline.crtc)
      (output.setPipeline pipeline :: r.1, r.2.1, r.2.2.1, r.2.2.2)
    | none =>
      let r := rebindLoop rest workingPipelines unusedConnectors unusedCrtcs
      (output :: r.1, r.2.1, r.2.2.1, r.2.2.2)

/-- The search of `shufflePipelines` over the combined pool (drm_gpu.cpp 235-246). -/
def shuffleSearch (k : Kernel) (g : DrmGpu) (unusedConnectors : List DrmConnector)
    (unusedCrtcs : List DrmCrtc) : List DrmPipeline :=
  let d := disableLoop k g.m_outputs unusedConnectors unusedCrtcs
  findWorkingCombination k g.m_atomicModeSetting d.2.1 d.2.2 g.m_planes

/-- `DrmGpu::shufflePipelines(unusedConnectors, unusedCrtcs)` (drm_gpu.cpp 232-271). -/
def shufflePipelines (k : Kernel) (g : DrmGpu) (unusedConnectors : List DrmConnector)
    (unusedCrtcs : List DrmCrtc) : Shuffle :=
  let d := disableLoop k g.m_outputs unusedConnectors unusedCrtcs
  let disableCalls := g.m_outputs.map fun output => (output.m_pipeline, false)
  let workingPipelines := findWorkingCombination k g.m_atomicModeSetting d.2.1 d.2.2 g.m_planes
  if workingPipelines.length == unusedConnectors.length then
    let r := rebindLoop d.1 workingPipelines unusedConnectors unusedCrtcs
    { gpu := { g with m_outputs := r.1 }
      unusedConnectors := r.2.2.1
      unusedCrtcs := r.2.2.2
      pipelines := r.2.1
      calls := disableCalls }
  else
    { gpu := { g with m_outputs := d.1.map fun output => output.setEnablement k output.m_dpmsEnabled }
      unusedConnectors := unusedConnectors
      unusedCrtcs := unusedCrtcs
      pipelines := findWorkingCombination k g.m_atomicModeSetting unusedConnectors unusedCrtcs
        g.m_unusedPlanes
      calls := disableCalls ++ d.1.map fun output => (output.m_pipeline, output.m_dpmsEnabled) }

/-! ## `DrmGpu::updateOutputs` -/

/-- What the kernel reports at a rescan: the connector and CRTC ids of
`drmModeGetResources` (`none` for a null pointer), `isConnected()` of a connector,
the connector object built for an id when its `init()` succeeds, its `isNonDesktop()`,
and the CRTC object built for an id and index when its `init()` succeeds. -/
structure Hotplug where
  resources : Option (List Nat × List Nat)
  isConnected : DrmConnector → Bool
  connectorInit : Nat → Option DrmConnector
  isNonDesktop : DrmConnector → Bool
  crtcInit : Nat → Nat → Option DrmCrtc

/-- The planes a torn down pipeline gives back (drm_gpu.cpp 159-165); the pipelines built
by the matcher carry no overlay planes. -/
def DrmPipeline.releasedPlanes (pipeline : DrmPipeline) : List DrmPlane :=
  pipeline.primaryPlane.toList ++ pipeline.cursorPlane.toList

/-- The loop removing the outputs whose connector is no longer connected
(drm_gpu.cpp 145-173), read as visiting every output once, `output` naming the visited
output throughout the body.  `removeLoopRaw` follows the same loop on the storage of the
vector, where `output` is a reference to a slot that `removeOne` overwrites; the two
readings agree when every output is connected (`removeOutputs_all_connected`). -/
def removeLoop (h : Hotplug) : List DrmOutput → DrmGpu → DrmGpu
  | [], g => g
  | output :: rest, g =>
    if !h.isConnected output.m_pipeline.connector then
      removeLoop h rest
        { g with
          m_outputs := g.m_outputs.erase output
          m_pipelines := g.m_pipelines.erase output.m_pipeline
          m_unusedPlanes := g.m_unusedPlanes ++ output.m_pipeline.releasedPlanes }
    else
      removeLoop h rest g

/-- The loop collecting the connectors no pipeline uses (drm_gpu.cpp 178-193). -/
def collectConnectors (h : Hotplug) (m_pipelines : List DrmPipeline) :
    List Nat → List DrmConnector → List DrmConnector
  | [], connectors => connectors
  | currentConnector :: rest, connectors =>
    if m_pipelines.any (fun p => p.connector.id == currentConnector) then
      collectConnectors h m_pipelines rest connectors
    else
      match h.connectorInit currentConnector with
      | none => collectConnectors h m_pipelines rest connectors
      | some c =>
        if h.isNonDesktop c then collectConnectors h m_pipelines rest connectors
        else collectConnectors h m_pipelines rest (connectors ++ [c])

/-- The loop collecting the CRTCs no pipeline uses (drm_gpu.cpp 195-206); `i` is the index
in `resources->crtcs`. -/
def collectCrtcs (h : Hotplug) (m_pipelines : List DrmPipeline) :
    List Nat → Nat → List DrmCrtc → List DrmCrtc
  | [], _, crtcs => crtcs
  | currentCrtc :: rest, i, crtcs =>
    if m_pipelines.any (fun p => p.crtc.id == currentCrtc) then
      collectCrtcs h m_pipelines rest (i + 1) crtcs
    else
      match h.crtcInit currentCrtc i with
      | none => collectCrtcs h m_pipelines rest (i + 1) crtcs
      | some c => collectCrtcs h m_pipelines rest (i + 1) (crtcs ++ [c])

/-- The loop wrapping every found pipeline into a new output (drm_gpu.cpp 213-226). -/
def addOutputs : List DrmPipeline → DrmGpu → DrmGpu
  | [], g => g
  | pipeline :: rest, g =>
    let unused1 := match pipeline.primaryPlane with
      | some p => g.m_unusedPlanes.erase p
      | none => g.m_unusedPlanes
    let unused2 := match pipeline.cursorPlane with
      | some p => unused1.erase p
      | none => unused1
    addOutputs rest
      { g with
        m_unusedPlanes := unused2
        m_outputs := g.m_outputs ++ [DrmOutput.create pipeline]
        m_pipelines := g.m_pipelines ++ [pipeline] }

/-- `DrmGpu::updateOutputs()` (drm_gpu.cpp 137-230): the device state afterwards; the
state is untouched when `drmModeGetResources` fails.  The removal step is taken as
`removeLoop`. -/
def updateOutputs (k : Kernel) (h : Hotplug) (g : DrmGpu) : DrmGpu :=
  match h.resources with
  | none => g
  | some resources =>
    let g := removeLoop h g.m_outputs g
    let connectors := collectConnectors h g.m_pipelines resources.1 []
    let crtcs := collectCrtcs h g.m_pipelines resources.2 0 []
    let pipelines := findWorkingCombination k g.m_atomicModeSetting connectors crtcs g.m_unusedPlanes
    if pipelines.length < connectors.length then
      let s := shufflePipelines k g connectors crtcs
      addOutputs s.pipelines s.gpu
    else
      addOutputs pipelines g

/-- A device state reached from a first `tryAMS` by `updateOutputs` calls, the kernel
answering each call in any way. -/
inductive Reachable : DrmGpu → Prop where
  | tryAMS (ak : AmsKernel) : Reachable (tryAMS ak DrmGpu.initial)
  | updateOutputs (k : Kernel) (h : Hotplug) (g : DrmGpu) :
      Reachable g → Reachable (updateOutputs k h g)

/-- Plane and CRTC exclusivity of a device state: no CRTC and no plane is bound to two
pipelines held by outputs, and no plane of the unused pool is the primary plane of a
pipeline held by an output. -/
def Exclusive (g : DrmGpu) : Prop :=
  (g.m_outputs.map (·.m_pipeline.crtc)).Nodup ∧
  (g.m_outputs.filterMap (·.m_pipeline.primaryPlane) ++
    g.m_outputs.filterMap (·.m_pipeline.cursorPlane)).Nodup ∧
  ∀ p ∈ g.m_unusedPlanes, some p ∉ g.m_outputs.map (·.m_pipeline.primaryPlane)

instance (g : DrmGpu) : Decidable (Exclusive g) := by
  unfold Exclusive
  infer_instance

/-! ## Example devices -/

/-- A kernel with three encoders: 100 drives pipe 0, 101 drives pipe 1, 102 drives both;
every pipeline test and every enablement call succeeds. -/
def exKernel : Kernel where
  getEncoder := fun encId =>
    if encId = 100 then some 1 else if encId = 101 then some 2
    else if encId = 102 then some 3 else none
  test := fun _ => true
  setEnablement := fun _ _ => true

/-- A connector that can only be driven by pipe 0. -/
def connPipe0 : DrmConnector := ⟨1, [100]⟩

/-- A connector that can only be driven by pipe 1. -/
def connPipe1 : DrmConnector := ⟨2, [101]⟩

/-- A second connector that can only be driven by pipe 0. -/
def connLate : DrmConnector := ⟨3, [100]⟩

/-- A connector that can be driven by pipe 0 and by pipe 1. -/
def connAny : DrmConnector := ⟨4, [102]⟩

/-- A connector without any encoder. -/
def connNoEncoder : DrmConnector := ⟨5, []⟩

/-- The CRTC of pipe 0. -/
def crtc0 : DrmCrtc := ⟨10, 0⟩

/-- The CRTC of pipe 1. -/
def crtc1 : DrmCrtc := ⟨11, 1⟩

/-- A primary plane for both pipes. -/
def planeA : DrmPlane := ⟨20, TypeIndex.Primary, 3⟩

/-- Another primary plane for both pipes. -/
def planeB : DrmPlane := ⟨21, TypeIndex.Primary, 3⟩

/-- The answers of a device that accepts atomic mode and has the two primary planes. -/
def exAms : AmsKernel where
  setClientCapAtomic := true
  planeResources := some [20, 21]
  planeInit := fun planeId =>
    if planeId = 20 then some planeA else if planeId = 21 then some planeB else none

/-- The answers of a device that accepts atomic mode and lists planes none of which
can be initialised. -/
def exAmsNoPlane : AmsKernel where
  setClientCapAtomic := true
  planeResources := some [20, 21]
  planeInit := fun _ => none

/-- A rescan that lists the given connector ids and both CRTCs, everything connected. -/
def exHotplug (connectorIds : List Nat) : Hotplug where
  resources := some (connectorIds, [10, 11])
  isConnected := fun _ => true
  connectorInit := fun connectorId =>
    if connectorId = 1 then some connPipe0 else if connectorId = 2 then some connPipe1
    else if connectorId = 3 then some connLate else if connectorId = 4 then some connAny
    else none
  isNonDesktop := fun _ => false
  crtcInit := fun crtcId i => some ⟨crtcId, i⟩

/-- The device after `tryAMS` and a first rescan that finds the pipe 0 and the pipe 1
connector: two outputs, both CRTCs and both planes in use. -/
def exTwoOutputs : DrmGpu :=
  updateOutputs exKernel (exHotplug [1, 2]) (tryAMS exAms DrmGpu.initial)

/-- The device after `tryAMS` and a first rescan that finds the connector driven by
either pipe: one output on pipe 0, pipe 1 and one plane unused. -/
def exOneOutput : DrmGpu :=
  updateOutputs exKernel (exHotplug [4]) (tryAMS exAms DrmGpu.initial)

/-- An assignment for the pipe 0 and the pipe 1 connector: each gets its own CRTC and
its own plane. -/
def exAssign (c : DrmConnector) : DrmCrtc × DrmPlane :=
  if c = connPipe0 then (crtc0, planeA) else (crtc1, planeB)

/-! ## Presentation: `DrmOutput::present` and the page-flip timestamp -/

/-- Modelled from the spec: the presentation members of `DrmOutput` (drm_output.cpp is
absent; drm_output.h 146 declares `m_pageFlipPending`).  An Output has a pending
page-flip flag; `next` is the buffer of the pending flip, `current` the buffer shown. -/
structure DrmOutputFlip where
  m_pageFlipPending : Bool
  next : Option Nat
  current : Option Nat
deriving DecidableEq, Repr

/-- Modelled from the spec: `DrmOutput::present(buffer)` (drm_output.cpp is absent).
`present(buffer)` is rejected (returns failure) if a page flip is already pending on this
Output; otherwise the flip is submitted, and when the kernel takes the commit
(`commitOk`) the buffer becomes the pending one and the flag is set; a failed commit
leaves the Output in its last state. -/
def DrmOutputFlip.present (commitOk : Bool) (o : DrmOutputFlip) (buffer : Nat) :
    Bool × DrmOutputFlip :=
  if o.m_pageFlipPending then (false, o)
  else if commitOk then (true, { o with m_pageFlipPending := true, next := some buffer })
  else (false, o)

/-- Modelled from the spec: `DrmOutput::pageFlipped()` (drm_output.cpp is absent); the
completion event ends the pending flip and the pending buffer becomes the one shown. -/
def DrmOutputFlip.pageFlipped (o : DrmOutputFlip) : DrmOutputFlip :=
  if o.m_pageFlipPending then { m_pageFlipPending := false, next := none, current := o.next }
  else o

/-- The two values of `clockid_t` the device uses (drm_gpu.cpp 61-66). -/
inductive ClockId where
  | CLOCK_REALTIME
  | CLOCK_MONOTONIC
deriving DecidableEq, Repr

/-- The C structure `timespec`; both fields are 64-bit signed. -/
structure timespec where
  tv_sec : Int
  tv_nsec : Int
deriving DecidableEq, Repr

/-- A value of `std::chrono::nanoseconds` is a signed 64-bit count: the result of an
arithmetic operation, taken in two's complement. -/
def wrap64 (x : Int) : Int :=
  (x + 2 ^ 63) % 2 ^ 64 - 2 ^ 63

/-- The overload `convertTimestamp(const timespec &)` (drm_gpu.cpp 389-392):
`seconds(tv_sec) + nanoseconds(tv_nsec)` in nanoseconds. -/
def convertTimespec (timestamp : timespec) : Int :=
  wrap64 (wrap64 (timestamp.tv_sec * 1000000000) + timestamp.tv_nsec)

/-- The overload `convertTimestamp(sourceClock, targetClock, timestamp)`
(drm_gpu.cpp 394-409): the converted time in nanoseconds and the clocks sampled with
`clock_gettime`, in order.  `clock_gettime` gives the reading of a clock at the call. -/
def convertTimestamp (clock_gettime : ClockId → timespec) (sourceClock targetClock : ClockId)
    (timestamp : timespec) : Int × List ClockId :=
  if sourceClock = targetClock then
    (convertTimespec timestamp, [])
  else
    let sourceCurrentTime := clock_gettime sourceClock
    let targetCurrentTime := clock_gettime targetClock
    let delta := wrap64 (convertTimespec sourceCurrentTime - convertTimespec timestamp)
    (wrap64 (convertTimespec targetCurrentTime - delta), [sourceClock, targetClock])

/-- The clock readings at the dispatch of one page-flip event: `clock_gettime` and
`std::chrono::steady_clock::now().time_since_epoch()` in nanoseconds. -/
structure Clocks where
  clock_gettime : ClockId → timespec
  steadyNow : Int

/-- The timestamp of a page flip as `pageFlipHandler` computes it (drm_gpu.cpp 421-423):
`convertTimestamp(presentationClock, CLOCK_MONOTONIC, { sec, usec * 1000 })`, `sec` and
`usec` being `unsigned int` and the product taken in 32 bits. -/
def pageFlipTimestamp (clocks : Clocks) (presentationClock : ClockId) (sec usec : Nat) :
    Int × List ClockId :=
  convertTimestamp clocks.clock_gettime presentationClock ClockId.CLOCK_MONOTONIC
    { tv_sec := (sec : Int), tv_nsec := ((usec * 1000 % 2 ^ 32 : Nat) : Int) }

/-- The timestamp `pageFlipHandler` passes to `notifyFrameCompleted`
(drm_gpu.cpp 421-432): the converted one, replaced by the steady clock's time when it
is zero. -/
def forwardedTimestamp (clocks : Clocks) (presentationClock : ClockId) (sec usec : Nat) : Int :=
  let timestamp := (pageFlipTimestamp clocks presentationClock sec usec).1
  if timestamp = 0 then clocks.steadyNow else timestamp

/-- `pageFlipHandler(fd, frame, sec, usec, data)` (drm_gpu.cpp 411-433) for a device with
the given presentation clock: nothing for a null output, otherwise the output after
`pageFlipped()` and the timestamp passed to `notifyFrameCompleted`. -/
def pageFlipHandler (clocks : Clocks) (presentationClock : ClockId) (sec usec : Nat)
    (data : Option DrmOutputFlip) : Option (DrmOutputFlip × Int) :=
  match data with
  | none => none
  | some output =>
    some (output.pageFlipped, forwardedTimestamp clocks presentationClock sec usec)

/-- One page-flip event of an output: the kernel's timestamp and the clock readings at
its dispatch. -/
structure FlipEvent where
  sec : Nat
  usec : Nat
  clocks : Clocks

/-- The timestamp emitted for an event. -/
def FlipEvent.emitted (presentationClock : ClockId) (e : FlipEvent) : Int :=
  forwardedTimestamp e.clocks presentationClock e.sec e.usec

/-- The fall-back to the current time is taken for an event. -/
def FlipEvent.fallback (presentationClock : ClockId) (e : FlipEvent) : Prop :=
  (pageFlipTimestamp e.clocks presentationClock e.sec e.usec).1 = 0

instance (presentationClock : ClockId) (e : FlipEvent) :
    Decidable (e.fallback presentationClock) := by
  unfold FlipEvent.fallback
  infer_instance

/-- The nanoseconds of a `timespec`, as an integer. -/
def timespec.nanoseconds (t : timespec) : Int :=
  t.tv_sec * 1000000000 + t.tv_nsec

/-- The integer is a value of a signed 64-bit count. -/
def fits64 (x : Int) : Prop :=
  -(2 ^ 63) ≤ x ∧ x < 2 ^ 63

/-- The nanoseconds of a `timespec` are computed without leaving 64 bits: the seconds in
nanoseconds and their sum with the nanosecond field are 64-bit values. -/
def timespec.fits (t : timespec) : Prop :=
  fits64 (t.tv_sec * 1000000000) ∧ fits64 t.nanoseconds

/-- A `timespec` whose fields are non-negative and below 2^32: seconds until the year
2106, and a nanosecond field as `pageFlipHandler` builds it. -/
def timespec.inRange (t : timespec) : Prop :=
  0 ≤ t.tv_sec ∧ t.tv_sec < 2 ^ 32 ∧ 0 ≤ t.tv_nsec ∧ t.tv_nsec < 2 ^ 32

/-- An event in a well-behaved environment: the kernel's timestamp is not ahead of the
presentation clock at the dispatch, and the readings of the monotonic clock taken during
the dispatch are not ahead of the steady clock's time at its end. -/
def FlipEvent.sane (presentationClock : ClockId) (e : FlipEvent) : Prop :=
  e.sec < 2 ^ 32 ∧
  (e.clocks.clock_gettime presentationClock).inRange ∧
  (e.clocks.clock_gettime ClockId.CLOCK_MONOTONIC).inRange ∧
  (e.sec : Int) * 1000000000 + ((e.usec * 1000 % 2 ^ 32 : Nat) : Int)
    ≤ (e.clocks.clock_gettime presentationClock).nanoseconds ∧
  (e.clocks.clock_gettime ClockId.CLOCK_MONOTONIC).nanoseconds ≤ e.clocks.steadyNow

/-! ## Buffers: `DrmDumbBuffer`, `GbmBuffer`, `DrmGbmBuffer` -/

/-- The calls a buffer makes to the kernel, to GBM, to its rendering surface and to the
producer's buffer interface. -/
inductive DrmCall where
  | createDumb (width height bpp : Nat)
  | addFB (width height depth bpp stride handle : Nat)
  | addFB2 (width height format : Nat) (handles strides offsets : List Nat) (flags : Nat)
  | addFB2WithModifiers (width height format : Nat)
      (handles strides offsets modifiers : List Nat) (flags : Nat)
  | rmFB (bufferId : Nat)
  | mapDumb (handle : Nat)
  | mmap (length offset : Nat)
  | munmap (address length : Nat)
  | destroyDumb (handle : Nat)
  | deleteImage
  | lockFrontBuffer (surface : Nat)
  | boUnmap (bo : Option Nat) (data : Nat)
  | releaseBuffer (surface : Nat) (bo : Option Nat)
  | boDestroy (bo : Nat)
  | setUserData (bo : Nat)
  | ref (bufferInterface : Nat)
  | unref (bufferInterface : Nat)
  | connect (bufferInterface : Nat)
  | disconnect (bufferInterface : Nat)
deriving DecidableEq, Repr

/-- The call is `drmModeRmFB`. -/
def DrmCall.isRmFB : DrmCall → Bool
  | .rmFB _ => true
  | _ => false

/-- The call releases backing memory: `munmap`, `DRM_IOCTL_MODE_DESTROY_DUMB`,
`gbm_bo_unmap`, `GbmSurface::releaseBuffer` or `gbm_bo_destroy`. -/
def DrmCall.isRelease : DrmCall → Bool
  | .munmap _ _ => true
  | .destroyDumb _ => true
  | .boUnmap _ _ => true
  | .releaseBuffer _ _ => true
  | .boDestroy _ => true
  | _ => false

/-- The call registers a framebuffer: `drmModeAddFB`, `drmModeAddFB2` or
`drmModeAddFB2WithModifiers`. -/
def DrmCall.isRegistration : DrmCall → Bool
  | .addFB _ _ _ _ _ _ => true
  | .addFB2 _ _ _ _ _ _ _ => true
  | .addFB2WithModifiers _ _ _ _ _ _ _ _ => true
  | _ => false

/-- The call is `drmModeAddFB2WithModifiers`. -/
def DrmCall.isAddFB2WithModifiers : DrmCall → Bool
  | .addFB2WithModifiers _ _ _ _ _ _ _ _ => true
  | _ => false

/-- The call is `drmModeAddFB2`. -/
def DrmCall.isAddFB2 : DrmCall → Bool
  | .addFB2 _ _ _ _ _ _ _ => true
  | _ => false

/-- The call is the legacy `drmModeAddFB`. -/
def DrmCall.isAddFB : DrmCall → Bool
  | .addFB _ _ _ _ _ _ => true
  | _ => false

/-- The call is `BufferInterface::ref`. -/
def DrmCall.isRef : DrmCall → Bool
  | .ref _ => true
  | _ => false

/-- The call is `BufferInterface::unref`. -/
def DrmCall.isUnref : DrmCall → Bool
  | .unref _ => true
  | _ => false

/-- The call maps a dumb buffer: `DRM_IOCTL_MODE_MAP_DUMB` or `mmap`. -/
def DrmCall.isMapping : DrmCall → Bool
  | .mapDumb _ => true
  | .mmap _ _ => true
  | _ => false

/-- The `QImage` built over the mapped memory, with what `isNull()` says of it. -/
structure QImage where
  data : Nat
  width : Nat
  height : Nat
  bytesPerLine : Nat
  format : Nat
  isNull : Bool
deriving DecidableEq, Repr

/-- The members of `DrmDumbBuffer`; a null pointer is `none`. -/
structure DrmDumbBuffer where
  m_size : Nat × Nat
  m_bufferId : Nat
  m_handle : Nat
  m_bufferSize : Nat
  m_stride : Nat
  m_memory : Option Nat
  m_image : Option QImage
deriving DecidableEq, Repr

/-- What the kernel and Qt answer to a dumb buffer: `DRM_IOCTL_MODE_CREATE_DUMB`
(handle, size and pitch, `none` when the ioctl fails), `drmModeAddFB` (the framebuffer
id, `none` when it fails, in which case the id is not written),
`DRM_IOCTL_MODE_MAP_DUMB` (the offset), `mmap` (the address, `none` for `MAP_FAILED`)
and whether the `QImage` over the mapping is null. -/
structure DumbKernel where
  createDumb : Nat → Nat → Nat → Option (Nat × Nat × Nat)
  addFB : Nat → Nat → Nat → Nat → Nat → Nat → Option Nat
  mapDumb : Nat → Option Nat
  mmap : Nat → Nat → Option Nat
  imageIsNull : Nat → Nat → Nat → Nat → Nat → Bool

/-- Modelled from the spec: the state of a `DrmDumbBuffer` before the constructor body
(drm_buffer.h is absent): no framebuffer id, no handle, nothing mapped. -/
def DrmDumbBuffer.blank (size : Nat × Nat) : DrmDumbBuffer :=
  { m_size := size, m_bufferId := 0, m_handle := 0, m_bufferSize := 0, m_stride := 0,
    m_memory := none, m_image := none }

/-- The constructor `DrmDumbBuffer::DrmDumbBuffer(gpu, size)` (drm_buffer.cpp 31-51): the
buffer and the calls made. -/
def DrmDumbBuffer.create (k : DumbKernel) (size : Nat × Nat) : DrmDumbBuffer × List DrmCall :=
  match k.createDumb size.1 size.2 32 with
  | none => (DrmDumbBuffer.blank size, [DrmCall.createDumb size.1 size.2 32])
  | some (handle, bufferSize, pitch) =>
    let b := { DrmDumbBuffer.blank size with
      m_handle := handle, m_bufferSize := bufferSize, m_stride := pitch }
    match k.addFB size.1 size.2 24 32 pitch handle with
    | some bufferId =>
      ({ b with m_bufferId := bufferId },
        [DrmCall.createDumb size.1 size.2 32, DrmCall.addFB size.1 size.2 24 32 pitch handle])
    | none =>
      (b, [DrmCall.createDumb size.1 size.2 32, DrmCall.addFB size.1 size.2 24 32 pitch handle])

/-- `DrmDumbBuffer::map(format)` (drm_buffer.cpp 78-99): the value returned, the buffer
afterwards and the calls made. -/
def DrmDumbBuffer.map (k : DumbKernel) (b : DrmDumbBuffer) (format : Nat) :
    Bool × DrmDumbBuffer × List DrmCall :=
  if b.m_handle = 0 ∨ b.m_bufferId = 0 then
    (false, b, [])
  else if b.m_image.isSome then
    (true, b, [])
  else
    match k.mapDumb b.m_handle with
    | none => (false, b, [DrmCall.mapDumb b.m_handle])
    | some offset =>
      match k.mmap b.m_bufferSize offset with
      | none => (false, b, [DrmCall.mapDumb b.m_handle, DrmCall.mmap b.m_bufferSize offset])
      | some address =>
        let image : QImage :=
          { data := address, width := b.m_size.1, height := b.m_size.2,
            bytesPerLine := b.m_stride, format := format,
            isNull := k.imageIsNull address b.m_size.1 b.m_size.2 b.m_stride format }
        (!image.isNull, { b with m_memory := some address, m_image := some image },
          [DrmCall.mapDumb b.m_handle, DrmCall.mmap b.m_bufferSize offset])

/-- A number of `map()` calls in a row: the values returned with the calls each made, and
the buffer at the end. -/
def DrmDumbBuffer.mapTimes (k : DumbKernel) (format : Nat) :
    Nat → DrmDumbBuffer → List (Bool × List DrmCall) × DrmDumbBuffer
  | 0, b => ([], b)
  | n + 1, b =>
    let r := b.map k format
    let rest := DrmDumbBuffer.mapTimes k format n r.2.1
    ((r.1, r.2.2) :: rest.1, rest.2)

/-- The destructor `DrmDumbBuffer::~DrmDumbBuffer` (drm_buffer.cpp 53-68): the calls made,
in order. -/
def DrmDumbBuffer.destroy (b : DrmDumbBuffer) : List DrmCall :=
  (if b.m_bufferId ≠ 0 then [DrmCall.rmFB b.m_bufferId] else []) ++
  (match b.m_image with
    | some _ => [DrmCall.deleteImage]
    | none => []) ++
  (match b.m_memory with
    | some address => [DrmCall.munmap address b.m_bufferSize]
    | none => []) ++
  (if b.m_handle ≠ 0 then [DrmCall.destroyDumb b.m_handle] else [])

/-- What `gbm_bo_get_*` answer for a buffer object: size, format, stride, the handle of
the buffer object (`gbm_bo_get_handle`, `u32` view), plane count, and per plane the handle
(the `u32` view of the union; its `s32` view is -1 exactly when this is 2^32 - 1), stride
and offset, and the modifier. -/
structure GbmBo where
  width : Nat
  height : Nat
  format : Nat
  stride : Nat
  handle : Nat
  planeCount : Nat
  handleForPlane : Nat → Nat
  strideForPlane : Nat → Nat
  offset : Nat → Nat
  modifier : Nat

/-- The constant `DRM_FORMAT_MOD_INVALID`, 0x00ffffffffffffff. -/
def DRM_FORMAT_MOD_INVALID : Nat := 72057594037927935

/-- The constant `DRM_MODE_FB_MODIFIERS`. -/
def DRM_MODE_FB_MODIFIERS : Nat := 2

/-- The four arrays `handles`, `strides`, `offsets`, `modifiers` of `initialize`. -/
structure PlaneArrays where
  handles : List Nat
  strides : List Nat
  offsets : List Nat
  modifiers : List Nat
deriving DecidableEq, Repr

/-- The loop filling the arrays for the planes `i, i + 1, ...` below the plane count
(drm_buffer_gbm.cpp 113-118); the arrays have four entries, as many as GBM has planes. -/
def fillPlanes (bo : GbmBo) : Nat → Nat → PlaneArrays → PlaneArrays
  | 0, _, a => a
  | n + 1, i, a =>
    fillPlanes bo n (i + 1)
      { handles := a.handles.set i (bo.handleForPlane i % 2 ^ 32)
        strides := a.strides.set i (bo.strideForPlane i)
        offsets := a.offsets.set i (bo.offset i)
        modifiers := a.modifiers.set i bo.modifier }

/-- The arrays as `initialize` fills them (drm_buffer_gbm.cpp 107-123). -/
def planeArrays (bo : GbmBo) : PlaneArrays :=
  let zero : PlaneArrays := ⟨[0, 0, 0, 0], [0, 0, 0, 0], [0, 0, 0, 0], [0, 0, 0, 0]⟩
  if bo.handleForPlane 0 % 2 ^ 32 ≠ 2 ^ 32 - 1 then
    fillPlanes bo bo.planeCount 0 zero
  else
    { zero with
      handles := zero.handles.set 0 bo.format
      strides := zero.strides.set 0 bo.stride
      modifiers := zero.modifiers.set 0 DRM_FORMAT_MOD_INVALID }

/-- The first modifier of a buffer, `modifiers[0]` in `initialize`. -/
def firstModifier (bo : GbmBo) : Nat :=
  (planeArrays bo).modifiers.headD 0

/-- What GBM, the rendering surface and the kernel answer to a hardware buffer object:
`GbmSurface::lockFrontBuffer`, the `gbm_bo_get_*` values of a buffer object, and the
three registration calls (the framebuffer id, `none` when the call fails, in which
case the id is not written). -/
structure GbmKernel where
  lockFrontBuffer : Nat → Option Nat
  bo : Nat → GbmBo
  addFB2WithModifiers : Nat → Nat → Nat → PlaneArrays → Option Nat
  addFB2 : Nat → Nat → Nat → PlaneArrays → Option Nat
  addFB : Nat → Nat → Nat → Nat → Option Nat

/-- The members of `GbmBuffer`; `connected` is the connection of the interface's
`aboutToBeDestroyed` signal to `clearBufferInterface`. -/
structure GbmBuffer where
  m_surface : Option Nat
  m_bo : Option Nat
  m_bufferInterface : Option Nat
  connected : Bool
  m_data : Option Nat
  m_stride : Nat
deriving DecidableEq, Repr

/-- The members of `DrmGbmBuffer`: its `GbmBuffer` base and the `DrmBuffer` members. -/
structure DrmGbmBuffer where
  gbm : GbmBuffer
  m_bufferId : Nat
  m_size : Nat × Nat
deriving DecidableEq, Repr

/-- The constructor `GbmBuffer::GbmBuffer(surface)` (drm_buffer_gbm.cpp 31-38). -/
def GbmBuffer.createFromSurface (k : GbmKernel) (surface : Nat) : GbmBuffer × List DrmCall :=
  ({ m_surface := some surface
     m_bo := k.lockFrontBuffer surface
     m_bufferInterface := none
     connected := false
     m_data := none
     m_stride := match k.lockFrontBuffer surface with
       | some bo => (k.bo bo).stride
       | none => 0 },
   [DrmCall.lockFrontBuffer surface])

/-- The constructor `GbmBuffer::GbmBuffer(buffer, bufferInterface)`
(drm_buffer_gbm.cpp 40-49). -/
def GbmBuffer.createFromBo (k : GbmKernel) (buffer : Nat) (bufferInterface : Option Nat) :
    GbmBuffer × List DrmCall :=
  ({ m_surface := none
     m_bo := some buffer
     m_bufferInterface := bufferInterface
     connected := bufferInterface.isSome
     m_data := none
     m_stride := (k.bo buffer).stride },
   match bufferInterface with
   | some i => [DrmCall.ref i, DrmCall.connect i]
   | none => [])

/-- `GbmBuffer::clearBufferInterface()` (drm_buffer_gbm.cpp 74-79); it is only reached
with an interface. -/
def GbmBuffer.clearBufferInterface (b : GbmBuffer) : GbmBuffer × List DrmCall :=
  match b.m_bufferInterface with
  | some i =>
    ({ b with m_bufferInterface := none, connected := false },
      [DrmCall.disconnect i, DrmCall.unref i])
  | none => (b, [])

/-- The interface emits `aboutToBeDestroyed`: the connected slot runs. -/
def GbmBuffer.aboutToBeDestroyed (b : GbmBuffer) : GbmBuffer × List DrmCall :=
  if b.connected then b.clearBufferInterface else (b, [])

/-- A number of `aboutToBeDestroyed` emissions in a row. -/
def GbmBuffer.emissions : Nat → GbmBuffer → GbmBuffer × List DrmCall
  | 0, b => (b, [])
  | n + 1, b =>
    let r := b.aboutToBeDestroyed
    let rest := GbmBuffer.emissions n r.1
    (rest.1, r.2 ++ rest.2)

/-- The destructor `GbmBuffer::~GbmBuffer` (drm_buffer_gbm.cpp 51-64): the calls made, in
order. -/
def GbmBuffer.destroy (b : GbmBuffer) : List DrmCall :=
  (match b.m_bufferInterface with
    | some _ => b.clearBufferInterface.2
    | none => []) ++
  (match b.m_data with
    | some data => [DrmCall.boUnmap b.m_bo data]
    | none => []) ++
  (match b.m_surface with
    | some surface => [DrmCall.releaseBuffer surface b.m_bo]
    | none =>
      match b.m_bo with
      | some bo => [DrmCall.boDestroy bo]
      | none => [])

/-- The calls over the life of a `GbmBuffer` built around a buffer object: construction,
a number of `aboutToBeDestroyed` emissions, destruction. -/
def GbmBuffer.lifetime (k : GbmKernel) (buffer : Nat) (bufferInterface : Option Nat)
    (emissions : Nat) : List DrmCall :=
  (GbmBuffer.createFromBo k buffer bufferInterface).2 ++
  (GbmBuffer.emissions emissions (GbmBuffer.createFromBo k buffer bufferInterface).1).2 ++
  (GbmBuffer.emissions emissions (GbmBuffer.createFromBo k buffer bufferInterface).1).1.destroy

/-- The calls over the life of a `GbmBuffer` built on a rendering surface. -/
def GbmBuffer.surfaceLifetime (k : GbmKernel) (surface : Nat) (emissions : Nat) :
    List DrmCall :=
  (GbmBuffer.createFromSurface k surface).2 ++
  (GbmBuffer.emissions emissions (GbmBuffer.createFromSurface k surface).1).2 ++
  (GbmBuffer.emissions emissions (GbmBuffer.createFromSurface k surface).1).1.destroy

/-- `DrmGbmBuffer::initialize()` (drm_buffer_gbm.cpp 104-139) for the buffer object `bo`
on a device whose `addFB2ModifiersSupported()` is given: the buffer afterwards and the
calls made. -/
def DrmGbmBuffer.initialize (k : GbmKernel) (addFB2ModifiersSupported : Bool)
    (b : DrmGbmBuffer) (bo : Nat) : DrmGbmBuffer × List DrmCall :=
  let info := k.bo bo
  let b := { b with m_size := (info.width, info.height) }
  let a := planeArrays info
  if a.modifiers.headD 0 ≠ DRM_FORMAT_MOD_INVALID ∧ addFB2ModifiersSupported = true then
    let call := DrmCall.addFB2WithModifiers info.width info.height info.format
      a.handles a.strides a.offsets a.modifiers DRM_MODE_FB_MODIFIERS
    match k.addFB2WithModifiers info.width info.height info.format a with
    | some bufferId => ({ b with m_bufferId := bufferId }, [call, DrmCall.setUserData bo])
    | none => (b, [call, DrmCall.setUserData bo])
  else
    let call2 := DrmCall.addFB2 info.width info.height info.format a.handles a.strides a.offsets 0
    match k.addFB2 info.width info.height info.format a with
    | some bufferId => ({ b with m_bufferId := bufferId }, [call2, DrmCall.setUserData bo])
    | none =>
      let call1 := DrmCall.addFB info.width info.height 24 32 (a.strides.headD 0)
        (a.handles.headD 0)
      match k.addFB info.width info.height (a.strides.headD 0) (a.handles.headD 0) with
      | some bufferId =>
        ({ b with m_bufferId := bufferId }, [call2, call1, DrmCall.setUserData bo])
      | none => (b, [call2, call1, DrmCall.setUserData bo])

/-- Modelled from the spec: the `DrmBuffer` members of a `DrmGbmBuffer` before the
constructor body (drm_buffer.h is absent): no framebuffer id, no size. -/
def DrmGbmBuffer.blank (gbm : GbmBuffer) : DrmGbmBuffer :=
  { gbm := gbm, m_bufferId := 0, m_size := (0, 0) }

/-- The constructor `DrmGbmBuffer::DrmGbmBuffer(gpu, surface)`
(drm_buffer_gbm.cpp 81-89). -/
def DrmGbmBuffer.createFromSurface (k : GbmKernel) (addFB2ModifiersSupported : Bool)
    (surface : Nat) : DrmGbmBuffer × List DrmCall :=
  let base := GbmBuffer.createFromSurface k surface
  let b := DrmGbmBuffer.blank base.1
  match base.1.m_bo with
  | none => (b, base.2)
  | some bo =>
    let r := DrmGbmBuffer.initialize k addFB2ModifiersSupported b bo
    (r.1, base.2 ++ r.2)

/-- The constructor `DrmGbmBuffer::DrmGbmBuffer(gpu, buffer, bufferInterface)`
(drm_buffer_gbm.cpp 91-95). -/
def DrmGbmBuffer.createFromBo (k : GbmKernel) (addFB2ModifiersSupported : Bool)
    (buffer : Nat) (bufferInterface : Option Nat) : DrmGbmBuffer × List DrmCall :=
  let base := GbmBuffer.createFromBo k buffer bufferInterface
  let b := DrmGbmBuffer.blank base.1
  let r := DrmGbmBuffer.initialize k addFB2ModifiersSupported b buffer
  (r.1, base.2 ++ r.2)

/-- The destruction of a `DrmGbmBuffer`: the body of `DrmGbmBuffer::~DrmGbmBuffer`
(drm_buffer_gbm.cpp 97-102), then the destructor of its base `GbmBuffer`. -/
def DrmGbmBuffer.destroy (b : DrmGbmBuffer) : List DrmCall :=
  (if b.m_bufferId ≠ 0 then [DrmCall.rmFB b.m_bufferId] else []) ++ b.gbm.destroy

/-! ## Example clocks and events -/

/-- Clock readings at a dispatch: the realtime clock at 1000 s, the monotonic clock at
10 s, the steady clock 5 ns later. -/
def exClocks : Clocks where
  clock_gettime := fun c =>
    match c with
    | ClockId.CLOCK_REALTIME => ⟨1000, 0⟩
    | ClockId.CLOCK_MONOTONIC => ⟨10, 0⟩
  steadyNow := 10000000005

/-- An event whose kernel timestamp, 100 s on the monotonic clock, is ahead of the steady
clock's 50 s at its dispatch. -/
def exEventAhead : FlipEvent where
  sec := 100
  usec := 0
  clocks := ⟨fun _ => ⟨50, 0⟩, 50000000000⟩

/-- A later event with the zero kernel timestamp, dispatched at 60 s. -/
def exEventZero : FlipEvent where
  sec := 0
  usec := 0
  clocks := ⟨fun _ => ⟨60, 0⟩, 60000000000⟩

/-- An event whose kernel timestamp, 40 s, lies before its dispatch at 50 s. -/
def exEventPast : FlipEvent where
  sec := 40
  usec := 0
  clocks := ⟨fun _ => ⟨50, 0⟩, 50000000000⟩

/-! ## Example buffers -/

/-- A kernel that allocates, registers and maps every dumb buffer. -/
def exDumbKernel : DumbKernel where
  createDumb := fun width height _ => some (7, width * height * 4, width * 4)
  addFB := fun _ _ _ _ _ _ => some 42
  mapDumb := fun _ => some 4096
  mmap := fun _ _ => some 8192
  imageIsNull := fun _ _ _ _ _ => false

/-- A kernel that allocates dumb buffers and refuses to register them. -/
def exDumbKernelNoFB : DumbKernel where
  createDumb := fun width height _ => some (7, width * height * 4, width * 4)
  addFB := fun _ _ _ _ _ _ => none
  mapDumb := fun _ => some 4096
  mmap := fun _ _ => some 8192
  imageIsNull := fun _ _ _ _ _ => false

/-- A kernel that refuses to allocate dumb buffers. -/
def exDumbKernelNoMemory : DumbKernel where
  createDumb := fun _ _ _ => none
  addFB := fun _ _ _ _ _ _ => some 42
  mapDumb := fun _ => some 4096
  mmap := fun _ _ => some 8192
  imageIsNull := fun _ _ _ _ _ => false

/-- A one-plane buffer object of 64 by 64 with a linear modifier. -/
def exBo : GbmBo where
  width := 64
  height := 64
  format := 875713112
  stride := 256
  handle := 9
  planeCount := 1
  handleForPlane := fun _ => 9
  strideForPlane := fun _ => 256
  offset := fun _ => 0
  modifier := 0

/-- GBM and a kernel that refuses every framebuffer registration. -/
def exGbmKernelNoFB : GbmKernel where
  lockFrontBuffer := fun _ => some 3
  bo := fun _ => exBo
  addFB2WithModifiers := fun _ _ _ _ => none
  addFB2 := fun _ _ _ _ => none
  addFB := fun _ _ _ _ => none

/-- GBM and a kernel that takes every framebuffer registration. -/
def exGbmKernel : GbmKernel where
  lockFrontBuffer := fun _ => some 3
  bo := fun _ => exBo
  addFB2WithModifiers := fun _ _ _ _ => some 51
  addFB2 := fun _ _ _ _ => some 52
  addFB := fun _ _ _ _ => some 53

/-! ## Capability queries of the constructor `DrmGpu::DrmGpu` -/

/-- A value of type `int` is a signed 32-bit number: the result of an arithmetic
operation or of a narrowing conversion, taken in two's complement. -/
def wrap32 (x : Int) : Int :=
  (x + 2 ^ 31) % 2 ^ 32 - 2 ^ 31

/-- The constant `DRM_CAP_TIMESTAMP_MONOTONIC`. -/
def DRM_CAP_TIMESTAMP_MONOTONIC : Nat := 6

/-- The constant `DRM_CAP_CURSOR_WIDTH`. -/
def DRM_CAP_CURSOR_WIDTH : Nat := 8

/-- The constant `DRM_CAP_CURSOR_HEIGHT`. -/
def DRM_CAP_CURSOR_HEIGHT : Nat := 9

/-- The constant `DRM_CAP_ADDFB2_MODIFIERS`. -/
def DRM_CAP_ADDFB2_MODIFIERS : Nat := 16

/-- What the constructor finds: for a capability the value the device reports (`none`
when the `DRM_IOCTL_GET_CAP` request fails) and whether the environment variable
`KWIN_DRM_NO_MODIFIERS` is set. -/
structure CapKernel where
  getCap : Nat → Option Nat
  noModifiersSet : Bool

/-- The library call `drmGetCap(fd, capability, &value)`: it returns 0 and writes the
reported value when the request succeeds, and returns the nonzero result of the request
and leaves `value` as it was when it fails.  The result is the returned `int` and the
content of `value` afterwards. -/
def drmGetCap (k : CapKernel) (capability : Nat) (value : Nat) : Int × Nat :=
  match k.getCap capability with
  | some reported => (0, reported % 2 ^ 64)
  | none => (-1, value)

/-- The members the constructor sets from the capability queries. -/
structure DrmGpuCaps where
  m_cursorSize : Int × Int
  m_presentationClock : ClockId
  m_addFB2ModifiersSupported : Bool
deriving DecidableEq, Repr

/-- The capability queries of `DrmGpu::DrmGpu` (drm_gpu.cpp 47-71): one local
`capability`, zero at first, is handed to the four `drmGetCap` calls in turn;
`m_addFB2ModifiersSupported` starts as `false` (drm_gpu.h 145). -/
def DrmGpu.construct (k : CapKernel) : DrmGpuCaps :=
  let capability : Nat := 0
  let w := drmGetCap k DRM_CAP_CURSOR_WIDTH capability
  let capability := w.2
  let width : Int := if w.1 = 0 then wrap32 capability else 64
  let h := drmGetCap k DRM_CAP_CURSOR_HEIGHT capability
  let capability := h.2
  let height : Int := if h.1 = 0 then wrap32 capability else 64
  let t := drmGetCap k DRM_CAP_TIMESTAMP_MONOTONIC capability
  let ret := t.1
  let capability := t.2
  let m_presentationClock :=
    if ret = 0 ∧ capability = 1 then ClockId.CLOCK_MONOTONIC else ClockId.CLOCK_REALTIME
  let m_addFB2ModifiersSupported :=
    if !k.noModifiersSet then
      let m := drmGetCap k DRM_CAP_ADDFB2_MODIFIERS capability
      let capability := m.2
      decide (m.1 ≠ 0) && decide (capability = 1)
    else false
  { m_cursorSize := (width, height)
    m_presentationClock := m_presentationClock
    m_addFB2ModifiersSupported := m_addFB2ModifiersSupported }

/-- The getter `bool addFB2ModifiersSupported() const` (drm_gpu.h 96-98). -/
def DrmGpuCaps.addFB2ModifiersSupported (g : DrmGpuCaps) : Bool :=
  g.m_addFB2ModifiersSupported

/-- A device that reports a 64 by 64 cursor, monotonic timestamps and support for
buffer modifiers; `KWIN_DRM_NO_MODIFIERS` is not set. -/
def exCapModifiers : CapKernel where
  getCap := fun capability =>
    if capability = 8 then some 64 else if capability = 9 then some 64
    else if capability = 6 then some 1 else if capability = 16 then some 1 else none
  noModifiersSet := false

/-- A device that reports a 64 by 64 cursor and monotonic timestamps and fails the
query for buffer modifiers; `KWIN_DRM_NO_MODIFIERS` is not set. -/
def exCapNoQuery : CapKernel where
  getCap := fun capability =>
    if capability = 8 then some 64 else if capability = 9 then some 64
    else if capability = 6 then some 1 else none
  noModifiersSet := false

/-! ## `EglMultiBackend::findBackend` -/

/-- A backend of `m_eglBackends` as `findBackend` sees it: which backend it is and what
its `screenCount()` returns. -/
structure AbstractEglDrmBackend where
  id : Nat
  screenCount : Int
deriving DecidableEq, Repr

/-- The loop of `findBackend` (egl_multi_backend.cpp 120-127) over the backends from
index `i` on, `screens` being the running sum: the returned backend (`none` for
`nullptr`) and the content of `internalScreenId` afterwards. -/
def findBackendLoop : List AbstractEglDrmBackend → Int → Int → Int →
    Option AbstractEglDrmBackend × Int
  | [], _, _, internalScreenId => (none, internalScreenId)
  | backend :: rest, screens, screenId, internalScreenId =>
    if screenId < wrap32 (screens + backend.screenCount) then
      (some backend, wrap32 (screenId - screens))
    else
      findBackendLoop rest (wrap32 (screens + backend.screenCount)) screenId internalScreenId

/-- `EglMultiBackend::findBackend(screenId, internalScreenId)`
(egl_multi_backend.cpp 118-130). -/
def findBackend (m_eglBackends : List AbstractEglDrmBackend) (screenId : Int)
    (internalScreenId : Int) : Option AbstractEglDrmBackend × Int :=
  findBackendLoop m_eglBackends 0 screenId internalScreenId

/-- The number of screens of the first `i` backends, `c_0 + ... + c_{i-1}`. -/
def screensBefore (m_eglBackends : List AbstractEglDrmBackend) (i : Nat) : Int :=
  ((m_eglBackends.take i).map (·.screenCount)).sum

/-- Three backends with 2, 0 and 3 screens. -/
def exBackends : List AbstractEglDrmBackend :=
  [⟨0, 2⟩, ⟨1, 0⟩, ⟨2, 3⟩]

/-! ## `RuleBookSettings::setRules` and `rules` -/

/-- Modelled from the spec: a `RuleSettings` object (rulesettings.h is absent, the spec
leaves the rule book to an external collaborator), reduced to what `setRules` and `rules`
use of it: the configuration group it belongs to and the rule written to it, `none` after
`setDefaults()`. -/
structure RuleSettings where
  currentGroup : Nat
  rule : Option Nat
deriving DecidableEq, Repr

/-- The members of `RuleBookSettings` that `setRules` touches. -/
structure RuleBookSettings where
  m_list : List RuleSettings
  mRuleGroupList : List Nat
  mCount : Int
deriving DecidableEq, Repr

/-- The loop writing the rules (rulebooksettings.cpp 44-60); `i` counts the rules
written, `list_length` is the length of the cache before the loop and
`generateGroupName` gives the group name of a settings object created at a length of
the cache.  A read of `m_list.at(i)` outside the list has no result. -/
def writeRules (generateGroupName : Nat → Nat) (list_length : Nat) :
    List Nat → Nat → RuleBookSettings → Option RuleBookSettings
  | [], _, s => some s
  | rule :: rest, i, s =>
    if i < list_length then
      match s.m_list.get? i with
      | none => none
      | some settings =>
        let settings := { settings with rule := none }
        let settings := { settings with rule := some rule }
        writeRules generateGroupName list_length rest (i + 1)
          { s with
            m_list := s.m_list.set i settings
            mRuleGroupList := s.mRuleGroupList ++ [settings.currentGroup] }
    else
      let settings : RuleSettings := ⟨generateGroupName s.m_list.length, some rule⟩
      writeRules generateGroupName list_length rest (i + 1)
        { s with
          m_list := s.m_list ++ [settings]
          mRuleGroupList := s.mRuleGroupList ++ [settings.currentGroup] }

/-- The loop after the rules were written (rulebooksettings.cpp 62-65),
`for (int j = m_list.count() - 1; j < rules.count(); j++)`, at index `j` with `n`
iterations to go: `delete m_list[j]; m_list.removeAt(j);`.  An index outside the list
has no result. -/
def trimLoop : Nat → Int → List RuleSettings → Option (List RuleSettings)
  | 0, _, m_list => some m_list
  | n + 1, j, m_list =>
    if 0 ≤ j ∧ j < m_list.length then
      trimLoop n (j + 1) (m_list.eraseIdx j.toNat)
    else
      none

/-- `RuleBookSettings::setRules(rules)` (rulebooksettings.cpp 38-68); the second loop
runs for `j = m_list.count() - 1, ..., rules.count() - 1`, that is
`rules.count() - (m_list.count() - 1)` times when that is positive. -/
def RuleBookSettings.setRules (generateGroupName : Nat → Nat) (s : RuleBookSettings)
    (rules : List Nat) : Option RuleBookSettings :=
  let s := { s with mRuleGroupList := [] }
  match writeRules generateGroupName s.m_list.length rules 0 s with
  | none => none
  | some s =>
    let j : Int := (s.m_list.length : Int) - 1
    match trimLoop ((rules.length : Int) - j).toNat j s.m_list with
    | none => none
    | some m_list =>
      some { s with m_list := m_list, mCount := s.mRuleGroupList.length }

/-- `RuleBookSettings::rules()` (rulebooksettings.cpp 70-78): one rule per settings
object of the cache. -/
def RuleBookSettings.rules (s : RuleBookSettings) : List (Option Nat) :=
  s.m_list.map (·.rule)

/-- The getter `count()` of the generated base class. -/
def RuleBookSettings.count (s : RuleBookSettings) : Int :=
  s.mCount

/-- The group names the examples generate: group 100 for the first object, 101 for the
next, and so on. -/
def exGroupName (n : Nat) : Nat :=
  100 + n

/-- An empty cache. -/
def exNoRules : RuleBookSettings :=
  ⟨[], [], 0⟩

/-- A cache of three rules. -/
def exThreeRules : RuleBookSettings :=
  ⟨[⟨100, some 1⟩, ⟨101, some 2⟩, ⟨102, some 3⟩], [100, 101, 102], 3⟩

/-! ## A buffer object without per-plane handle -/

/-- A buffer object of 64 by 64 whose `gbm_bo_get_handle_for_plane` gives -1 for every
plane; its handle is 9 and its format the code of `XRGB8888`. -/
def exBoNoPlaneHandle : GbmBo where
  width := 64
  height := 64
  format := 875713112
  stride := 256
  handle := 9
  planeCount := 1
  handleForPlane := fun _ => 4294967295
  strideForPlane := fun _ => 0
  offset := fun _ => 0
  modifier := 0

/-- GBM and a kernel that takes every framebuffer registration, for the buffer object
without per-plane handle. -/
def exGbmKernelNoPlaneHandle : GbmKernel where
  lockFrontBuffer := fun _ => some 3
  bo := fun _ => exBoNoPlaneHandle
  addFB2WithModifiers := fun _ _ _ _ => some 51
  addFB2 := fun _ _ _ _ => some 52
  addFB := fun _ _ _ _ => some 53

/-! ## `DrmGpu::waitIdle` and `DrmGpu::dispatchEvents` -/

/-- The constant `EINTR`. -/
def EINTR : Int := 4

/-- What happens around the iterations of the loop of `waitIdle`, counted from 0: the
value `poll` returns in an iteration and `errno` after it, whether the session is active
when `dispatchEvents` runs in it, and the outputs, as positions in `m_outputs`, whose
page-flip events `drmHandleEvent` reads then. -/
structure WaitEnv where
  poll : Nat → Int
  errno : Nat → Int
  isActive : Nat → Bool
  events : Nat → List Nat

/-- The calls of `waitIdle` and `dispatchEvents` that are recorded:
`m_socketNotifier->setEnabled`, `poll` with its timeout in milliseconds, and
`drmHandleEvent`. -/
inductive WaitCall where
  | setEnabled (enabled : Bool)
  | poll (timeout : Int)
  | drmHandleEvent
deriving DecidableEq, Repr

/-- The library call `drmHandleEvent` with `pageFlipHandler` as handler
(drm_gpu.cpp 411-433, 440-443): `pageFlipped()` is called on the output of every event
read. -/
def handleEvents : List Nat → List DrmOutputFlip → List DrmOutputFlip
  | [], outputs => outputs
  | i :: rest, outputs =>
    match outputs.get? i with
    | some output => handleEvents rest (outputs.set i output.pageFlipped)
    | none => handleEvents rest outputs

/-- `DrmGpu::dispatchEvents()` (drm_gpu.cpp 435-444) in iteration `k`: the outputs
afterwards and the calls made. -/
def dispatchEvents (env : WaitEnv) (k : Nat) (outputs : List DrmOutputFlip) :
    List DrmOutputFlip × List WaitCall :=
  if !env.isActive k then (outputs, [])
  else (handleEvents (env.events k) outputs, [WaitCall.drmHandleEvent])

/-- The three `break` statements of the loop of `waitIdle`: every output is idle, `poll`
returned 0, `poll` failed with an `errno` other than `EINTR`. -/
inductive WaitExit where
  | idle
  | timedOut
  | pollFailed (errno : Int)
deriving DecidableEq, Repr

/-- Where `waitIdle` is after a number of iterations: it has left its loop by one of the
`break` statements, or the loop is still running. -/
inductive WaitOutcome where
  | left (exit : WaitExit) (outputs : List DrmOutputFlip) (trace : List WaitCall)
  | running (outputs : List DrmOutputFlip) (trace : List WaitCall)
deriving DecidableEq, Repr

/-- The loop of `waitIdle` (drm_gpu.cpp 362-385), at most `n` iterations of it starting
with iteration `k`; `trace` holds the calls made so far. -/
def waitLoop (env : WaitEnv) :
    Nat → Nat → List DrmOutputFlip → List WaitCall → WaitOutcome
  | 0, _, outputs, trace => WaitOutcome.running outputs trace
  | n + 1, k, outputs, trace =>
    let idle := outputs.all fun output => !output.m_pageFlipPending
    if idle then
      WaitOutcome.left WaitExit.idle outputs trace
    else
      let ready := env.poll k
      let trace := trace ++ [WaitCall.poll 30000]
      if ready < 0 then
        if env.errno k ≠ EINTR then
          WaitOutcome.left (WaitExit.pollFailed (env.errno k)) outputs trace
        else
          waitLoop env n (k + 1) outputs trace
      else if ready = 0 then
        WaitOutcome.left WaitExit.timedOut outputs trace
      else
        let d := dispatchEvents env k outputs
        waitLoop env n (k + 1) d.1 (trace ++ d.2)

/-- `DrmGpu::waitIdle()` (drm_gpu.cpp 359-387), its loop followed for at most `n`
iterations. -/
def waitIdle (env : WaitEnv) (n : Nat) (outputs : List DrmOutputFlip) : WaitOutcome :=
  match waitLoop env n 0 outputs [WaitCall.setEnabled false] with
  | WaitOutcome.left exit outputs trace =>
    WaitOutcome.left exit outputs (trace ++ [WaitCall.setEnabled true])
  | WaitOutcome.running outputs trace => WaitOutcome.running outputs trace

/-- An output with a pending page flip of buffer 1. -/
def exPendingOutput : DrmOutputFlip :=
  ⟨true, some 1, none⟩

/-- An environment in which the session is never active and every `poll` reports the
descriptor readable, the event of output 0 waiting to be read. -/
def exWaitInactive : WaitEnv where
  poll := fun _ => 1
  errno := fun _ => 0
  isActive := fun _ => false
  events := fun _ => [0]

/-- An environment with an active session in which the first `poll` is interrupted, the
second reads the event of output 0 and every later one times out. -/
def exWaitActive : WaitEnv where
  poll := fun k => if k = 0 then -1 else if k = 1 then 1 else 0
  errno := fun k => if k = 0 then 4 else 0
  isActive := fun _ => true
  events := fun k => if k = 1 then [0] else []

/-! ## The removal loop of `updateOutputs` on the storage of `m_outputs` -/

/-- An output object as the removal loop of `updateOutputs` touches it: its `m_pipeline`
(`none` for `nullptr`) and whether `teardown()` was called on it. -/
structure OutputObject where
  m_pipeline : Option DrmPipeline
  tornDown : Bool
deriving DecidableEq, Repr

/-- The memory the removal loop of `updateOutputs` works on.  `objects` are the output
objects, a pointer to an output being a position in this list.  `storage` is the array
behind the vector `m_outputs`, whose elements are its first `size` slots: the vector holds
pointers and shares its array with no copy, `QVector::erase` moves the later elements
down in place and lowers the size, so the slots from `size` on keep what they held.  `outputRemoved` lists the outputs the
signal was emitted for, in order. -/
structure RemovalState where
  objects : List OutputObject
  storage : List Nat
  size : Nat
  m_pipelines : List DrmPipeline
  m_unusedPlanes : List DrmPlane
  outputRemoved : List Nat
deriving DecidableEq, Repr

/-- The memory of a device none of whose outputs was torn down: output `i` of `m_outputs`
is object `i`. -/
def RemovalState.ofGpu (g : DrmGpu) : RemovalState where
  objects := g.m_outputs.map fun output => ⟨some output.m_pipeline, false⟩
  storage := List.range g.m_outputs.length
  size := g.m_outputs.length
  m_pipelines := g.m_pipelines
  m_unusedPlanes := g.m_unusedPlanes
  outputRemoved := []

/-- The elements of `m_outputs`. -/
def RemovalState.m_outputs (s : RemovalState) : List Nat :=
  s.storage.take s.size

/-- The pipeline each element of `m_outputs` is bound to, `none` for `nullptr`. -/
def RemovalState.boundPipelines (s : RemovalState) : List (Option DrmPipeline) :=
  s.m_outputs.map fun output => (s.objects.get? output).bind (·.m_pipeline)

/-- The library call `QVector::removeOne(t)` on the storage of a vector of pointers:
`indexOf(t)` among the elements and, when it is found, `erase` of that position, which
moves the later elements down by one slot and lowers the size by one. -/
def removeOne (storage : List Nat) (size : Nat) (t : Nat) : List Nat × Nat :=
  let elements := storage.take size
  let i := elements.indexOf t
  if i < elements.length then
    (elements.eraseIdx i ++ storage.drop (size - 1), size - 1)
  else
    (storage, size)

/-- The body of the removal loop (drm_gpu.cpp 146-172) with the iterator at slot `it`.
`const auto &output` is a reference to that slot of the storage, so after
`m_outputs.removeOne(output)` the name `output` stands for what the slot holds then;
`pipeline` is a copy taken before.  There is no result when a null `m_pipeline` is
dereferenced, or, with `qAsserts` (a build in which `Q_ASSERT` is active), when an
assertion fails. -/
def removeStep (qAsserts : Bool) (h : Hotplug) (it : Nat) (s : RemovalState) :
    Option RemovalState :=
  match s.storage.get? it with
  | none => none
  | some output =>
    match (s.objects.get? output).bind (·.m_pipeline) with
    | none => none
    | some pipeline =>
      if !h.isConnected pipeline.connector then
        let r := removeOne s.storage s.size output
        match r.1.get? it with
        | none => none
        | some output =>
          if qAsserts && (r.1.take r.2).contains output then none
          else
            let m_pipelines := s.m_pipelines.erase pipeline
            if qAsserts && m_pipelines.contains pipeline then none
            else
              some
                { objects := s.objects.set output ⟨none, true⟩
                  storage := r.1
                  size := r.2
                  m_pipelines := m_pipelines
                  m_unusedPlanes := s.m_unusedPlanes ++ pipeline.releasedPlanes
                  outputRemoved := s.outputRemoved ++ [output] }
      else
        some s

/-- The removal loop `for (const auto &output : qAsConst(m_outputs))`
(drm_gpu.cpp 145-173) with `n` slots to go from slot `it`; the range of the loop is fixed
before the first iteration. -/
def removeLoopRaw (qAsserts : Bool) (h : Hotplug) :
    Nat → Nat → RemovalState → Option RemovalState
  | 0, _, s => some s
  | n + 1, it, s =>
    match removeStep qAsserts h it s with
    | none => none
    | some s => removeLoopRaw qAsserts h n (it + 1) s

/-- The removal step of `updateOutputs` (drm_gpu.cpp 145-173): the loop over the slots
`0, ..., size - 1` of the storage. -/
def removeOutputs (qAsserts : Bool) (h : Hotplug) (s : RemovalState) : Option RemovalState :=
  removeLoopRaw qAsserts h s.size 0 s

/-- The CRTC of pipe 2. -/
def crtc2 : DrmCrtc := ⟨12, 2⟩

/-- A primary plane for the three pipes. -/
def planeC : DrmPlane := ⟨22, TypeIndex.Primary, 7⟩

/-- A connector that can only be driven by pipe 2. -/
def connPipe2 : DrmConnector := ⟨6, [103]⟩

/-- A kernel with the encoders of `exKernel` and encoder 103, which drives pipe 2. -/
def exKernel3 : Kernel where
  getEncoder := fun encId =>
    if encId = 100 then some 1 else if encId = 101 then some 2
    else if encId = 102 then some 3 else if encId = 103 then some 4 else none
  test := fun _ => true
  setEnablement := fun _ _ => true

/-- The answers of a device that accepts atomic mode and has three primary planes. -/
def exAms3 : AmsKernel where
  setClientCapAtomic := true
  planeResources := some [20, 21, 22]
  planeInit := fun planeId =>
    if planeId = 20 then some planeA else if planeId = 21 then some planeB
    else if planeId = 22 then some planeC else none

/-- A rescan of a device with three CRTCs that lists the given connector ids; the
connector with the id `gone` is not connected, every other connector is. -/
def exHotplug3 (connectorIds : List Nat) (gone : Nat) : Hotplug where
  resources := some (connectorIds, [10, 11, 12])
  isConnected := fun c => decide (c.id ≠ gone)
  connectorInit := fun connectorId =>
    if connectorId = 1 then some connPipe0 else if connectorId = 2 then some connPipe1
    else if connectorId = 6 then some connPipe2 else none
  isNonDesktop := fun _ => false
  crtcInit := fun crtcId i => some ⟨crtcId, i⟩

/-- The device after `tryAMS` and a first rescan that finds the connectors of pipe 0,
pipe 1 and pipe 2 connected: three outputs. -/
def exThreeOutputs : DrmGpu :=
  updateOutputs exKernel3 (exHotplug3 [1, 2, 6] 0) (tryAMS exAms3 DrmGpu.initial)

/-- The device with three CRTCs after `tryAMS` and a first rescan that finds the
connectors of pipe 0 and pipe 1 connected: two outputs. -/
def exTwoOfThree : DrmGpu :=
  updateOutputs exKernel3 (exHotplug3 [1, 2] 0) (tryAMS exAms3 DrmGpu.initial)

/-! # Theorems -/

/-! ## Recursion budget -/

theorem planeLoop_congr (k : Kernel) (r1 r2 : List DrmConnector → List DrmCrtc → List DrmPlane → List DrmPipeline)
    (connector : DrmConnector) (connectors : List DrmConnector) (crtcs : List DrmCrtc)
    (planes : List DrmPlane) (crtc : DrmCrtc)
    (h : ∀ xs ps, r1 connectors xs ps = r2 connectors xs ps) :
    ∀ (rest : List DrmPlane) (most : List DrmPipeline),
      planeLoop k r1 connector connectors crtcs planes crtc rest most
        = planeLoop k r2 connector connectors crtcs planes crtc rest most := by
  intro rest
  induction rest with
  | nil => intro most; rfl
  | cons plane rest ih =>
    intro most
    simp only [planeLoop, h, ih]

theorem crtcLoop_congr (k : Kernel) (a : Bool)
    (r1 r2 : List DrmConnector → List DrmCrtc → List DrmPlane → List DrmPipeline)
    (connector : DrmConnector) (connectors : List DrmConnector) (crtcs : List DrmCrtc)
    (planes : List DrmPlane) (pc : Nat)
    (h : ∀ xs ps, r1 connectors xs ps = r2 connectors xs ps)
    (he : ∀ xs ps, r1 (connectors.erase connector) xs ps = r2 (connectors.erase connector) xs ps) :
    ∀ (rest : List DrmCrtc) (most : List DrmPipeline),
      crtcLoop k a r1 connector connectors crtcs planes pc rest most
        = crtcLoop k a r2 connector connectors crtcs planes pc rest most := by
  intro rest
  induction rest with
  | nil => intro most; rfl
  | cons crtc rest ih =>
    intro most
    simp only [crtcLoop, he, ih, planeLoop_congr k r1 r2 connector connectors crtcs planes crtc h]

theorem encoderLoop_congr (k : Kernel) (a : Bool)
    (r1 r2 : List DrmConnector → List DrmCrtc → List DrmPlane → List DrmPipeline)
    (connector : DrmConnector) (connectors : List DrmConnector) (crtcs : List DrmCrtc)
    (planes : List DrmPlane)
    (h : ∀ xs ps, r1 connectors xs ps = r2 connectors xs ps)
    (he : ∀ xs ps, r1 (connectors.erase connector) xs ps = r2 (connectors.erase connector) xs ps) :
    ∀ (rest : List Nat) (most : List DrmPipeline),
      encoderLoop k a r1 connector connectors crtcs planes rest most
        = encoderLoop k a r2 connector connectors crtcs planes rest most := by
  intro rest
  induction rest with
  | nil => intro most; rfl
  | cons encId rest ih =>
    intro most
    simp only [encoderLoop, ih, crtcLoop_congr k a r1 r2 connector connectors crtcs planes _ h he]

/-- A budget of at least the number of connectors gives the result of any other such budget. -/
theorem findWorkingCombinationFuel_congr (k : Kernel) (a : Bool) :
    ∀ (n m : Nat) (cs : List DrmConnector) (xs : List DrmCrtc) (ps : List DrmPlane),
      cs.length ≤ n → cs.length ≤ m →
      findWorkingCombinationFuel k a n cs xs ps = findWorkingCombinationFuel k a m cs xs ps := by
  intro n
  induction n with
  | zero =>
    intro m cs xs ps hn _
    have hcs : cs = [] := List.length_eq_zero.mp (Nat.le_zero.mp hn)
    subst hcs
    cases m <;> rfl
  | succ n ih =>
    intro m cs xs ps hn hm
    cases cs with
    | nil => cases m <;> rfl
    | cons c cs =>
      cases m with
      | zero => simp at hm
      | succ m =>
        simp only [List.length_cons, Nat.succ_le_succ_iff] at hn hm
        simp only [findWorkingCombinationFuel]
        have hle : (cs.erase c).length ≤ cs.length := by
          rw [List.length_erase]; split_ifs <;> omega
        exact encoderLoop_congr k a _ _ c cs xs ps
          (fun xs ps => ih m cs xs ps hn hm)
          (fun xs ps => ih m (cs.erase c) xs ps (le_trans hle hn) (le_trans hle hm)) _ _

/-- The recursion of `findWorkingCombination`, with the budget gone: the empty connector
list gives the empty result. -/
theorem findWorkingCombination_nil (k : Kernel) (a : Bool) (xs : List DrmCrtc) (ps : List DrmPlane) :
    findWorkingCombination k a [] xs ps = [] := rfl

/-- The recursion of `findWorkingCombination`, with the budget gone: a non-empty connector
list runs the encoder loop of the first connector, recursing into the function itself. -/
theorem findWorkingCombination_cons (k : Kernel) (a : Bool) (c : DrmConnector)
    (cs : List DrmConnector) (xs : List DrmCrtc) (ps : List DrmPlane) :
    findWorkingCombination k a (c :: cs) xs ps
      = encoderLoop k a (findWorkingCombination k a) c cs xs ps c.encoders [] := by
  have hle : (cs.erase c).length ≤ cs.length := by
    rw [List.length_erase]; split_ifs <;> omega
  have h0 : findWorkingCombination k a (c :: cs) xs ps
      = encoderLoop k a (findWorkingCombinationFuel k a cs.length) c cs xs ps c.encoders [] := rfl
  rw [h0]
  exact encoderLoop_congr k a (findWorkingCombinationFuel k a cs.length)
    (findWorkingCombination k a) c cs xs ps
    (fun _ _ => rfl)
    (fun xs ps => findWorkingCombinationFuel_congr k a cs.length (cs.erase c).length
      (cs.erase c) xs ps hle le_rfl) _ _

/-! ## Every result is built by the two candidate rules -/

theorem planeLoop_all (Q : List DrmPipeline → Prop) (k : Kernel)
    (recur : List DrmConnector → List DrmCrtc → List DrmPlane → List DrmPipeline)
    (connector : DrmConnector) (connectors : List DrmConnector) (crtcs : List DrmCrtc)
    (planes : List DrmPlane) (crtc : DrmCrtc) :
    ∀ (rest : List DrmPlane) (most : List DrmPipeline),
      (∀ plane ∈ rest, atomicCandidate k connector crtc plane →
        Q (⟨connector, crtc, some plane, none⟩ ::
          recur connectors (crtcs.erase crtc) (planes.erase plane))) →
      Q most →
      (planeLoop k recur connector connectors crtcs planes crtc rest most).All Q := by
  intro rest
  induction rest with
  | nil => intro most _ hm; exact hm
  | cons plane rest ih =>
    intro most hstep hm
    have hrest : ∀ p ∈ rest, atomicCandidate k connector crtc p →
        Q (⟨connector, crtc, some p, none⟩ :: recur connectors (crtcs.erase crtc) (planes.erase p)) :=
      fun p hp => hstep p (List.mem_cons_of_mem _ hp)
    simp only [planeLoop]
    split_ifs with h1 h2 h3 h4
    · exact ih most hrest hm
    · have hc : atomicCandidate k connector crtc plane := by
        simp only [Bool.and_eq_true, beq_iff_eq] at h1
        simp only [Bool.not_eq_true', Bool.not_eq_false] at h2
        exact ⟨h1.1, h1.2, h2⟩
      exact hstep plane (List.mem_cons_self _ _) hc
    · have hc : atomicCandidate k connector crtc plane := by
        simp only [Bool.and_eq_true, beq_iff_eq] at h1
        simp only [Bool.not_eq_true', Bool.not_eq_false] at h2
        exact ⟨h1.1, h1.2, h2⟩
      exact ih _ hrest (hstep plane (List.mem_cons_self _ _) hc)
    · exact ih most hrest hm
    · exact ih most hrest hm

theorem crtcLoop_all (Q : List DrmPipeline → Prop) (k : Kernel) (a : Bool)
    (recur : List DrmConnector → List DrmCrtc → List DrmPlane → List DrmPipeline)
    (connector : DrmConnector) (connectors : List DrmConnector) (crtcs : List DrmCrtc)
    (planes : List DrmPlane) (pc : Nat) :
    ∀ (rest : List DrmCrtc) (most : List DrmPipeline),
      (∀ crtc ∈ rest, pipeBitSet pc crtc.pipeIndex = true → a = true →
        ∀ plane ∈ planes, atomicCandidate k connector crtc plane →
          Q (⟨connector, crtc, some plane, none⟩ ::
            recur connectors (crtcs.erase crtc) (planes.erase plane))) →
      (∀ crtc ∈ rest, pipeBitSet pc crtc.pipeIndex = true → a = false →
        Q (recur (connectors.erase connector) (crtcs.erase crtc) planes
          ++ [⟨connector, crtc, none, none⟩])) →
      Q most →
      (crtcLoop k a recur connector connectors crtcs planes pc rest most).All Q := by
  intro rest
  induction rest with
  | nil => intro most _ _ hm; exact hm
  | cons crtc rest ih =>
    intro most hat hleg hm
    have hat2 := fun x (hx : x ∈ rest) => hat x (List.mem_cons_of_mem _ hx)
    have hleg2 := fun x (hx : x ∈ rest) => hleg x (List.mem_cons_of_mem _ hx)
    simp only [crtcLoop]
    split_ifs with h1 h2
    · exact ih most hat2 hleg2 hm
    · simp only [Bool.not_eq_true', Bool.not_eq_false] at h1
      have hp := planeLoop_all Q k recur connector connectors crtcs planes crtc planes most
        (hat crtc (List.mem_cons_self _ _) h1 h2) hm
      cases hpl : planeLoop k recur connector connectors crtcs planes crtc planes most with
      | ret v => rw [hpl] at hp; exact hp
      | cont m => rw [hpl] at hp; exact ih m hat2 hleg2 hp
    · simp only [Bool.not_eq_true', Bool.not_eq_false] at h1
      simp only [Bool.not_eq_true] at h2
      exact hleg crtc (List.mem_cons_self _ _) h1 h2

theorem encoderLoop_all (Q : List DrmPipeline → Prop) (k : Kernel) (a : Bool)
    (recur : List DrmConnector → List DrmCrtc → List DrmPlane → List DrmPipeline)
    (connector : DrmConnector) (connectors : List DrmConnector) (crtcs : List DrmCrtc)
    (planes : List DrmPlane) :
    ∀ (rest : List Nat) (most : List DrmPipeline),
      (∀ encId ∈ rest, ∀ pc, k.getEncoder encId = some pc →
        ∀ crtc ∈ crtcs, pipeBitSet pc crtc.pipeIndex = true → a = true →
        ∀ plane ∈ planes, atomicCandidate k connector crtc plane →
          Q (⟨connector, crtc, some plane, none⟩ ::
            recur connectors (crtcs.erase crtc) (planes.erase plane))) →
      (∀ encId ∈ rest, ∀ pc, k.getEncoder encId = some pc →
        ∀ crtc ∈ crtcs, pipeBitSet pc crtc.pipeIndex = true → a = false →
        Q (recur (connectors.erase connector) (crtcs.erase crtc) planes
          ++ [⟨connector, crtc, none, none⟩])) →
      Q most →
      Q (encoderLoop k a recur connector connectors crtcs planes rest most) := by
  intro rest
  induction rest with
  | nil => intro most _ _ hm; exact hm
  | cons encId rest ih =>
    intro most hat hleg hm
    have hat2 := fun e (he : e ∈ rest) => hat e (List.mem_cons_of_mem _ he)
    have hleg2 := fun e (he : e ∈ rest) => hleg e (List.mem_cons_of_mem _ he)
    simp only [encoderLoop]
    cases hg : k.getEncoder encId with
    | none => exact ih most hat2 hleg2 hm
    | some pc =>
      have hc := crtcLoop_all Q k a recur connector connectors crtcs planes pc crtcs most
        (hat encId (List.mem_cons_self _ _) pc hg) (hleg encId (List.mem_cons_self _ _) pc hg) hm
      dsimp only
      cases hcl : crtcLoop k a recur connector connectors crtcs planes pc crtcs most with
      | ret v => rw [hcl] at hc; exact hc
      | cont m => rw [hcl] at hc; exact ih m hat2 hleg2 hc

theorem encoderAllows_iff (k : Kernel) (c : DrmConnector) (x : DrmCrtc) :
    encoderAllows k c x = true ↔
      ∃ e ∈ c.encoders, ∃ pc, k.getEncoder e = some pc ∧ pipeBitSet pc x.pipeIndex = true := by
  unfold encoderAllows
  rw [List.any_eq_true]
  constructor
  · rintro ⟨e, he, h⟩
    cases hg : k.getEncoder e with
    | none => rw [hg] at h; cases h
    | some pc => rw [hg] at h; exact ⟨e, he, pc, hg, h⟩
  · rintro ⟨e, he, pc, hg, hb⟩
    exact ⟨e, he, by rw [hg]; exact hb⟩

/-- Rule induction for `findWorkingCombination`: a relation between the inputs and a
pipeline list that holds of the empty list, is kept by prepending an accepted atomic
candidate to a result for the remaining resources, and by appending a legacy candidate,
holds of every result. -/
theorem findWorkingCombination_rules (k : Kernel) (a : Bool)
    (Q : List DrmConnector → List DrmCrtc → List DrmPlane → List DrmPipeline → Prop)
    (hnil : ∀ cs xs ps, Q cs xs ps [])
    (hatomic : ∀ c cs xs ps x p r, a = true → x ∈ xs → p ∈ ps →
      encoderAllows k c x = true →
      atomicCandidate k c x p →
      Q cs (xs.erase x) (ps.erase p) r → Q (c :: cs) xs ps (⟨c, x, some p, none⟩ :: r))
    (hlegacy : ∀ c cs xs ps x r, a = false → x ∈ xs →
      encoderAllows k c x = true →
      Q (cs.erase c) (xs.erase x) ps r → Q (c :: cs) xs ps (r ++ [⟨c, x, none, none⟩])) :
    ∀ cs xs ps, Q cs xs ps (findWorkingCombination k a cs xs ps) := by
  have main : ∀ n : Nat, ∀ cs : List DrmConnector, cs.length ≤ n →
      ∀ xs ps, Q cs xs ps (findWorkingCombination k a cs xs ps) := by
    intro n
    induction n with
    | zero =>
      intro cs hn xs ps
      have hcs : cs = [] := List.length_eq_zero.mp (Nat.le_zero.mp hn)
      subst hcs
      exact hnil _ _ _
    | succ n ih =>
      intro cs hn xs ps
      cases cs with
      | nil => exact hnil _ _ _
      | cons c cs =>
        simp only [List.length_cons, Nat.succ_le_succ_iff] at hn
        have hle : (cs.erase c).length ≤ n := by
          have : (cs.erase c).length ≤ cs.length := by
            rw [List.length_erase]; split_ifs <;> omega
          omega
        rw [findWorkingCombination_cons]
        apply encoderLoop_all (Q (c :: cs) xs ps)
        · intro e he pc hg x hx hb ha p hp hcand
          exact hatomic c cs xs ps x p _ ha hx hp
            ((encoderAllows_iff k c x).mpr ⟨e, he, pc, hg, hb⟩) hcand (ih cs hn _ _)
        · intro e he pc hg x hx hb ha
          exact hlegacy c cs xs ps x _ ha hx
            ((encoderAllows_iff k c x).mpr ⟨e, he, pc, hg, hb⟩) (ih (cs.erase c) hle _ _)
        · exact hnil _ _ _
  intro cs xs ps
  exact main cs.length cs le_rfl xs ps

/-! ## No double booking -/

/-- The resources of a result come from the inputs and none is used twice. -/
theorem findWorkingCombination_sound (k : Kernel) (a : Bool) :
    ∀ (cs : List DrmConnector) (xs : List DrmCrtc) (ps : List DrmPlane),
      cs.Nodup → xs.Nodup → ps.Nodup →
      ((findWorkingCombination k a cs xs ps).map (·.connector)).Nodup ∧
      (∀ q ∈ findWorkingCombination k a cs xs ps, q.connector ∈ cs) ∧
      ((findWorkingCombination k a cs xs ps).map (·.crtc)).Nodup ∧
      (∀ q ∈ findWorkingCombination k a cs xs ps, q.crtc ∈ xs) ∧
      ((findWorkingCombination k a cs xs ps).filterMap (·.primaryPlane)).Nodup ∧
      (∀ q ∈ findWorkingCombination k a cs xs ps, ∀ p, q.primaryPlane = some p → p ∈ ps) ∧
      (∀ q ∈ findWorkingCombination k a cs xs ps, q.cursorPlane = none) := by
  apply findWorkingCombination_rules k a
    (fun cs xs ps r => cs.Nodup → xs.Nodup → ps.Nodup →
      (r.map (·.connector)).Nodup ∧ (∀ q ∈ r, q.connector ∈ cs) ∧
      (r.map (·.crtc)).Nodup ∧ (∀ q ∈ r, q.crtc ∈ xs) ∧
      (r.filterMap (·.primaryPlane)).Nodup ∧
      (∀ q ∈ r, ∀ p, q.primaryPlane = some p → p ∈ ps) ∧
      (∀ q ∈ r, q.cursorPlane = none))
  · intro cs xs ps _ _ _
    simp
  · intro c cs xs ps x p r _ hx hp _ _ ih hcs hxs hps
    obtain ⟨hcn, hcs'⟩ := List.nodup_cons.mp hcs
    obtain ⟨h1, h2, h3, h4, h5, h6, h7⟩ := ih hcs' (hxs.erase x) (hps.erase p)
    refine ⟨?_, ?_, ?_, ?_, ?_, ?_, ?_⟩
    · rw [List.map_cons, List.nodup_cons]
      refine ⟨?_, h1⟩
      intro hmem
      obtain ⟨q, hq, hqc⟩ := List.mem_map.mp hmem
      have hqc' : q.connector = c := hqc
      exact hcn (hqc' ▸ h2 q hq)
    · intro q hq
      rcases List.mem_cons.mp hq with rfl | hq
      · exact List.mem_cons_self _ _
      · exact List.mem_cons_of_mem _ (h2 q hq)
    · rw [List.map_cons, List.nodup_cons]
      refine ⟨?_, h3⟩
      intro hmem
      obtain ⟨q, hq, hqc⟩ := List.mem_map.mp hmem
      have hqc' : q.crtc = x := hqc
      have := h4 q hq
      rw [hqc'] at this
      exact ((hxs.mem_erase_iff).mp this).1 rfl
    · intro q hq
      rcases List.mem_cons.mp hq with rfl | hq
      · exact hx
      · exact List.mem_of_mem_erase (h4 q hq)
    · show (p :: r.filterMap (·.primaryPlane)).Nodup
      rw [List.nodup_cons]
      refine ⟨?_, h5⟩
      intro hmem
      obtain ⟨q, hq, hqp⟩ := List.mem_filterMap.mp hmem
      exact ((hps.mem_erase_iff).mp (h6 q hq p hqp)).1 rfl
    · intro q hq p' hp'
      rcases List.mem_cons.mp hq with rfl | hq
      · simp only [Option.some.injEq] at hp'
        exact hp' ▸ hp
      · exact List.mem_of_mem_erase (h6 q hq p' hp')
    · intro q hq
      rcases List.mem_cons.mp hq with rfl | hq
      · rfl
      · exact h7 q hq
  · intro c cs xs ps x r _ hx _ ih hcs hxs hps
    obtain ⟨hcn, hcs'⟩ := List.nodup_cons.mp hcs
    rw [List.erase_of_not_mem hcn] at ih
    obtain ⟨h1, h2, h3, h4, h5, h6, h7⟩ := ih hcs' (hxs.erase x) hps
    refine ⟨?_, ?_, ?_, ?_, ?_, ?_, ?_⟩
    · rw [List.map_append, List.nodup_append]
      refine ⟨h1, by simp, ?_⟩
      intro c' hc' hc''
      simp only [List.map_cons, List.map_nil, List.mem_singleton] at hc''
      obtain ⟨q, hq, hqc⟩ := List.mem_map.mp hc'
      have := h2 q hq
      rw [hqc, hc''] at this
      exact hcn this
    · intro q hq
      rcases List.mem_append.mp hq with hq | hq
      · exact List.mem_cons_of_mem _ (h2 q hq)
      · rw [List.mem_singleton.mp hq]; exact List.mem_cons_self _ _
    · rw [List.map_append, List.nodup_append]
      refine ⟨h3, by simp, ?_⟩
      intro x' hx' hx''
      simp only [List.map_cons, List.map_nil, List.mem_singleton] at hx''
      obtain ⟨q, hq, hqc⟩ := List.mem_map.mp hx'
      have := h4 q hq
      rw [hqc, hx''] at this
      exact ((hxs.mem_erase_iff).mp this).1 rfl
    · intro q hq
      rcases List.mem_append.mp hq with hq | hq
      · exact List.mem_of_mem_erase (h4 q hq)
      · rw [List.mem_singleton.mp hq]; exact hx
    · rw [List.filterMap_append]
      simpa using h5
    · intro q hq p' hp'
      rcases List.mem_append.mp hq with hq | hq
      · exact h6 q hq p' hp'
      · rw [List.mem_singleton.mp hq] at hp'; cases hp'
    · intro q hq
      rcases List.mem_append.mp hq with hq | hq
      · exact h7 q hq
      · rw [List.mem_singleton.mp hq]

/-- C1: for connector, CRTC and plane lists without a repeated element, in atomic and in
legacy mode, no connector, no CRTC and no plane (primary or cursor) occurs in more than
one pipeline returned by `findWorkingCombination`. -/
theorem findWorkingCombination_no_double_booking (k : Kernel) (m_atomicModeSetting : Bool)
    (connectors : List DrmConnector) (crtcs : List DrmCrtc) (planes : List DrmPlane)
    (hc : connectors.Nodup) (hx : crtcs.Nodup) (hp : planes.Nodup) :
    ((findWorkingCombination k m_atomicModeSetting connectors crtcs planes).map
        (·.connector)).Nodup ∧
    ((findWorkingCombination k m_atomicModeSetting connectors crtcs planes).map
        (·.crtc)).Nodup ∧
    ((findWorkingCombination k m_atomicModeSetting connectors crtcs planes).filterMap
        (·.primaryPlane) ++
      (findWorkingCombination k m_atomicModeSetting connectors crtcs planes).filterMap
        (·.cursorPlane)).Nodup := by
  obtain ⟨h1, _, h3, _, h5, _, h7⟩ :=
    findWorkingCombination_sound k m_atomicModeSetting connectors crtcs planes hc hx hp
  refine ⟨h1, h3, ?_⟩
  have hnil : (findWorkingCombination k m_atomicModeSetting connectors crtcs planes).filterMap
      (·.cursorPlane) = [] := by
    rw [List.filterMap_eq_nil_iff]
    exact h7
  rw [hnil, List.append_nil]
  exact h5

/-! ## Atomic mode: the connectors served are a prefix of the list, and a full
assignment is found -/

/-- In atomic mode the connectors of the result are a prefix of the connector list. -/
theorem findWorkingCombination_atomic_connectors (k : Kernel) :
    ∀ (cs : List DrmConnector) (xs : List DrmCrtc) (ps : List DrmPlane),
      (findWorkingCombination k true cs xs ps).map (·.connector) <+: cs := by
  have h := findWorkingCombination_rules k true
    (fun cs _ _ r => r.map (·.connector) <+: cs)
    (fun cs _ _ => List.nil_prefix)
    (fun c cs xs ps x p r _ _ _ _ _ ih => by
      show c :: r.map (·.connector) <+: c :: cs
      exact (List.prefix_cons_inj c).mpr ih)
    (fun c cs xs ps x r ha _ _ _ => by cases ha)
  exact h

theorem planeLoop_ret_length (k : Kernel)
    (recur : List DrmConnector → List DrmCrtc → List DrmPlane → List DrmPipeline)
    (connector : DrmConnector) (connectors : List DrmConnector) (crtcs : List DrmCrtc)
    (planes : List DrmPlane) (crtc : DrmCrtc) :
    ∀ (rest : List DrmPlane) (most v : List DrmPipeline),
      planeLoop k recur connector connectors crtcs planes crtc rest most = .ret v →
      connectors.length < v.length := by
  intro rest
  induction rest with
  | nil => intro most v h; simp [planeLoop] at h
  | cons plane rest ih =>
    intro most v h
    simp only [planeLoop] at h
    split_ifs at h with h1 h2 h3 h4
    · exact ih _ _ h
    · cases h
      exact h3
    · exact ih _ _ h
    · exact ih _ _ h
    · exact ih _ _ h

/-- The plane loop returns at once when it reaches a plane whose candidate completes
the assignment. -/
theorem planeLoop_hit (k : Kernel)
    (recur : List DrmConnector → List DrmCrtc → List DrmPlane → List DrmPipeline)
    (connector : DrmConnector) (connectors : List DrmConnector) (crtcs : List DrmCrtc)
    (planes : List DrmPlane) (crtc : DrmCrtc) (p0 : DrmPlane)
    (hcand : atomicCandidate k connector crtc p0)
    (hfull : connectors.length ≤ (recur connectors (crtcs.erase crtc) (planes.erase p0)).length) :
    ∀ (rest : List DrmPlane) (most : List DrmPipeline), p0 ∈ rest →
      ∃ v, planeLoop k recur connector connectors crtcs planes crtc rest most = .ret v := by
  intro rest
  induction rest with
  | nil => intro most h; simp at h
  | cons plane rest ih =>
    intro most hmem
    obtain ⟨hs, ht, htest⟩ := hcand
    simp only [planeLoop]
    split_ifs with h1 h2 h3 h4
    · refine ih _ ?_
      rcases List.mem_cons.mp hmem with rfl | h
      · rw [htest] at h2; simp at h2
      · exact h
    · exact ⟨_, rfl⟩
    · refine ih _ ?_
      rcases List.mem_cons.mp hmem with rfl | h
      · exfalso; apply h3; simp only [List.length_cons]; omega
      · exact h
    · refine ih _ ?_
      rcases List.mem_cons.mp hmem with rfl | h
      · exfalso; apply h3; simp only [List.length_cons]; omega
      · exact h
    · refine ih _ ?_
      rcases List.mem_cons.mp hmem with rfl | h
      · rw [hs, ht] at h1; simp at h1
      · exact h

theorem crtcLoop_ret_length (k : Kernel)
    (recur : List DrmConnector → List DrmCrtc → List DrmPlane → List DrmPipeline)
    (connector : DrmConnector) (connectors : List DrmConnector) (crtcs : List DrmCrtc)
    (planes : List DrmPlane) (pc : Nat) :
    ∀ (rest : List DrmCrtc) (most v : List DrmPipeline),
      crtcLoop k true recur connector connectors crtcs planes pc rest most = .ret v →
      connectors.length < v.length := by
  intro rest
  induction rest with
  | nil => intro most v h; simp [crtcLoop] at h
  | cons crtc rest ih =>
    intro most v h
    simp only [crtcLoop] at h
    split_ifs at h with h1
    · exact ih _ _ h
    · cases hpl : planeLoop k recur connector connectors crtcs planes crtc planes most with
      | ret w =>
        rw [hpl] at h
        cases h
        exact planeLoop_ret_length k recur connector connectors crtcs planes crtc _ _ _ hpl
      | cont m =>
        rw [hpl] at h
        exact ih _ _ h

/-- The CRTC loop of an encoder that allows the assigned CRTC returns at once at the latest
when it reaches that CRTC. -/
theorem crtcLoop_hit (k : Kernel)
    (recur : List DrmConnector → List DrmCrtc → List DrmPlane → List DrmPipeline)
    (connector : DrmConnector) (connectors : List DrmConnector) (crtcs : List DrmCrtc)
    (planes : List DrmPlane) (pc : Nat) (x0 : DrmCrtc) (p0 : DrmPlane)
    (hbit : pipeBitSet pc x0.pipeIndex = true) (hp0 : p0 ∈ planes)
    (hcand : atomicCandidate k connector x0 p0)
    (hfull : connectors.length ≤ (recur connectors (crtcs.erase x0) (planes.erase p0)).length) :
    ∀ (rest : List DrmCrtc) (most : List DrmPipeline), x0 ∈ rest →
      ∃ v, crtcLoop k true recur connector connectors crtcs planes pc rest most = .ret v := by
  intro rest
  induction rest with
  | nil => intro most h; simp at h
  | cons crtc rest ih =>
    intro most hmem
    simp only [crtcLoop]
    split_ifs with h1
    · refine ih _ ?_
      rcases List.mem_cons.mp hmem with rfl | h
      · rw [hbit] at h1; simp at h1
      · exact h
    · cases hpl : planeLoop k recur connector connectors crtcs planes crtc planes most with
      | ret w => exact ⟨w, rfl⟩
      | cont m =>
        refine ih _ ?_
        rcases List.mem_cons.mp hmem with rfl | h
        · obtain ⟨v, hv⟩ := planeLoop_hit k recur connector connectors crtcs planes x0 p0
            hcand hfull planes most hp0
          rw [hv] at hpl
          cases hpl
        · exact h

/-- The encoder loop yields more pipelines than there are remaining connectors when one
of the encoders still to visit allows a CRTC whose candidate completes the assignment. -/
theorem encoderLoop_hit (k : Kernel)
    (recur : List DrmConnector → List DrmCrtc → List DrmPlane → List DrmPipeline)
    (connector : DrmConnector) (connectors : List DrmConnector) (crtcs : List DrmCrtc)
    (planes : List DrmPlane) (x0 : DrmCrtc) (p0 : DrmPlane)
    (hx0 : x0 ∈ crtcs) (hp0 : p0 ∈ planes)
    (hcand : atomicCandidate k connector x0 p0)
    (hfull : connectors.length ≤ (recur connectors (crtcs.erase x0) (planes.erase p0)).length) :
    ∀ (rest : List Nat) (most : List DrmPipeline),
      (∃ e ∈ rest, ∃ pc, k.getEncoder e = some pc ∧ pipeBitSet pc x0.pipeIndex = true) →
      connectors.length <
        (encoderLoop k true recur connector connectors crtcs planes rest most).length := by
  intro rest
  induction rest with
  | nil => intro most h; simp at h
  | cons encId rest ih =>
    intro most hex
    obtain ⟨e, he, pc, hg, hbit⟩ := hex
    simp only [encoderLoop]
    cases hge : k.getEncoder encId with
    | none =>
      refine ih _ ?_
      rcases List.mem_cons.mp he with rfl | h
      · rw [hg] at hge; cases hge
      · exact ⟨e, h, pc, hg, hbit⟩
    | some pc' =>
      dsimp only
      cases hcl : crtcLoop k true recur connector connectors crtcs planes pc' crtcs most with
      | ret v =>
        exact crtcLoop_ret_length k recur connector connectors crtcs planes pc' _ _ _ hcl
      | cont m =>
        refine ih _ ?_
        rcases List.mem_cons.mp he with rfl | h
        · rw [hg] at hge
          cases hge
          obtain ⟨v, hv⟩ := crtcLoop_hit k recur connector connectors crtcs planes pc x0 p0
            hbit hp0 hcand hfull crtcs most hx0
          rw [hv] at hcl
          cases hcl
        · exact ⟨e, h, pc, hg, hbit⟩

/-- An assignment of the connectors to pairwise distinct CRTCs and pairwise distinct
Primary planes, every triple being a candidate the atomic branch accepts. -/
theorem findWorkingCombination_atomic_length (k : Kernel)
    (f : DrmConnector → DrmCrtc × DrmPlane) :
    ∀ (cs : List DrmConnector) (xs : List DrmCrtc) (ps : List DrmPlane),
      cs.Nodup → xs.Nodup → ps.Nodup →
      (∀ c ∈ cs, (f c).1 ∈ xs ∧ (f c).2 ∈ ps ∧ encoderAllows k c (f c).1 = true ∧
        atomicCandidate k c (f c).1 (f c).2) →
      (∀ c ∈ cs, ∀ c' ∈ cs, (f c).1 = (f c').1 → c = c') →
      (∀ c ∈ cs, ∀ c' ∈ cs, (f c).2 = (f c').2 → c = c') →
      cs.length ≤ (findWorkingCombination k true cs xs ps).length := by
  intro cs
  induction cs with
  | nil => intro xs ps _ _ _ _ _ _; simp
  | cons c cs ih =>
    intro xs ps hcs hxs hps hf hix hip
    obtain ⟨hcn, hcs'⟩ := List.nodup_cons.mp hcs
    obtain ⟨hx0, hp0, henc, hcand⟩ := hf c (List.mem_cons_self _ _)
    have hrest := ih (xs.erase (f c).1) (ps.erase (f c).2) hcs' (hxs.erase _) (hps.erase _)
      (fun c' hc' => by
        obtain ⟨h1, h2, h3, h4⟩ := hf c' (List.mem_cons_of_mem _ hc')
        refine ⟨(List.mem_erase_of_ne ?_).mpr h1, (List.mem_erase_of_ne ?_).mpr h2, h3, h4⟩
        · intro heq
          have := hix c' (List.mem_cons_of_mem _ hc') c (List.mem_cons_self _ _) heq
          exact hcn (this ▸ hc')
        · intro heq
          have := hip c' (List.mem_cons_of_mem _ hc') c (List.mem_cons_self _ _) heq
          exact hcn (this ▸ hc'))
      (fun a ha b hb => hix a (List.mem_cons_of_mem _ ha) b (List.mem_cons_of_mem _ hb))
      (fun a ha b hb => hip a (List.mem_cons_of_mem _ ha) b (List.mem_cons_of_mem _ hb))
    rw [findWorkingCombination_cons, List.length_cons]
    exact encoderLoop_hit k (findWorkingCombination k true) c cs xs ps (f c).1 (f c).2
      hx0 hp0 hcand hrest c.encoders [] ((encoderAllows_iff k c _).mp henc)

/-- C2: in atomic mode, the pipeline test being a fixed predicate of the candidate, for
duplicate-free lists: when an assignment `f` gives every connector a distinct CRTC of the
list and a distinct Primary plane of the list, with the CRTC's pipe bit set in
`possible_crtcs` of one of the connector's encoders, the plane supporting that pipe index
and the test of the triple passing, `findWorkingCombination` returns exactly as many
pipelines as there are connectors, one per connector (in the order of the list). -/
theorem findWorkingCombination_atomic_complete (k : Kernel)
    (connectors : List DrmConnector) (crtcs : List DrmCrtc) (planes : List DrmPlane)
    (f : DrmConnector → DrmCrtc × DrmPlane)
    (hc : connectors.Nodup) (hx : crtcs.Nodup) (hp : planes.Nodup)
    (hf : ∀ c ∈ connectors, (f c).1 ∈ crtcs ∧ (f c).2 ∈ planes ∧
      encoderAllows k c (f c).1 = true ∧
      (f c).2.isCrtcSupported (f c).1.pipeIndex = true ∧ (f c).2.type = TypeIndex.Primary ∧
      k.test ⟨c, (f c).1, some (f c).2, none⟩ = true)
    (hcrtc : ∀ c ∈ connectors, ∀ c' ∈ connectors, (f c).1 = (f c').1 → c = c')
    (hplane : ∀ c ∈ connectors, ∀ c' ∈ connectors, (f c).2 = (f c').2 → c = c') :
    (findWorkingCombination k true connectors crtcs planes).length = connectors.length ∧
    (findWorkingCombination k true connectors crtcs planes).map (·.connector) = connectors := by
  have hpre := findWorkingCombination_atomic_connectors k connectors crtcs planes
  have hlen := findWorkingCombination_atomic_length k f connectors crtcs planes hc hx hp
    (fun c hcm => by
      obtain ⟨h1, h2, h3, h4, h5, h6⟩ := hf c hcm
      exact ⟨h1, h2, h3, h4, h5, h6⟩) hcrtc hplane
  have hle : ((findWorkingCombination k true connectors crtcs planes).map (·.connector)).length
      ≤ connectors.length := hpre.length_le
  rw [List.length_map] at hle
  refine ⟨le_antisymm hle hlen, ?_⟩
  apply hpre.eq_of_length
  rw [List.length_map]
  exact le_antisymm hle hlen

/-! ## Two connectors competing for one CRTC -/

theorem encoderLoop_no_crtc (k : Kernel) (a : Bool)
    (recur : List DrmConnector → List DrmCrtc → List DrmPlane → List DrmPipeline)
    (connector : DrmConnector) (connectors : List DrmConnector) (planes : List DrmPlane) :
    ∀ (rest : List Nat) (most : List DrmPipeline),
      encoderLoop k a recur connector connectors [] planes rest most = most := by
  intro rest
  induction rest with
  | nil => intro most; rfl
  | cons encId rest ih =>
    intro most
    simp only [encoderLoop]
    cases k.getEncoder encId with
    | none => exact ih most
    | some pc => simp only [crtcLoop]; exact ih most

/-- Without a CRTC no connector gets a pipeline. -/
theorem findWorkingCombination_no_crtc (k : Kernel) (a : Bool) (cs : List DrmConnector)
    (ps : List DrmPlane) : findWorkingCombination k a cs [] ps = [] := by
  cases cs with
  | nil => rfl
  | cons c cs => rw [findWorkingCombination_cons]; exact encoderLoop_no_crtc k a _ c cs ps _ _

/-- The encoder loop of the first of two connectors when one CRTC and one plane are
there: the single candidate is kept once an encoder allows the CRTC. -/
theorem encoderLoop_single (k : Kernel) (a : Bool) (c1 c2 : DrmConnector) (x : DrmCrtc)
    (p : DrmPlane) (hne : c1 ≠ c2) (hs : p.isCrtcSupported x.pipeIndex = true)
    (hp : p.type = TypeIndex.Primary) (ht : ∀ q, k.test q = true) :
    ∀ (rest : List Nat) (most : List DrmPipeline),
      (most = [] ∨ most = [⟨c1, x, if a = true then some p else none, none⟩]) →
      encoderLoop k a (findWorkingCombination k a) c1 [c2] [x] [p] rest most
        = if (rest.any fun encId =>
            match k.getEncoder encId with
            | some possible_crtcs => pipeBitSet possible_crtcs x.pipeIndex
            | none => false) = true
          then [⟨c1, x, if a = true then some p else none, none⟩] else most := by
  intro rest
  induction rest with
  | nil => intro most _; simp [encoderLoop]
  | cons encId rest ih =>
    intro most hmost
    have hne' : (c2 == c1) = false := by
      simp only [beq_eq_false_iff_ne, ne_eq]
      exact fun h => hne h.symm
    simp only [encoderLoop, List.any_cons]
    rcases Option.eq_none_or_eq_some (k.getEncoder encId) with hg | ⟨pc, hg⟩
    · simp only [hg, Bool.false_or]
      exact ih most hmost
    · simp only [hg]
      cases hb : pipeBitSet pc x.pipeIndex with
      | false =>
        simp only [crtcLoop, hb, Bool.not_false, if_true, Bool.false_or]
        exact ih most hmost
      | true =>
        cases a with
        | false =>
          simp [crtcLoop, hb, List.erase_cons, hne', findWorkingCombination_no_crtc]
        | true =>
          simp only [if_true] at ih hmost ⊢
          rcases hmost with rfl | rfl
          · simp only [crtcLoop, hb, planeLoop, hs, hp, ht, List.erase_cons_head,
              findWorkingCombination_no_crtc]
            simp only [Bool.not_true, Bool.false_eq_true, if_false, if_true, beq_self_eq_true,
              Bool.and_self, List.length_cons, List.length_nil, gt_iff_lt, Nat.lt_irrefl,
              Nat.zero_add, Nat.lt_one_iff, Nat.zero_lt_one, Bool.true_or]
            rw [ih _ (Or.inr rfl)]
            simp
          · simp only [crtcLoop, hb, planeLoop, hs, hp, ht, List.erase_cons_head,
              findWorkingCombination_no_crtc]
            simp only [Bool.not_true, Bool.false_eq_true, if_false, if_true, beq_self_eq_true,
              Bool.and_self, List.length_cons, List.length_nil, gt_iff_lt, Nat.lt_irrefl,
              Nat.zero_add, Nat.lt_one_iff, Nat.zero_lt_one, Bool.true_or]
            rw [ih _ (Or.inr rfl)]
            simp

/-- C5: for two different connectors, one CRTC whose pipe bit an encoder of each
connector allows, and one Primary plane supporting that CRTC, every pipeline test
passing: `findWorkingCombination` returns exactly one pipeline, which binds the first
connector of the list to the CRTC (and to the plane in atomic mode, to no plane in
legacy mode), and the second connector is in no returned pipeline. -/
theorem findWorkingCombination_two_connectors_one_crtc (k : Kernel)
    (m_atomicModeSetting : Bool) (c1 c2 : DrmConnector) (crtc : DrmCrtc) (plane : DrmPlane)
    (hne : c1 ≠ c2)
    (h1 : encoderAllows k c1 crtc = true) (h2 : encoderAllows k c2 crtc = true)
    (hs : plane.isCrtcSupported crtc.pipeIndex = true) (hp : plane.type = TypeIndex.Primary)
    (ht : ∀ q, k.test q = true) :
    findWorkingCombination k m_atomicModeSetting [c1, c2] [crtc] [plane]
      = [⟨c1, crtc, if m_atomicModeSetting = true then some plane else none, none⟩] ∧
    (findWorkingCombination k m_atomicModeSetting [c1, c2] [crtc] [plane]).length = 1 ∧
    ∀ q ∈ findWorkingCombination k m_atomicModeSetting [c1, c2] [crtc] [plane],
      q.connector ≠ c2 := by
  have _ := h2
  have heq : findWorkingCombination k m_atomicModeSetting [c1, c2] [crtc] [plane]
      = [⟨c1, crtc, if m_atomicModeSetting = true then some plane else none, none⟩] := by
    rw [findWorkingCombination_cons,
      encoderLoop_single k m_atomicModeSetting c1 c2 crtc plane hne hs hp ht _ _ (Or.inl rfl)]
    unfold encoderAllows at h1
    rw [if_pos h1]
  rw [heq]
  refine ⟨rfl, rfl, ?_⟩
  intro q hq
  rw [List.mem_singleton.mp hq]
  exact hne

/-! ## Witnesses and evaluations of the matcher -/

/-- C1 at a concrete input: two connectors, two CRTCs and two planes in atomic mode. -/
theorem findWorkingCombination_no_double_booking_witness :
    [connPipe0, connPipe1].Nodup ∧ [crtc0, crtc1].Nodup ∧ [planeA, planeB].Nodup ∧
    ((findWorkingCombination exKernel true [connPipe0, connPipe1] [crtc0, crtc1]
        [planeA, planeB]).map (·.connector)).Nodup ∧
    ((findWorkingCombination exKernel true [connPipe0, connPipe1] [crtc0, crtc1]
        [planeA, planeB]).map (·.crtc)).Nodup ∧
    ((findWorkingCombination exKernel true [connPipe0, connPipe1] [crtc0, crtc1]
        [planeA, planeB]).filterMap (·.primaryPlane) ++
      (findWorkingCombination exKernel true [connPipe0, connPipe1] [crtc0, crtc1]
        [planeA, planeB]).filterMap (·.cursorPlane)).Nodup :=
  ⟨by decide, by decide, by decide,
    findWorkingCombination_no_double_booking exKernel true [connPipe0, connPipe1]
      [crtc0, crtc1] [planeA, planeB] (by decide) (by decide) (by decide)⟩

/-- C2 at a concrete input: the assignment `exAssign` of two connectors. -/
theorem findWorkingCombination_atomic_complete_witness :
    [connPipe0, connPipe1].Nodup ∧ [crtc0, crtc1].Nodup ∧ [planeA, planeB].Nodup ∧
    (∀ c ∈ [connPipe0, connPipe1],
      (exAssign c).1 ∈ [crtc0, crtc1] ∧ (exAssign c).2 ∈ [planeA, planeB] ∧
      encoderAllows exKernel c (exAssign c).1 = true ∧
      (exAssign c).2.isCrtcSupported (exAssign c).1.pipeIndex = true ∧
      (exAssign c).2.type = TypeIndex.Primary ∧
      exKernel.test ⟨c, (exAssign c).1, some (exAssign c).2, none⟩ = true) ∧
    (exAssign connPipe0).1 ≠ (exAssign connPipe1).1 ∧
    (exAssign connPipe0).2 ≠ (exAssign connPipe1).2 ∧
    (findWorkingCombination exKernel true [connPipe0, connPipe1] [crtc0, crtc1]
      [planeA, planeB]).length = [connPipe0, connPipe1].length ∧
    (findWorkingCombination exKernel true [connPipe0, connPipe1] [crtc0, crtc1]
      [planeA, planeB]).map (·.connector) = [connPipe0, connPipe1] :=
  ⟨by decide, by decide, by decide, by decide, by decide, by decide,
    findWorkingCombination_atomic_complete exKernel [connPipe0, connPipe1] [crtc0, crtc1]
      [planeA, planeB] exAssign (by decide) (by decide) (by decide) (by decide) (by decide)
      (by decide)⟩

/-- C5 at a concrete input: the two connectors that need pipe 0, in atomic mode. -/
theorem findWorkingCombination_two_connectors_one_crtc_witness :
    connPipe0 ≠ connLate ∧
    encoderAllows exKernel connPipe0 crtc0 = true ∧
    encoderAllows exKernel connLate crtc0 = true ∧
    findWorkingCombination exKernel true [connPipe0, connLate] [crtc0] [planeA]
      = [⟨connPipe0, crtc0, if true = true then some planeA else none, none⟩] ∧
    (findWorkingCombination exKernel true [connPipe0, connLate] [crtc0] [planeA]).length = 1 ∧
    ∀ q ∈ findWorkingCombination exKernel true [connPipe0, connLate] [crtc0] [planeA],
      q.connector ≠ connLate :=
  ⟨by decide, by decide, by decide,
    findWorkingCombination_two_connectors_one_crtc exKernel true connPipe0 connLate crtc0
      planeA (by decide) (by decide) (by decide) (by decide) (by decide) (fun _ => rfl)⟩

/-- C3, the code at the failing input: in legacy mode the connector driven by either pipe
comes first and takes the CRTC of pipe 0, the first one its encoder allows; the connector
that needs pipe 0 then gets nothing, and one pipeline is returned, although giving pipe 1
to the first connector and pipe 0 to the second serves both. -/
theorem findWorkingCombination_legacy_misses_bijection :
    findWorkingCombination exKernel false [connAny, connPipe0] [crtc0, crtc1] []
      = [⟨connAny, crtc0, none, none⟩] ∧
    (findWorkingCombination exKernel false [connAny, connPipe0] [crtc0, crtc1] []).length
      ≠ [connAny, connPipe0].length ∧
    encoderAllows exKernel connAny crtc1 = true ∧
    encoderAllows exKernel connPipe0 crtc0 = true ∧
    crtc1 ≠ crtc0 ∧ crtc1 ∈ [crtc0, crtc1] ∧ crtc0 ∈ [crtc0, crtc1] := by
  decide

/-- C4, the code at the failing input: the first connector has no encoder, the second
one has a valid pipeline (its encoder allows the CRTC, the Primary plane supports the
pipe, the test passes), and the result is empty in atomic and in legacy mode, where one
connector can be served. -/
theorem findWorkingCombination_first_unmatched_empty :
    findWorkingCombination exKernel true [connNoEncoder, connPipe0] [crtc0] [planeA] = [] ∧
    findWorkingCombination exKernel false [connNoEncoder, connPipe0] [crtc0] [planeA] = [] ∧
    encoderAllows exKernel connPipe0 crtc0 = true ∧
    planeA.isCrtcSupported crtc0.pipeIndex = true ∧ planeA.type = TypeIndex.Primary ∧
    exKernel.test ⟨connPipe0, crtc0, some planeA, none⟩ = true ∧
    findWorkingCombination exKernel true [connPipe0] [crtc0] [planeA]
      = [⟨connPipe0, crtc0, some planeA, none⟩] := by
  decide

/-! ## `tryAMS` -/

theorem createPlanes_eq (planeInit : Nat → Option DrmPlane) :
    ∀ (planeIds : List Nat) (m_planes : List DrmPlane),
      createPlanes planeInit planeIds m_planes = m_planes ++ planeIds.filterMap planeInit := by
  intro planeIds
  induction planeIds with
  | nil => intro m_planes; simp [createPlanes]
  | cons planeId rest ih =>
    intro m_planes
    simp only [createPlanes]
    cases h : planeInit planeId with
    | none => simp only [ih, List.filterMap_cons_none h]
    | some p => simp only [ih, List.filterMap_cons_some h, List.append_assoc, List.singleton_append]

/-- In legacy mode a single connector with a CRTC one of its encoders allows gets that
CRTC, whatever the plane list. -/
theorem encoderLoop_legacy_single (k : Kernel) (c : DrmConnector) (x : DrmCrtc)
    (ps : List DrmPlane) :
    ∀ (rest : List Nat),
      encoderLoop k false (findWorkingCombination k false) c [] [x] ps rest []
        = if (rest.any fun encId =>
            match k.getEncoder encId with
            | some possible_crtcs => pipeBitSet possible_crtcs x.pipeIndex
            | none => false) = true
          then [⟨c, x, none, none⟩] else [] := by
  intro rest
  induction rest with
  | nil => simp [encoderLoop]
  | cons encId rest ih =>
    simp only [encoderLoop, List.any_cons]
    rcases Option.eq_none_or_eq_some (k.getEncoder encId) with hg | ⟨pc, hg⟩
    · simp only [hg, Bool.false_or]
      exact ih
    · simp only [hg]
      cases hb : pipeBitSet pc x.pipeIndex with
      | false =>
        simp only [crtcLoop, hb, Bool.not_false, if_true, Bool.false_or]
        exact ih
      | true =>
        simp [crtcLoop, hb, findWorkingCombination_nil]

theorem findWorkingCombination_legacy_single (k : Kernel) (c : DrmConnector) (x : DrmCrtc)
    (ps : List DrmPlane) (h : encoderAllows k c x = true) :
    findWorkingCombination k false [c] [x] ps = [⟨c, x, none, none⟩] := by
  rw [findWorkingCombination_cons, encoderLoop_legacy_single]
  unfold encoderAllows at h
  rw [if_pos h]

/-- C10: for a device whose plane inventory is empty before the call, after `tryAMS`
`atomicModeSetting()` is true exactly when setting the atomic client capability
succeeded, the plane resources were obtained and at least one listed plane initialised.
In particular, when the device accepts atomic mode and no plane results,
`atomicModeSetting()` is false afterwards, the plane pools are empty and the matcher
works in legacy mode: a connector with a CRTC one of its encoders allows gets a pipeline
without plane. -/
theorem tryAMS_atomicModeSetting (ak : AmsKernel) (g : DrmGpu) (hg : g.m_planes = []) :
    ((tryAMS ak g).atomicModeSetting = true ↔
      ak.setClientCapAtomic = true ∧
      ∃ planeIds, ak.planeResources = some planeIds ∧
        ∃ planeId ∈ planeIds, (ak.planeInit planeId).isSome = true) ∧
    (ak.setClientCapAtomic = true →
      (∀ planeIds, ak.planeResources = some planeIds →
        ∀ planeId ∈ planeIds, ak.planeInit planeId = none) →
      (tryAMS ak g).atomicModeSetting = false ∧
      (tryAMS ak g).m_planes = [] ∧
      ∀ (k : Kernel) (c : DrmConnector) (x : DrmCrtc), encoderAllows k c x = true →
        findWorkingCombination k (tryAMS ak g).atomicModeSetting [c] [x]
          (tryAMS ak g).m_unusedPlanes = [⟨c, x, none, none⟩]) := by
  have key : (tryAMS ak g).atomicModeSetting = true ↔
      ak.setClientCapAtomic = true ∧
      ∃ planeIds, ak.planeResources = some planeIds ∧
        ∃ planeId ∈ planeIds, (ak.planeInit planeId).isSome = true := by
    unfold tryAMS DrmGpu.atomicModeSetting
    cases hcap : ak.setClientCapAtomic with
    | false => simp
    | true =>
      cases hres : ak.planeResources with
      | none => simp
      | some planeIds =>
        simp only [if_true, hg, createPlanes_eq, List.nil_append, List.isEmpty_iff,
          true_and, Option.some.injEq, exists_eq_left']
        by_cases hempty : planeIds.filterMap ak.planeInit = []
        · simp only [hempty, if_true]
          constructor
          · intro h; cases h
          · rintro ⟨planeId, hmem, hsome⟩
            rw [List.filterMap_eq_nil_iff] at hempty
            rw [hempty planeId hmem] at hsome
            cases hsome
        · simp only [hempty, if_false, true_iff]
          by_contra hno
          apply hempty
          rw [List.filterMap_eq_nil_iff]
          intro planeId hmem
          cases hinit : ak.planeInit planeId with
          | none => rfl
          | some p => exact absurd ⟨planeId, hmem, by rw [hinit]; rfl⟩ hno
  refine ⟨key, ?_⟩
  intro hcap hnone
  have hfalse : (tryAMS ak g).atomicModeSetting = false := by
    cases hat : (tryAMS ak g).atomicModeSetting with
    | false => rfl
    | true =>
      obtain ⟨_, planeIds, hres, planeId, hmem, hsome⟩ := key.mp hat
      rw [hnone planeIds hres planeId hmem] at hsome
      cases hsome
  refine ⟨hfalse, ?_, ?_⟩
  · unfold tryAMS
    rw [hcap]
    cases hres : ak.planeResources with
    | none => simpa using hg
    | some planeIds =>
      have : planeIds.filterMap ak.planeInit = [] := by
        rw [List.filterMap_eq_nil_iff]
        exact hnone planeIds hres
      simp [hg, createPlanes_eq, this]
  · intro k c x hallow
    rw [hfalse]
    exact findWorkingCombination_legacy_single k c x _ hallow

/-- C10 at a concrete input: a device that accepts atomic mode and whose planes all fail
to initialise. -/
theorem tryAMS_atomicModeSetting_witness :
    DrmGpu.initial.m_planes = [] ∧
    ((tryAMS exAmsNoPlane DrmGpu.initial).atomicModeSetting = true ↔
      exAmsNoPlane.setClientCapAtomic = true ∧
      ∃ planeIds, exAmsNoPlane.planeResources = some planeIds ∧
        ∃ planeId ∈ planeIds, (exAmsNoPlane.planeInit planeId).isSome = true) ∧
    (exAmsNoPlane.setClientCapAtomic = true →
      (∀ planeIds, exAmsNoPlane.planeResources = some planeIds →
        ∀ planeId ∈ planeIds, exAmsNoPlane.planeInit planeId = none) →
      (tryAMS exAmsNoPlane DrmGpu.initial).atomicModeSetting = false ∧
      (tryAMS exAmsNoPlane DrmGpu.initial).m_planes = [] ∧
      ∀ (k : Kernel) (c : DrmConnector) (x : DrmCrtc), encoderAllows k c x = true →
        findWorkingCombination k (tryAMS exAmsNoPlane DrmGpu.initial).atomicModeSetting [c] [x]
          (tryAMS exAmsNoPlane DrmGpu.initial).m_unusedPlanes = [⟨c, x, none, none⟩]) :=
  ⟨rfl, tryAMS_atomicModeSetting exAmsNoPlane DrmGpu.initial rfl⟩

/-! ## `shufflePipelines` -/

theorem DrmOutput.setEnablement_pipeline (k : Kernel) (o : DrmOutput) (enable : Bool) :
    (o.setEnablement k enable).m_pipeline = o.m_pipeline ∧
    (o.setEnablement k enable).m_dpmsEnabled = o.m_dpmsEnabled := by
  unfold DrmOutput.setEnablement
  split_ifs <;> exact ⟨rfl, rfl⟩

/-- Turning the outputs off changes neither the pipeline an output holds nor its own
enabled state. -/
theorem disableLoop_outputs (k : Kernel) :
    ∀ (outputs : List DrmOutput) (connectors : List DrmConnector) (crtcs : List DrmCrtc),
      (disableLoop k outputs connectors crtcs).1.map (fun o => (o.m_pipeline, o.m_dpmsEnabled))
        = outputs.map (fun o => (o.m_pipeline, o.m_dpmsEnabled)) := by
  intro outputs
  induction outputs with
  | nil => intro _ _; rfl
  | cons o rest ih =>
    intro connectors crtcs
    simp only [disableLoop]
    split_ifs
    · simp only [List.map_cons, ih, (DrmOutput.setEnablement_pipeline k o false).1,
        (DrmOutput.setEnablement_pipeline k o false).2]
    · simp only [List.map_cons, ih, (DrmOutput.setEnablement_pipeline k o false).1,
        (DrmOutput.setEnablement_pipeline k o false).2]

/-- C8: whenever `shufflePipelines` takes the revert branch (the search over the combined
pool returns a number of pipelines other than the number of unused connectors), every
existing output keeps the pipeline it had and its own enabled state, after the disabling
calls `setEnablement` is called on each output's pipeline with that output's own enabled
state, the caller's `unusedConnectors` and `unusedCrtcs` are unchanged, the planes and
pipelines of the device are unchanged, and the returned list is
`findWorkingCombination(unusedConnectors, unusedCrtcs, m_unusedPlanes)`. -/
theorem shufflePipelines_revert (k : Kernel) (g : DrmGpu) (unusedConnectors : List DrmConnector)
    (unusedCrtcs : List DrmCrtc)
    (hrevert : (shuffleSearch k g unusedConnectors unusedCrtcs).length ≠ unusedConnectors.length) :
    (shufflePipelines k g unusedConnectors unusedCrtcs).gpu.m_outputs.map
        (fun o => (o.m_pipeline, o.m_dpmsEnabled))
      = g.m_outputs.map (fun o => (o.m_pipeline, o.m_dpmsEnabled)) ∧
    (shufflePipelines k g unusedConnectors unusedCrtcs).calls
      = g.m_outputs.map (fun o => (o.m_pipeline, false)) ++
        g.m_outputs.map (fun o => (o.m_pipeline, o.m_dpmsEnabled)) ∧
    (shufflePipelines k g unusedConnectors unusedCrtcs).unusedConnectors = unusedConnectors ∧
    (shufflePipelines k g unusedConnectors unusedCrtcs).unusedCrtcs = unusedCrtcs ∧
    (shufflePipelines k g unusedConnectors unusedCrtcs).gpu.m_planes = g.m_planes ∧
    (shufflePipelines k g unusedConnectors unusedCrtcs).gpu.m_unusedPlanes = g.m_unusedPlanes ∧
    (shufflePipelines k g unusedConnectors unusedCrtcs).gpu.m_pipelines = g.m_pipelines ∧
    (shufflePipelines k g unusedConnectors unusedCrtcs).pipelines
      = findWorkingCombination k g.m_atomicModeSetting unusedConnectors unusedCrtcs
          g.m_unusedPlanes := by
  have hd := disableLoop_outputs k g.m_outputs unusedConnectors unusedCrtcs
  have hne : ((findWorkingCombination k g.m_atomicModeSetting
      (disableLoop k g.m_outputs unusedConnectors unusedCrtcs).2.1
      (disableLoop k g.m_outputs unusedConnectors unusedCrtcs).2.2 g.m_planes).length
        == unusedConnectors.length) = false := by
    simp only [beq_eq_false_iff_ne, ne_eq]
    exact hrevert
  have h1 : (shufflePipelines k g unusedConnectors unusedCrtcs).gpu.m_outputs
      = (disableLoop k g.m_outputs unusedConnectors unusedCrtcs).1.map
          (fun output => output.setEnablement k output.m_dpmsEnabled) := by
    unfold shufflePipelines
    simp only [hne, Bool.false_eq_true, if_false]
  have h2 : (shufflePipelines k g unusedConnectors unusedCrtcs).calls
      = g.m_outputs.map (fun output => (output.m_pipeline, false)) ++
        (disableLoop k g.m_outputs unusedConnectors unusedCrtcs).1.map
          (fun output => (output.m_pipeline, output.m_dpmsEnabled)) := by
    unfold shufflePipelines
    simp only [hne, Bool.false_eq_true, if_false]
  refine ⟨?_, ?_, ?_, ?_, ?_, ?_, ?_, ?_⟩
  · rw [h1, ← hd, List.map_map]
    apply List.map_congr_left
    intro o _
    simp only [Function.comp, (DrmOutput.setEnablement_pipeline k o o.m_dpmsEnabled).1,
      (DrmOutput.setEnablement_pipeline k o o.m_dpmsEnabled).2]
  · rw [h2, hd]
  all_goals
    unfold shufflePipelines
    simp only [hne, Bool.false_eq_true, if_false]

/-- C8 at a concrete input: one output on pipe 0, a new connector that needs pipe 0; the
search over the combined pool serves both connectors and the revert branch is taken. -/
theorem shufflePipelines_revert_witness :
    (shuffleSearch exKernel exOneOutput [connLate] [crtc1]).length ≠ [connLate].length ∧
    (shufflePipelines exKernel exOneOutput [connLate] [crtc1]).gpu.m_outputs.map
        (fun o => (o.m_pipeline, o.m_dpmsEnabled))
      = exOneOutput.m_outputs.map (fun o => (o.m_pipeline, o.m_dpmsEnabled)) ∧
    (shufflePipelines exKernel exOneOutput [connLate] [crtc1]).calls
      = exOneOutput.m_outputs.map (fun o => (o.m_pipeline, false)) ++
        exOneOutput.m_outputs.map (fun o => (o.m_pipeline, o.m_dpmsEnabled)) ∧
    (shufflePipelines exKernel exOneOutput [connLate] [crtc1]).unusedConnectors = [connLate] ∧
    (shufflePipelines exKernel exOneOutput [connLate] [crtc1]).unusedCrtcs = [crtc1] ∧
    (shufflePipelines exKernel exOneOutput [connLate] [crtc1]).gpu.m_planes
      = exOneOutput.m_planes ∧
    (shufflePipelines exKernel exOneOutput [connLate] [crtc1]).gpu.m_unusedPlanes
      = exOneOutput.m_unusedPlanes ∧
    (shufflePipelines exKernel exOneOutput [connLate] [crtc1]).gpu.m_pipelines
      = exOneOutput.m_pipelines ∧
    (shufflePipelines exKernel exOneOutput [connLate] [crtc1]).pipelines
      = findWorkingCombination exKernel exOneOutput.m_atomicModeSetting [connLate] [crtc1]
          exOneOutput.m_unusedPlanes :=
  ⟨by decide, shufflePipelines_revert exKernel exOneOutput [connLate] [crtc1] (by decide)⟩

/-- C6, the code at the failing input: two working outputs, one new connector that needs
the pipe of the first output.  The search over the combined pool yields one pipeline,
fewer than the two outputs, the shuffle is accepted, and both outputs are left disabled:
they hold their old pipelines, were enabled before the call, and the only `setEnablement`
calls made are the two disabling ones. -/
theorem shufflePipelines_leaves_outputs_disabled :
    exTwoOutputs.m_outputs.length = 2 ∧
    exTwoOutputs.m_outputs.map (·.enabled) = [true, true] ∧
    (shuffleSearch exKernel exTwoOutputs [connLate] []).length = 1 ∧
    (shufflePipelines exKernel exTwoOutputs [connLate] []).gpu.m_outputs.map (·.m_pipeline)
      = exTwoOutputs.m_outputs.map (·.m_pipeline) ∧
    (shufflePipelines exKernel exTwoOutputs [connLate] []).gpu.m_outputs.map (·.enabled)
      = [false, false] ∧
    (shufflePipelines exKernel exTwoOutputs [connLate] []).pipelines
      = [⟨connLate, crtc0, some planeA, none⟩] ∧
    (shufflePipelines exKernel exTwoOutputs [connLate] []).calls
      = [(⟨connPipe0, crtc0, some planeA, none⟩, false),
         (⟨connPipe1, crtc1, some planeB, none⟩, false)] := by
  decide

/-- C7, the code at the failing input: one output on pipe 0 whose connector either pipe
can drive, one free connector that needs pipe 0, pipe 1 free.  The search over the
combined pool serves both connectors (two pipelines, one more than the one free
connector), the revert branch is taken: the output is not rebound and the free connector
gets no pipeline; the rescan that leads to this call leaves the device as it was. -/
theorem shufflePipelines_rejects_full_cover :
    shuffleSearch exKernel exOneOutput [connLate] [crtc1]
      = [⟨connLate, crtc0, some planeA, none⟩, ⟨connAny, crtc1, some planeB, none⟩] ∧
    [connLate].length ≤ (shuffleSearch exKernel exOneOutput [connLate] [crtc1]).length ∧
    (shufflePipelines exKernel exOneOutput [connLate] [crtc1]).gpu.m_outputs
      = exOneOutput.m_outputs ∧
    exOneOutput.m_outputs.map (·.m_pipeline) = [⟨connAny, crtc0, some planeA, none⟩] ∧
    (shufflePipelines exKernel exOneOutput [connLate] [crtc1]).pipelines = [] ∧
    (shufflePipelines exKernel exOneOutput [connLate] [crtc1]).calls
      = [(⟨connAny, crtc0, some planeA, none⟩, false),
         (⟨connAny, crtc0, some planeA, none⟩, true)] ∧
    updateOutputs exKernel (exHotplug [4, 3]) exOneOutput = exOneOutput := by
  decide

/-! ## `updateOutputs` -/

/-- C9, the code at the failing input: after `tryAMS` and a rescan that creates two
outputs, a rescan that finds a new connector in need of the pipe of the first output goes
through `shufflePipelines`, which accepts a search serving the new connector only; the
new output then holds a pipeline with the CRTC and the primary plane of the first
output's pipeline. -/
theorem updateOutputs_double_books :
    Reachable (updateOutputs exKernel (exHotplug [1, 2, 3]) exTwoOutputs) ∧
    Exclusive exTwoOutputs ∧
    ¬ Exclusive (updateOutputs exKernel (exHotplug [1, 2, 3]) exTwoOutputs) ∧
    (updateOutputs exKernel (exHotplug [1, 2, 3]) exTwoOutputs).m_outputs.map (·.m_pipeline)
      = [⟨connPipe0, crtc0, some planeA, none⟩, ⟨connPipe1, crtc1, some planeB, none⟩,
         ⟨connLate, crtc0, some planeA, none⟩] := by
  refine ⟨?_, by decide, by decide, by decide⟩
  exact Reachable.updateOutputs _ _ _ (Reachable.updateOutputs _ _ _ (Reachable.tryAMS exAms))

/-! ## An accepted shuffle rebinds no output -/

/-- For a duplicate-free connector list the connectors served are among the first ones of
the list, as many as there are pipelines. -/
theorem findWorkingCombination_connectors_take (k : Kernel) (a : Bool) :
    ∀ (cs : List DrmConnector) (xs : List DrmCrtc) (ps : List DrmPlane), cs.Nodup →
      ∀ q ∈ findWorkingCombination k a cs xs ps,
        q.connector ∈ cs.take (findWorkingCombination k a cs xs ps).length := by
  apply findWorkingCombination_rules k a
    (fun cs _ _ r => cs.Nodup → ∀ q ∈ r, q.connector ∈ cs.take r.length)
  · intro cs xs ps _ q hq
    cases hq
  · intro c cs xs ps x p r _ _ _ _ _ ih hcs q hq
    obtain ⟨_, hcs'⟩ := List.nodup_cons.mp hcs
    simp only [List.length_cons, List.take_succ_cons]
    rcases List.mem_cons.mp hq with rfl | hq
    · exact List.mem_cons_self _ _
    · exact List.mem_cons_of_mem _ (ih hcs' q hq)
  · intro c cs xs ps x r _ _ _ ih hcs q hq
    obtain ⟨hcn, hcs'⟩ := List.nodup_cons.mp hcs
    rw [List.erase_of_not_mem hcn] at ih
    simp only [List.length_append, List.length_singleton, List.take_succ_cons]
    rcases List.mem_append.mp hq with hq | hq
    · exact List.mem_cons_of_mem _ (ih hcs' q hq)
    · rw [List.mem_singleton.mp hq]
      exact List.mem_cons_self _ _

/-- The pool of connectors after the outputs were turned off starts with the unused
connectors. -/
theorem disableLoop_connectors (k : Kernel) :
    ∀ (outputs : List DrmOutput) (connectors : List DrmConnector) (crtcs : List DrmCrtc),
      ∃ added, (disableLoop k outputs connectors crtcs).2.1 = connectors ++ added := by
  intro outputs
  induction outputs with
  | nil => intro connectors _; exact ⟨[], by simp [disableLoop]⟩
  | cons o rest ih =>
    intro connectors crtcs
    simp only [disableLoop]
    split_ifs
    · obtain ⟨added, h⟩ := ih (connectors ++ [o.m_pipeline.connector])
        (crtcs ++ [o.m_pipeline.crtc])
      exact ⟨o.m_pipeline.connector :: added, by simp [h]⟩
    · obtain ⟨added, h⟩ := ih connectors crtcs
      exact ⟨added, h⟩

theorem rebindLoop_no_match :
    ∀ (outputs : List DrmOutput) (working : List DrmPipeline) (cs : List DrmConnector)
      (xs : List DrmCrtc),
      (∀ o ∈ outputs, ∀ q ∈ working, q.connector ≠ o.connector) →
      rebindLoop outputs working cs xs = (outputs, working, cs, xs) := by
  intro outputs
  induction outputs with
  | nil => intro _ _ _ _; rfl
  | cons o rest ih =>
    intro working cs xs h
    have hnone : working.find? (fun pipeline => pipeline.connector == o.connector) = none := by
      rw [List.find?_eq_none]
      intro q hq
      simp only [beq_iff_eq]
      exact h o (List.mem_cons_self _ _) q hq
    simp only [rebindLoop, hnone]
    rw [ih working cs xs (fun o' ho' => h o' (List.mem_cons_of_mem _ ho'))]

/-- When `shufflePipelines` accepts a search (as many pipelines as unused connectors), the
pool of connectors being duplicate-free and no output sitting on an unused connector:
every pipeline found is for an unused connector, no output is rebound (each keeps its
pipeline, disabled when the disabling call succeeded), no enabling call is made and the
search result is returned as it is. -/
theorem shufflePipelines_accept_rebinds_nothing (k : Kernel) (g : DrmGpu)
    (unusedConnectors : List DrmConnector) (unusedCrtcs : List DrmCrtc)
    (hpool : (disableLoop k g.m_outputs unusedConnectors unusedCrtcs).2.1.Nodup)
    (hfree : ∀ o ∈ g.m_outputs, o.connector ∉ unusedConnectors)
    (haccept : (shuffleSearch k g unusedConnectors unusedCrtcs).length
      = unusedConnectors.length) :
    (∀ q ∈ shuffleSearch k g unusedConnectors unusedCrtcs, q.connector ∈ unusedConnectors) ∧
    (shufflePipelines k g unusedConnectors unusedCrtcs).gpu.m_outputs
      = g.m_outputs.map (fun o => o.setEnablement k false) ∧
    (shufflePipelines k g unusedConnectors unusedCrtcs).pipelines
      = shuffleSearch k g unusedConnectors unusedCrtcs ∧
    (shufflePipelines k g unusedConnectors unusedCrtcs).calls
      = g.m_outputs.map (fun o => (o.m_pipeline, false)) := by
  have hserved : ∀ q ∈ shuffleSearch k g unusedConnectors unusedCrtcs,
      q.connector ∈ unusedConnectors := by
    intro q hq
    have h := findWorkingCombination_connectors_take k g.m_atomicModeSetting _
      (disableLoop k g.m_outputs unusedConnectors unusedCrtcs).2.2 g.m_planes hpool q hq
    obtain ⟨added, hadd⟩ := disableLoop_connectors k g.m_outputs unusedConnectors unusedCrtcs
    have hlen : (findWorkingCombination k g.m_atomicModeSetting
        (disableLoop k g.m_outputs unusedConnectors unusedCrtcs).2.1
        (disableLoop k g.m_outputs unusedConnectors unusedCrtcs).2.2 g.m_planes).length
          = unusedConnectors.length := haccept
    rw [hlen, hadd, List.take_left'] at h
    · exact h
    · rfl
  have houts : ∀ (outputs : List DrmOutput) (cs : List DrmConnector) (xs : List DrmCrtc),
      (disableLoop k outputs cs xs).1 = outputs.map (fun o => o.setEnablement k false) := by
    intro outputs
    induction outputs with
    | nil => intro _ _; rfl
    | cons o rest ih =>
      intro cs xs
      simp only [disableLoop]
      split_ifs <;> simp only [List.map_cons, ih]
  have hbeq : ((findWorkingCombination k g.m_atomicModeSetting
      (disableLoop k g.m_outputs unusedConnectors unusedCrtcs).2.1
      (disableLoop k g.m_outputs unusedConnectors unusedCrtcs).2.2 g.m_planes).length
        == unusedConnectors.length) = true := by
    simp only [beq_iff_eq]
    exact haccept
  have hre := rebindLoop_no_match (disableLoop k g.m_outputs unusedConnectors unusedCrtcs).1
    (shuffleSearch k g unusedConnectors unusedCrtcs) unusedConnectors unusedCrtcs
    (by
      intro o ho q hq heq
      rw [houts] at ho
      obtain ⟨o', ho', rfl⟩ := List.mem_map.mp ho
      apply hfree o' ho'
      have hc : (o'.setEnablement k false).connector = o'.connector := by
        unfold DrmOutput.connector
        rw [(DrmOutput.setEnablement_pipeline k o' false).1]
      rw [← hc, ← heq]
      exact hserved q hq)
  dsimp only [shuffleSearch] at hre
  refine ⟨hserved, ?_, ?_, ?_⟩
  · unfold shufflePipelines
    simp only [hbeq, if_true, hre]
    exact houts _ _ _
  · unfold shufflePipelines shuffleSearch
    simp only [hbeq, if_true, hre]
  · unfold shufflePipelines
    simp only [hbeq, if_true]

/-! ## Atomic mode: the result serves the longest servable prefix of the connector list -/

/-- The plane loop never loses the best list seen and keeps every candidate it visits
in the comparison. -/
theorem planeLoop_lower (k : Kernel)
    (recur : List DrmConnector → List DrmCrtc → List DrmPlane → List DrmPipeline)
    (connector : DrmConnector) (connectors : List DrmConnector) (crtcs : List DrmCrtc)
    (planes : List DrmPlane) (crtc : DrmCrtc)
    (hub : ∀ xs ps, (recur connectors xs ps).length ≤ connectors.length) :
    ∀ (rest : List DrmPlane) (most : List DrmPipeline), most.length ≤ connectors.length + 1 →
      (planeLoop k recur connector connectors crtcs planes crtc rest most).val.length
          ≤ connectors.length + 1 ∧
      most.length
          ≤ (planeLoop k recur connector connectors crtcs planes crtc rest most).val.length ∧
      ∀ p ∈ rest, atomicCandidate k connector crtc p →
        (recur connectors (crtcs.erase crtc) (planes.erase p)).length + 1
          ≤ (planeLoop k recur connector connectors crtcs planes crtc rest most).val.length := by
  intro rest
  induction rest with
  | nil =>
    intro most hm
    refine ⟨hm, le_rfl, ?_⟩
    intro p hp
    cases hp
  | cons plane rest ih =>
    intro most hm
    have hrec := hub (crtcs.erase crtc) (planes.erase plane)
    simp only [planeLoop]
    split_ifs with h1 h2 h3 h4
    · obtain ⟨i1, i2, i3⟩ := ih most hm
      refine ⟨i1, i2, ?_⟩
      intro p hp hcand
      rcases List.mem_cons.mp hp with rfl | hp
      · rw [hcand.2.2] at h2; simp at h2
      · exact i3 p hp hcand
    · simp only [List.length_cons, gt_iff_lt] at h3
      simp only [Loop.val, List.length_cons]
      refine ⟨by omega, by omega, ?_⟩
      intro p hp hcand
      have := hub (crtcs.erase crtc) (planes.erase p)
      omega
    · simp only [List.length_cons, gt_iff_lt, not_lt] at h3 h4
      obtain ⟨i1, i2, i3⟩ := ih (⟨connector, crtc, some plane, none⟩ ::
        recur connectors (crtcs.erase crtc) (planes.erase plane))
        (by simp only [List.length_cons]; omega)
      simp only [List.length_cons] at i2
      refine ⟨i1, by omega, ?_⟩
      intro p hp hcand
      rcases List.mem_cons.mp hp with rfl | hp
      · exact i2
      · exact i3 p hp hcand
    · simp only [List.length_cons, gt_iff_lt, not_lt] at h3 h4
      obtain ⟨i1, i2, i3⟩ := ih most hm
      refine ⟨i1, i2, ?_⟩
      intro p hp hcand
      rcases List.mem_cons.mp hp with rfl | hp
      · omega
      · exact i3 p hp hcand
    · obtain ⟨i1, i2, i3⟩ := ih most hm
      refine ⟨i1, i2, ?_⟩
      intro p hp hcand
      rcases List.mem_cons.mp hp with rfl | hp
      · rw [hcand.1, hcand.2.1] at h1; simp at h1
      · exact i3 p hp hcand

theorem crtcLoop_lower (k : Kernel)
    (recur : List DrmConnector → List DrmCrtc → List DrmPlane → List DrmPipeline)
    (connector : DrmConnector) (connectors : List DrmConnector) (crtcs : List DrmCrtc)
    (planes : List DrmPlane) (pc : Nat)
    (hub : ∀ xs ps, (recur connectors xs ps).length ≤ connectors.length) :
    ∀ (rest : List DrmCrtc) (most : List DrmPipeline), most.length ≤ connectors.length + 1 →
      (crtcLoop k true recur connector connectors crtcs planes pc rest most).val.length
          ≤ connectors.length + 1 ∧
      most.length
          ≤ (crtcLoop k true recur connector connectors crtcs planes pc rest most).val.length ∧
      ∀ x ∈ rest, pipeBitSet pc x.pipeIndex = true →
        ∀ p ∈ planes, atomicCandidate k connector x p →
          (recur connectors (crtcs.erase x) (planes.erase p)).length + 1
            ≤ (crtcLoop k true recur connector connectors crtcs planes pc rest most).val.length := by
  intro rest
  induction rest with
  | nil =>
    intro most hm
    refine ⟨hm, le_rfl, ?_⟩
    intro x hx
    cases hx
  | cons crtc rest ih =>
    intro most hm
    simp only [crtcLoop]
    split_ifs with h1
    · obtain ⟨i1, i2, i3⟩ := ih most hm
      refine ⟨i1, i2, ?_⟩
      intro x hx hbit
      rcases List.mem_cons.mp hx with rfl | hx
      · rw [hbit] at h1; simp at h1
      · exact i3 x hx hbit
    · obtain ⟨j1, j2, j3⟩ := planeLoop_lower k recur connector connectors crtcs planes crtc hub
        planes most hm
      cases hpl : planeLoop k recur connector connectors crtcs planes crtc planes most with
      | ret v =>
        rw [hpl] at j1 j2 j3
        have hv := planeLoop_ret_length k recur connector connectors crtcs planes crtc _ _ _ hpl
        simp only [Loop.val] at j1 j2 j3 ⊢
        refine ⟨j1, j2, ?_⟩
        intro x hx hbit p hp hcand
        have := hub (crtcs.erase x) (planes.erase p)
        omega
      | cont m =>
        rw [hpl] at j1 j2 j3
        simp only [Loop.val] at j1 j2 j3 ⊢
        obtain ⟨i1, i2, i3⟩ := ih m j1
        refine ⟨i1, le_trans j2 i2, ?_⟩
        intro x hx hbit p hp hcand
        rcases List.mem_cons.mp hx with rfl | hx
        · exact le_trans (j3 p hp hcand) i2
        · exact i3 x hx hbit p hp hcand

theorem encoderLoop_lower (k : Kernel)
    (recur : List DrmConnector → List DrmCrtc → List DrmPlane → List DrmPipeline)
    (connector : DrmConnector) (connectors : List DrmConnector) (crtcs : List DrmCrtc)
    (planes : List DrmPlane)
    (hub : ∀ xs ps, (recur connectors xs ps).length ≤ connectors.length) :
    ∀ (rest : List Nat) (most : List DrmPipeline), most.length ≤ connectors.length + 1 →
      most.length
          ≤ (encoderLoop k true recur connector connectors crtcs planes rest most).length ∧
      ∀ e ∈ rest, ∀ pc, k.getEncoder e = some pc →
        ∀ x ∈ crtcs, pipeBitSet pc x.pipeIndex = true →
        ∀ p ∈ planes, atomicCandidate k connector x p →
          (recur connectors (crtcs.erase x) (planes.erase p)).length + 1
            ≤ (encoderLoop k true recur connector connectors crtcs planes rest most).length := by
  intro rest
  induction rest with
  | nil =>
    intro most _
    refine ⟨le_rfl, ?_⟩
    intro e he
    cases he
  | cons encId rest ih =>
    intro most hm
    simp only [encoderLoop]
    rcases Option.eq_none_or_eq_some (k.getEncoder encId) with hg | ⟨pc', hg⟩
    · simp only [hg]
      obtain ⟨i2, i3⟩ := ih most hm
      refine ⟨i2, ?_⟩
      intro e he pc hge
      rcases List.mem_cons.mp he with rfl | he
      · rw [hg] at hge; cases hge
      · exact i3 e he pc hge
    · simp only [hg]
      obtain ⟨j1, j2, j3⟩ := crtcLoop_lower k recur connector connectors crtcs planes pc' hub
        crtcs most hm
      cases hcl : crtcLoop k true recur connector connectors crtcs planes pc' crtcs most with
      | ret v =>
        rw [hcl] at j1 j2 j3
        have hv := crtcLoop_ret_length k recur connector connectors crtcs planes pc' _ _ _ hcl
        simp only [Loop.val] at j1 j2 j3 ⊢
        refine ⟨j2, ?_⟩
        intro e he pc hge x hx hbit p hp hcand
        have := hub (crtcs.erase x) (planes.erase p)
        omega
      | cont m =>
        rw [hcl] at j1 j2 j3
        simp only [Loop.val] at j1 j2 j3 ⊢
        obtain ⟨i2, i3⟩ := ih m j1
        refine ⟨le_trans j2 i2, ?_⟩
        intro e he pc hge x hx hbit p hp hcand
        rcases List.mem_cons.mp he with rfl | he
        · rw [hg] at hge
          cases hge
          exact le_trans (j3 x hx hbit p hp hcand) i2
        · exact i3 e he pc hge x hx hbit p hp hcand

/-- In atomic mode, for duplicate-free lists, whenever the first `n` connectors of the list
can be served together, at least `n` pipelines are returned. -/
theorem findWorkingCombination_atomic_longest (k : Kernel)
    (f : DrmConnector → DrmCrtc × DrmPlane) :
    ∀ (cs : List DrmConnector) (n : Nat) (xs : List DrmCrtc) (ps : List DrmPlane),
      cs.Nodup → xs.Nodup → ps.Nodup → n ≤ cs.length →
      Servable k (cs.take n) xs ps f →
      n ≤ (findWorkingCombination k true cs xs ps).length := by
  intro cs
  induction cs with
  | nil =>
    intro n xs ps _ _ _ hn _
    simp only [List.length_nil, Nat.le_zero] at hn
    rw [hn]
    exact Nat.zero_le _
  | cons c cs ih =>
    intro n xs ps hcs hxs hps hn hserv
    cases n with
    | zero => exact Nat.zero_le _
    | succ m =>
      obtain ⟨hcn, hcs'⟩ := List.nodup_cons.mp hcs
      simp only [List.length_cons, Nat.succ_le_succ_iff] at hn
      rw [List.take_succ_cons] at hserv
      obtain ⟨hf, hix, hip⟩ := hserv
      obtain ⟨hx0, hp0, henc, hcand⟩ := hf c (List.mem_cons_self _ _)
      have hnot : ∀ c' ∈ cs.take m, c' ≠ c := by
        intro c' hc' heq
        exact hcn (heq ▸ List.mem_of_mem_take hc')
      have hrest := ih m (xs.erase (f c).1) (ps.erase (f c).2) hcs' (hxs.erase _) (hps.erase _) hn
        ⟨fun c' hc' => by
          obtain ⟨h1, h2, h3, h4⟩ := hf c' (List.mem_cons_of_mem _ hc')
          refine ⟨(List.mem_erase_of_ne ?_).mpr h1, (List.mem_erase_of_ne ?_).mpr h2, h3, h4⟩
          · intro heq
            exact hnot c' hc'
              (hix c' (List.mem_cons_of_mem _ hc') c (List.mem_cons_self _ _) heq)
          · intro heq
            exact hnot c' hc'
              (hip c' (List.mem_cons_of_mem _ hc') c (List.mem_cons_self _ _) heq),
         fun a ha b hb => hix a (List.mem_cons_of_mem _ ha) b (List.mem_cons_of_mem _ hb),
         fun a ha b hb => hip a (List.mem_cons_of_mem _ ha) b (List.mem_cons_of_mem _ hb)⟩
      have hub : ∀ xs' ps', (findWorkingCombination k true cs xs' ps').length ≤ cs.length := by
        intro xs' ps'
        have := (findWorkingCombination_atomic_connectors k cs xs' ps').length_le
        rwa [List.length_map] at this
      obtain ⟨e, he, pc, hge, hbit⟩ := (encoderAllows_iff k c _).mp henc
      rw [findWorkingCombination_cons]
      have hlow := (encoderLoop_lower k (findWorkingCombination k true) c cs xs ps hub
        c.encoders [] (Nat.zero_le _)).2 e he pc hge (f c).1 hx0 hbit (f c).2 hp0 hcand
      omega

/-- Every pipeline returned in atomic mode is a candidate the atomic branch accepts, on a
CRTC one of the connector's encoders allows. -/
theorem findWorkingCombination_atomic_valid (k : Kernel) :
    ∀ (cs : List DrmConnector) (xs : List DrmCrtc) (ps : List DrmPlane),
      ∀ q ∈ findWorkingCombination k true cs xs ps,
        encoderAllows k q.connector q.crtc = true ∧
        ∃ p, q.primaryPlane = some p ∧ q.cursorPlane = none ∧
          atomicCandidate k q.connector q.crtc p := by
  apply findWorkingCombination_rules k true
    (fun _ _ _ r => ∀ q ∈ r, encoderAllows k q.connector q.crtc = true ∧
      ∃ p, q.primaryPlane = some p ∧ q.cursorPlane = none ∧
        atomicCandidate k q.connector q.crtc p)
  · intro _ _ _ q hq
    cases hq
  · intro c cs xs ps x p r _ _ _ henc hcand ih q hq
    rcases List.mem_cons.mp hq with rfl | hq
    · exact ⟨henc, p, rfl, rfl, hcand⟩
    · exact ih q hq
  · intro c cs xs ps x r ha
    cases ha

/-- Two elements of a list mapped to the same value by `f` are the same element when the
values kept by `filterMap f` are pairwise different. -/
theorem filterMap_nodup_inj {α β : Type} (f : α → Option β) :
    ∀ (l : List α), (l.filterMap f).Nodup →
      ∀ a ∈ l, ∀ b ∈ l, ∀ p, f a = some p → f b = some p → a = b := by
  intro l
  induction l with
  | nil => intro _ a ha; cases ha
  | cons h t ih =>
    intro hnd a ha b hb p hfa hfb
    by_contra hab
    rcases List.mem_cons.mp ha with rfl | ha'
    · rcases List.mem_cons.mp hb with rfl | hb'
      · exact hab rfl
      · rw [List.filterMap_cons_some hfa, List.nodup_cons] at hnd
        exact hnd.1 (List.mem_filterMap.mpr ⟨b, hb', hfb⟩)
    · rcases List.mem_cons.mp hb with rfl | hb'
      · rw [List.filterMap_cons_some hfb, List.nodup_cons] at hnd
        exact hnd.1 (List.mem_filterMap.mpr ⟨a, ha', hfa⟩)
      · have hnd' : (t.filterMap f).Nodup := by
          cases hfh : f h with
          | none => rw [List.filterMap_cons_none hfh] at hnd; exact hnd
          | some v => rw [List.filterMap_cons_some hfh, List.nodup_cons] at hnd; exact hnd.2
        exact hab (ih hnd' a ha' b hb' p hfa hfb)

theorem assignmentOf_mem (r : List DrmPipeline) (c : DrmConnector)
    (hc : c ∈ r.map (·.connector)) :
    ∃ q ∈ r, q.connector = c ∧
      assignmentOf r c = (q.crtc, q.primaryPlane.getD ⟨0, TypeIndex.Overlay, 0⟩) := by
  obtain ⟨q0, hq0, hq0c⟩ := List.mem_map.mp hc
  unfold assignmentOf
  cases hfind : r.find? (fun q => q.connector == c) with
  | none =>
    rw [List.find?_eq_none] at hfind
    have := hfind q0 hq0
    simp only [beq_iff_eq] at this
    exact absurd hq0c this
  | some q =>
    have hq := List.mem_of_find?_eq_some hfind
    have hqc := List.find?_some hfind
    simp only [beq_iff_eq] at hqc
    exact ⟨q, hq, hqc, rfl⟩

/-- In atomic mode, for duplicate-free lists, the connectors served are the first ones of
the list and the returned pipelines are an assignment serving them together. -/
theorem findWorkingCombination_atomic_servable (k : Kernel)
    (cs : List DrmConnector) (xs : List DrmCrtc) (ps : List DrmPlane)
    (hcs : cs.Nodup) (hxs : xs.Nodup) (hps : ps.Nodup) :
    Servable k (cs.take (findWorkingCombination k true cs xs ps).length) xs ps
      (assignmentOf (findWorkingCombination k true cs xs ps)) := by
  obtain ⟨_, _, s3, s4, s5, s6, _⟩ := findWorkingCombination_sound k true cs xs ps hcs hxs hps
  have hvalid := findWorkingCombination_atomic_valid k cs xs ps
  have hpre := findWorkingCombination_atomic_connectors k cs xs ps
  have htake : cs.take (findWorkingCombination k true cs xs ps).length
      = (findWorkingCombination k true cs xs ps).map (·.connector) := by
    have := List.prefix_iff_eq_take.mp hpre
    rw [List.length_map] at this
    exact this.symm
  rw [htake]
  generalize findWorkingCombination k true cs xs ps = r at *
  refine ⟨?_, ?_, ?_⟩
  · intro c hc
    obtain ⟨q, hq, hqc, hfq⟩ := assignmentOf_mem r c hc
    obtain ⟨henc, p, hp, _, hcand⟩ := hvalid q hq
    rw [hfq, hp]
    subst hqc
    exact ⟨s4 q hq, s6 q hq p hp, henc, hcand⟩
  · intro c hc c' hc' heq
    obtain ⟨q, hq, hqc, hfq⟩ := assignmentOf_mem r c hc
    obtain ⟨q', hq', hqc', hfq'⟩ := assignmentOf_mem r c' hc'
    rw [hfq, hfq'] at heq
    have hqq : q = q' := List.inj_on_of_nodup_map s3 hq hq' heq
    rw [← hqc, ← hqc', hqq]
  · intro c hc c' hc' heq
    obtain ⟨q, hq, hqc, hfq⟩ := assignmentOf_mem r c hc
    obtain ⟨q', hq', hqc', hfq'⟩ := assignmentOf_mem r c' hc'
    obtain ⟨_, p, hp, _, _⟩ := hvalid q hq
    obtain ⟨_, p', hp', _, _⟩ := hvalid q' hq'
    rw [hfq, hfq', hp, hp'] at heq
    have hpp : p = p' := heq
    rw [← hpp] at hp'
    have hqq : q = q' := filterMap_nodup_inj (·.primaryPlane) r s5 q hq q' hq' p hp hp'
    rw [← hqc, ← hqc', hqq]

/-- In atomic mode, for duplicate-free lists, the number of pipelines returned is the
length of the longest initial part of the connector list that can be served together:
that many first connectors are served by the result, and no longer initial part can be
served by any assignment. -/
theorem findWorkingCombination_atomic_longest_servable (k : Kernel)
    (cs : List DrmConnector) (xs : List DrmCrtc) (ps : List DrmPlane)
    (hcs : cs.Nodup) (hxs : xs.Nodup) (hps : ps.Nodup) :
    (findWorkingCombination k true cs xs ps).map (·.connector)
      = cs.take (findWorkingCombination k true cs xs ps).length ∧
    (∃ f, Servable k (cs.take (findWorkingCombination k true cs xs ps).length) xs ps f) ∧
    ∀ n f, n ≤ cs.length → Servable k (cs.take n) xs ps f →
      n ≤ (findWorkingCombination k true cs xs ps).length := by
  refine ⟨?_, ⟨_, findWorkingCombination_atomic_servable k cs xs ps hcs hxs hps⟩, ?_⟩
  · have := List.prefix_iff_eq_take.mp (findWorkingCombination_atomic_connectors k cs xs ps)
    rw [List.length_map] at this
    exact this
  · intro n f hn hserv
    exact findWorkingCombination_atomic_longest k f cs n xs ps hcs hxs hps hn hserv

/-- The accepted shuffle of the two-output device: the hypotheses of
`shufflePipelines_accept_rebinds_nothing` hold there. -/
theorem shufflePipelines_accept_rebinds_nothing_example :
    (disableLoop exKernel exTwoOutputs.m_outputs [connLate] []).2.1.Nodup ∧
    (∀ o ∈ exTwoOutputs.m_outputs, o.connector ∉ [connLate]) ∧
    (shuffleSearch exKernel exTwoOutputs [connLate] []).length = [connLate].length ∧
    (shufflePipelines exKernel exTwoOutputs [connLate] []).pipelines
      = shuffleSearch exKernel exTwoOutputs [connLate] [] :=
  ⟨by decide, by decide, by decide,
    (shufflePipelines_accept_rebinds_nothing exKernel exTwoOutputs [connLate] []
      (by decide) (by decide) (by decide)).2.2.1⟩

/-- The atomic search of the one-output device after its output was turned off: both
connectors can be served and two pipelines are found, as
`findWorkingCombination_atomic_longest_servable` says. -/
theorem findWorkingCombination_atomic_longest_servable_example :
    [connLate, connAny].Nodup ∧ [crtc1, crtc0].Nodup ∧ [planeA, planeB].Nodup ∧
    (findWorkingCombination exKernel true [connLate, connAny] [crtc1, crtc0]
      [planeA, planeB]).map (·.connector)
      = [connLate, connAny].take (findWorkingCombination exKernel true [connLate, connAny]
          [crtc1, crtc0] [planeA, planeB]).length :=
  ⟨by decide, by decide, by decide,
    (findWorkingCombination_atomic_longest_servable exKernel [connLate, connAny]
      [crtc1, crtc0] [planeA, planeB] (by decide) (by decide) (by decide)).1⟩

/-! ## Legacy mode: the first allowed CRTC is taken -/

theorem crtcLoop_legacy (k : Kernel)
    (recur : List DrmConnector → List DrmCrtc → List DrmPlane → List DrmPipeline)
    (connector : DrmConnector) (connectors : List DrmConnector) (crtcs : List DrmCrtc)
    (planes : List DrmPlane) (pc : Nat) :
    ∀ (rest : List DrmCrtc) (most : List DrmPipeline),
      crtcLoop k false recur connector connectors crtcs planes pc rest most
        = match rest.find? (fun crtc => pipeBitSet pc crtc.pipeIndex) with
          | some crtc =>
            .ret (recur (connectors.erase connector) (crtcs.erase crtc) planes
              ++ [⟨connector, crtc, none, none⟩])
          | none => .cont most := by
  intro rest
  induction rest with
  | nil => intro most; rfl
  | cons crtc rest ih =>
    intro most
    simp only [crtcLoop, List.find?_cons]
    cases hb : pipeBitSet pc crtc.pipeIndex with
    | false => simpa using ih most
    | true => simp

theorem encoderLoop_legacy (k : Kernel)
    (recur : List DrmConnector → List DrmCrtc → List DrmPlane → List DrmPipeline)
    (connector : DrmConnector) (connectors : List DrmConnector) (crtcs : List DrmCrtc)
    (planes : List DrmPlane) :
    ∀ (rest : List Nat) (most : List DrmPipeline),
      encoderLoop k false recur connector connectors crtcs planes rest most
        = match legacyChoice k crtcs rest with
          | some crtc =>
            recur (connectors.erase connector) (crtcs.erase crtc) planes
              ++ [⟨connector, crtc, none, none⟩]
          | none => most := by
  intro rest
  induction rest with
  | nil => intro most; rfl
  | cons encId rest ih =>
    intro most
    simp only [encoderLoop, legacyChoice]
    rcases Option.eq_none_or_eq_some (k.getEncoder encId) with hg | ⟨pc, hg⟩
    · simp only [hg]
      exact ih most
    · simp only [hg, crtcLoop_legacy]
      cases hf : crtcs.find? (fun crtc => pipeBitSet pc crtc.pipeIndex) with
      | none => simpa using ih most
      | some crtc => simp

/-- In legacy mode the first connector takes the first CRTC allowed by its first encoder
that allows any, and the result is the result for the other connectors and CRTCs with
that pipeline appended; when no encoder of the first connector allows a CRTC the result
is empty, whatever the other connectors are. -/
theorem findWorkingCombination_legacy_greedy (k : Kernel) (c : DrmConnector)
    (cs : List DrmConnector) (xs : List DrmCrtc) (ps : List DrmPlane) :
    findWorkingCombination k false (c :: cs) xs ps
      = match legacyChoice k xs c.encoders with
        | some x =>
          findWorkingCombination k false (cs.erase c) (xs.erase x) ps ++ [⟨c, x, none, none⟩]
        | none => [] := by
  rw [findWorkingCombination_cons, encoderLoop_legacy]

/-- In both modes, when no encoder of the first connector allows any CRTC of the list, the
result is empty, whatever the other connectors are. -/
theorem findWorkingCombination_first_unmatched (k : Kernel) (a : Bool) (c : DrmConnector)
    (cs : List DrmConnector) (xs : List DrmCrtc) (ps : List DrmPlane)
    (h : ∀ x ∈ xs, encoderAllows k c x = false) :
    findWorkingCombination k a (c :: cs) xs ps = [] := by
  rw [findWorkingCombination_cons]
  apply encoderLoop_all (fun v => v = [])
  · intro e he pc hg x hx hb _ _ _ _
    have := (encoderAllows_iff k c x).mpr ⟨e, he, pc, hg, hb⟩
    rw [h x hx] at this
    cases this
  · intro e he pc hg x hx hb _
    have := (encoderAllows_iff k c x).mpr ⟨e, he, pc, hg, hb⟩
    rw [h x hx] at this
    cases this
  · rfl

/-! ## Presentation and timestamps -/

/-- C11: for every output, when `present()` is called twice with no page-flip completion
in between, the first call having put its buffer in flight, the second call returns false
and leaves the output state unchanged: the first buffer is still the pending one and the
page-flip-pending flag is still set. -/
theorem present_twice_rejected (o : DrmOutputFlip) (first second : Nat)
    (commitOk1 commitOk2 : Bool)
    (h : (o.present commitOk1 first).1 = true) :
    (o.present commitOk1 first).2.present commitOk2 second
      = (false, (o.present commitOk1 first).2) ∧
    (o.present commitOk1 first).2.next = some first ∧
    (o.present commitOk1 first).2.m_pageFlipPending = true := by
  unfold DrmOutputFlip.present at h ⊢
  cases hp : o.m_pageFlipPending with
  | true => rw [hp] at h; simp at h
  | false =>
    cases hc : commitOk1 with
    | false => rw [hp, hc] at h; simp at h
    | true => simp

/-- C11 at a concrete input: an idle output, buffers 1 and 2. -/
theorem present_twice_rejected_witness :
    ((⟨false, none, none⟩ : DrmOutputFlip).present true 1).1 = true ∧
    ((⟨false, none, none⟩ : DrmOutputFlip).present true 1).2.present true 2
      = (false, ((⟨false, none, none⟩ : DrmOutputFlip).present true 1).2) ∧
    ((⟨false, none, none⟩ : DrmOutputFlip).present true 1).2.next = some 1 ∧
    ((⟨false, none, none⟩ : DrmOutputFlip).present true 1).2.m_pageFlipPending = true :=
  ⟨by decide, present_twice_rejected ⟨false, none, none⟩ 1 2 true true (by decide)⟩

/-- Whatever the first call did, a set flag makes `present` fail without a change. -/
theorem present_pending_rejected (o : DrmOutputFlip) (buffer : Nat) (commitOk : Bool)
    (h : o.m_pageFlipPending = true) : o.present commitOk buffer = (false, o) := by
  unfold DrmOutputFlip.present
  rw [h]
  rfl

theorem wrap64_eq (x : Int) (h1 : -(2 ^ 63) ≤ x) (h2 : x < 2 ^ 63) : wrap64 x = x := by
  unfold wrap64
  norm_num at h1 h2 ⊢
  omega

/-- Within the range the nanoseconds of a `timespec` are computed without overflow. -/
theorem convertTimespec_eq (t : timespec) (h : t.inRange) :
    convertTimespec t = t.nanoseconds ∧ 0 ≤ t.nanoseconds ∧
      t.nanoseconds < 4294967296 * 1000000000 + 4294967296 := by
  obtain ⟨h1, h2, h3, h4⟩ := h
  norm_num at h2 h4
  unfold convertTimespec timespec.nanoseconds
  rw [wrap64_eq (t.tv_sec * 1000000000) (by norm_num; omega) (by norm_num; omega)]
  rw [wrap64_eq _ (by norm_num; omega) (by norm_num; omega)]
  refine ⟨rfl, by omega, by omega⟩

/-- C12: when the presentation clock is the target clock `CLOCK_MONOTONIC`, for every
kernel timestamp `(sec, usec)` with `usec < 1000000` (`sec` an `unsigned int`) the
timestamp computed for the page flip is the input verbatim, `sec * 10^9 + usec * 10^3`
nanoseconds, and no clock is sampled. -/
theorem pageFlipTimestamp_same_clock (clocks : Clocks) (sec usec : Nat)
    (hsec : sec < 2 ^ 32) (husec : usec < 1000000) :
    pageFlipTimestamp clocks ClockId.CLOCK_MONOTONIC sec usec
      = ((sec : Int) * 10 ^ 9 + (usec : Int) * 10 ^ 3, []) := by
  have hmod : usec * 1000 % 2 ^ 32 = usec * 1000 := by
    apply Nat.mod_eq_of_lt
    norm_num
    omega
  have hr : ({ tv_sec := (sec : Int), tv_nsec := ((usec * 1000 % 2 ^ 32 : Nat) : Int) }
      : timespec).inRange := by
    have h2 : usec * 1000 % 2 ^ 32 < 2 ^ 32 := Nat.mod_lt _ (by norm_num)
    unfold timespec.inRange
    dsimp only
    norm_num at hsec h2 ⊢
    omega
  unfold pageFlipTimestamp convertTimestamp
  rw [if_pos rfl, (convertTimespec_eq _ hr).1]
  unfold timespec.nanoseconds
  simp only [hmod]
  push_cast
  norm_num

/-- C12 at a concrete input: the kernel timestamp 5 s and 250 µs. -/
theorem pageFlipTimestamp_same_clock_witness :
    (5 : Nat) < 2 ^ 32 ∧ (250 : Nat) < 1000000 ∧
    pageFlipTimestamp exClocks ClockId.CLOCK_MONOTONIC 5 250
      = (((5 : Nat) : Int) * 10 ^ 9 + ((250 : Nat) : Int) * 10 ^ 3, []) :=
  ⟨by norm_num, by norm_num,
    pageFlipTimestamp_same_clock exClocks 5 250 (by norm_num) (by norm_num)⟩

/-- Whatever the readings, the conversion between two different clocks is the kernel
timestamp plus the difference of the readings, in 64-bit two's complement. -/
theorem convertTimestamp_skew_wrapped (clock_gettime : ClockId → timespec)
    (sourceClock targetClock : ClockId) (timestamp : timespec) (hne : sourceClock ≠ targetClock) :
    convertTimestamp clock_gettime sourceClock targetClock timestamp
      = (wrap64 (convertTimespec timestamp +
          (convertTimespec (clock_gettime targetClock)
            - convertTimespec (clock_gettime sourceClock))),
         [sourceClock, targetClock]) := by
  unfold convertTimestamp
  rw [if_neg hne]
  simp only [Prod.mk.injEq, and_true]
  unfold wrap64
  norm_num
  omega

/-- Within the range of `timespec.inRange` the conversion between two different clocks
is exact. -/
theorem convertTimestamp_skew_inRange (clock_gettime : ClockId → timespec)
    (sourceClock targetClock : ClockId) (timestamp : timespec)
    (hne : sourceClock ≠ targetClock) (ht : timestamp.inRange)
    (hsource : (clock_gettime sourceClock).inRange)
    (htarget : (clock_gettime targetClock).inRange) :
    convertTimestamp clock_gettime sourceClock targetClock timestamp
      = (timestamp.nanoseconds +
          ((clock_gettime targetClock).nanoseconds - (clock_gettime sourceClock).nanoseconds),
         [sourceClock, targetClock]) := by
  rw [convertTimestamp_skew_wrapped clock_gettime sourceClock targetClock timestamp hne]
  obtain ⟨e1, l1, u1⟩ := convertTimespec_eq timestamp ht
  obtain ⟨e2, l2, u2⟩ := convertTimespec_eq _ hsource
  obtain ⟨e3, l3, u3⟩ := convertTimespec_eq _ htarget
  rw [e1, e2, e3, wrap64_eq _ (by norm_num; omega) (by norm_num; omega)]

theorem convertTimespec_fits (t : timespec) (h : t.fits) : convertTimespec t = t.nanoseconds := by
  obtain ⟨⟨h1, h2⟩, h3, h4⟩ := h
  unfold timespec.nanoseconds at h3 h4 ⊢
  unfold convertTimespec
  rw [wrap64_eq _ h1 h2, wrap64_eq _ h3 h4]

/-- C13: when the source clock differs from the target clock, for every kernel timestamp
`t` and every pair of sampled readings `sourceNow` and `targetNow`, `convertTimestamp`
samples the source and then the target clock and returns exactly `t + Δ` with
`Δ = targetNow - sourceNow`, in integer nanoseconds; the three times, the difference
`sourceNow - t` and the result being 64-bit values, that is, the C++ arithmetic not
overflowing. -/
theorem convertTimestamp_skew (clock_gettime : ClockId → timespec)
    (sourceClock targetClock : ClockId) (timestamp : timespec)
    (hne : sourceClock ≠ targetClock) (ht : timestamp.fits)
    (hsource : (clock_gettime sourceClock).fits)
    (htarget : (clock_gettime targetClock).fits)
    (hdelta : fits64 ((clock_gettime sourceClock).nanoseconds - timestamp.nanoseconds))
    (hresult : fits64 ((clock_gettime targetClock).nanoseconds
      - ((clock_gettime sourceClock).nanoseconds - timestamp.nanoseconds))) :
    convertTimestamp clock_gettime sourceClock targetClock timestamp
      = (timestamp.nanoseconds +
          ((clock_gettime targetClock).nanoseconds - (clock_gettime sourceClock).nanoseconds),
         [sourceClock, targetClock]) := by
  unfold convertTimestamp
  rw [if_neg hne]
  dsimp only
  rw [convertTimespec_fits _ ht, convertTimespec_fits _ hsource, convertTimespec_fits _ htarget,
    wrap64_eq _ hdelta.1 hdelta.2, wrap64_eq _ hresult.1 hresult.2]
  congr 1
  ring

/-- C13 at a concrete input: the kernel timestamp 999 s on the realtime clock, read at
1000 s while the monotonic clock reads 10 s. -/
theorem convertTimestamp_skew_witness :
    ClockId.CLOCK_REALTIME ≠ ClockId.CLOCK_MONOTONIC ∧
    (⟨999, 0⟩ : timespec).fits ∧
    (exClocks.clock_gettime ClockId.CLOCK_REALTIME).fits ∧
    (exClocks.clock_gettime ClockId.CLOCK_MONOTONIC).fits ∧
    convertTimestamp exClocks.clock_gettime ClockId.CLOCK_REALTIME ClockId.CLOCK_MONOTONIC
        ⟨999, 0⟩
      = ((⟨999, 0⟩ : timespec).nanoseconds +
          ((exClocks.clock_gettime ClockId.CLOCK_MONOTONIC).nanoseconds
            - (exClocks.clock_gettime ClockId.CLOCK_REALTIME).nanoseconds),
         [ClockId.CLOCK_REALTIME, ClockId.CLOCK_MONOTONIC]) :=
  ⟨by decide,
    by unfold timespec.fits fits64 timespec.nanoseconds; norm_num,
    by unfold timespec.fits fits64 timespec.nanoseconds exClocks; norm_num,
    by unfold timespec.fits fits64 timespec.nanoseconds exClocks; norm_num,
    convertTimestamp_skew exClocks.clock_gettime ClockId.CLOCK_REALTIME
      ClockId.CLOCK_MONOTONIC ⟨999, 0⟩ (by decide)
      (by unfold timespec.fits fits64 timespec.nanoseconds; norm_num)
      (by unfold timespec.fits fits64 timespec.nanoseconds exClocks; norm_num)
      (by unfold timespec.fits fits64 timespec.nanoseconds exClocks; norm_num)
      (by unfold fits64 timespec.nanoseconds exClocks; norm_num)
      (by unfold fits64 timespec.nanoseconds exClocks; norm_num)⟩

/-- C14, as the code has it: for every page-flip event on a non-null output the timestamp
forwarded to the frame scheduler is the current time of the steady clock if the converted
timestamp is zero, and the converted timestamp unchanged otherwise, also when it is
negative; for a null output nothing is forwarded. -/
theorem pageFlipHandler_forwards (clocks : Clocks) (presentationClock : ClockId)
    (sec usec : Nat) (output : DrmOutputFlip) :
    pageFlipHandler clocks presentationClock sec usec (some output)
      = some (output.pageFlipped,
          if (pageFlipTimestamp clocks presentationClock sec usec).1 = 0 then clocks.steadyNow
          else (pageFlipTimestamp clocks presentationClock sec usec).1) ∧
    pageFlipHandler clocks presentationClock sec usec none = none :=
  ⟨rfl, rfl⟩

/-- C14 fails as stated: with the realtime presentation clock read at 1000 s, the
monotonic clock at 10 s and the kernel timestamp zero, the converted timestamp is
-990 s, negative, and it is forwarded as it is, not the current time. -/
theorem pageFlipHandler_negative_forwarded :
    (pageFlipTimestamp exClocks ClockId.CLOCK_REALTIME 0 0).1 = -990000000000 ∧
    (pageFlipTimestamp exClocks ClockId.CLOCK_REALTIME 0 0).1 < 0 ∧
    pageFlipHandler exClocks ClockId.CLOCK_REALTIME 0 0 (some ⟨true, some 1, none⟩)
      = some (⟨false, none, some 1⟩, -990000000000) ∧
    exClocks.steadyNow ≠ -990000000000 := by
  decide

/-- In a well-behaved environment the timestamp emitted for an event is not ahead of the
steady clock's time at its dispatch. -/
theorem FlipEvent.emitted_le_steadyNow (presentationClock : ClockId) (e : FlipEvent)
    (h : e.sane presentationClock) : e.emitted presentationClock ≤ e.clocks.steadyNow := by
  obtain ⟨hsec, hsrc, hmono, hpast, hsteady⟩ := h
  have hr : ({ tv_sec := (e.sec : Int), tv_nsec := ((e.usec * 1000 % 2 ^ 32 : Nat) : Int) }
      : timespec).inRange := by
    have h2 : e.usec * 1000 % 2 ^ 32 < 2 ^ 32 := Nat.mod_lt _ (by norm_num)
    unfold timespec.inRange
    dsimp only
    norm_num at hsec h2 ⊢
    omega
  unfold FlipEvent.emitted forwardedTimestamp
  dsimp only
  split_ifs with hz
  · exact le_rfl
  · cases presentationClock with
    | CLOCK_MONOTONIC =>
      unfold pageFlipTimestamp convertTimestamp
      rw [if_pos rfl, (convertTimespec_eq _ hr).1]
      unfold timespec.nanoseconds at hpast hsteady ⊢
      dsimp only at hpast ⊢
      omega
    | CLOCK_REALTIME =>
      unfold pageFlipTimestamp
      rw [convertTimestamp_skew_inRange _ _ _ _ (by decide) hr hsrc hmono]
      unfold timespec.nanoseconds at hpast hsteady ⊢
      dsimp only at hpast ⊢
      omega

/-- C15, as the code has it: for every sequence of page-flip events on one output,
whenever the fall-back to the current time is taken at an event `e`, the timestamp
emitted is greater than or equal to the timestamp emitted for every earlier event `pre`
that was dispatched in a well-behaved environment (kernel timestamp not ahead of the
presentation clock, monotonic readings not ahead of the steady clock) and not after `e`
on the steady clock. -/
theorem fallback_not_before_earlier (presentationClock : ClockId) (pre : List FlipEvent)
    (e : FlipEvent)
    (hsane : ∀ e' ∈ pre, e'.sane presentationClock)
    (horder : ∀ e' ∈ pre, e'.clocks.steadyNow ≤ e.clocks.steadyNow)
    (hfallback : e.fallback presentationClock) :
    e.emitted presentationClock = e.clocks.steadyNow ∧
    ∀ e' ∈ pre, e'.emitted presentationClock ≤ e.emitted presentationClock := by
  have he : e.emitted presentationClock = e.clocks.steadyNow := by
    unfold FlipEvent.fallback at hfallback
    unfold FlipEvent.emitted forwardedTimestamp
    dsimp only
    rw [if_pos hfallback]
  refine ⟨he, ?_⟩
  intro e' he'
  rw [he]
  exact le_trans (FlipEvent.emitted_le_steadyNow presentationClock e' (hsane e' he'))
    (horder e' he')

/-- C15 at a concrete input: an event with a kernel timestamp of 40 s dispatched at 50 s,
then the zero timestamp dispatched at 60 s. -/
theorem fallback_not_before_earlier_witness :
    exEventZero.fallback ClockId.CLOCK_MONOTONIC ∧
    exEventZero.emitted ClockId.CLOCK_MONOTONIC = exEventZero.clocks.steadyNow ∧
    ∀ e' ∈ [exEventPast],
      e'.emitted ClockId.CLOCK_MONOTONIC ≤ exEventZero.emitted ClockId.CLOCK_MONOTONIC :=
  ⟨by decide,
    fallback_not_before_earlier ClockId.CLOCK_MONOTONIC [exEventPast] exEventZero
      (by
        intro e' he'
        rw [List.mem_singleton.mp he']
        unfold FlipEvent.sane timespec.inRange timespec.nanoseconds exEventPast
        norm_num)
      (by
        intro e' he'
        rw [List.mem_singleton.mp he']
        decide)
      (by decide)⟩

/-- C15 fails as stated: on the monotonic presentation clock an event carries the kernel
timestamp 100 s at a dispatch where the steady clock reads 50 s, and 100 s is emitted;
the next event carries the zero timestamp, the fall-back is taken at 60 s, and the
timestamp emitted, 60 s, is smaller than the one emitted before. -/
theorem fallback_before_earlier :
    [exEventAhead, exEventZero].map (FlipEvent.emitted ClockId.CLOCK_MONOTONIC)
      = [100000000000, 60000000000] ∧
    exEventZero.fallback ClockId.CLOCK_MONOTONIC ∧
    exEventZero.emitted ClockId.CLOCK_MONOTONIC < exEventAhead.emitted ClockId.CLOCK_MONOTONIC := by
  decide

/-! ## Buffers -/

theorem GbmBuffer.destroy_no_rmFB (b : GbmBuffer) :
    ∀ c ∈ b.destroy, c.isRmFB = false := by
  intro c hc
  unfold GbmBuffer.destroy GbmBuffer.clearBufferInterface at hc
  simp only [List.mem_append] at hc
  rcases hc with (hc | hc) | hc
  · cases hi : b.m_bufferInterface with
    | none => rw [hi] at hc; cases hc
    | some i =>
      rw [hi] at hc
      simp only [List.mem_cons, List.mem_singleton, List.not_mem_nil, or_false] at hc
      rcases hc with rfl | rfl <;> rfl
  · cases hd : b.m_data with
    | none => rw [hd] at hc; cases hc
    | some d =>
      rw [hd] at hc
      rw [List.mem_singleton.mp hc]
      rfl
  · cases hs : b.m_surface with
    | some s =>
      rw [hs] at hc
      rw [List.mem_singleton.mp hc]
      rfl
    | none =>
      rw [hs] at hc
      cases hb : b.m_bo with
      | none => rw [hb] at hc; cases hc
      | some bo =>
        rw [hb] at hc
        rw [List.mem_singleton.mp hc]
        rfl

/-- C16: for both buffer kinds, destroying a buffer whose framebuffer id is nonzero issues
`drmModeRmFB` exactly once, as the first call, hence before any release of the backing
memory (`munmap` and `DESTROY_DUMB` for a dumb buffer; `gbm_bo_unmap`, the surface's
`releaseBuffer` or `gbm_bo_destroy` for a hardware buffer object); destroying a buffer
whose framebuffer id is 0 issues no removal. -/
theorem destroy_removes_framebuffer_first (dumb : DrmDumbBuffer) (hw : DrmGbmBuffer) :
    (∃ rest, dumb.destroy
        = (if dumb.m_bufferId ≠ 0 then [DrmCall.rmFB dumb.m_bufferId] else []) ++ rest ∧
      ∀ c ∈ rest, c.isRmFB = false) ∧
    (∃ rest, hw.destroy
        = (if hw.m_bufferId ≠ 0 then [DrmCall.rmFB hw.m_bufferId] else []) ++ rest ∧
      ∀ c ∈ rest, c.isRmFB = false) := by
  constructor
  · refine ⟨_, by unfold DrmDumbBuffer.destroy; rw [List.append_assoc, List.append_assoc], ?_⟩
    intro c hc
    simp only [List.mem_append] at hc
    rcases hc with hc | hc | hc
    · cases hi : dumb.m_image with
      | none => rw [hi] at hc; cases hc
      | some i => rw [hi] at hc; rw [List.mem_singleton.mp hc]; rfl
    · cases hm : dumb.m_memory with
      | none => rw [hm] at hc; cases hc
      | some a => rw [hm] at hc; rw [List.mem_singleton.mp hc]; rfl
    · split_ifs at hc
      · rw [List.mem_singleton.mp hc]; rfl
      · cases hc
  · exact ⟨hw.gbm.destroy, rfl, GbmBuffer.destroy_no_rmFB hw.gbm⟩

/-- C17: `DrmGbmBuffer::initialize` selects the registration path as follows.
`drmModeAddFB2WithModifiers`, with the per-plane handles, strides, offsets and modifiers,
is attempted exactly when the device reports modifier support and the buffer's first
modifier is not `DRM_FORMAT_MOD_INVALID`; otherwise `drmModeAddFB2` is attempted, and
the legacy `drmModeAddFB` is attempted if and only if `drmModeAddFB2` fails.  No path is
attempted twice: the registration calls made are one of three lists without repetition. -/
theorem initialize_registration_path (k : GbmKernel) (addFB2ModifiersSupported : Bool)
    (b : DrmGbmBuffer) (bo : Nat) :
    ( DrmGbmBuffer.initialize k addFB2ModifiersSupported b bo).2.filter DrmCall.isRegistration
      = (if firstModifier (k.bo bo) ≠ DRM_FORMAT_MOD_INVALID ∧ addFB2ModifiersSupported = true
        then
          [DrmCall.addFB2WithModifiers (k.bo bo).width (k.bo bo).height (k.bo bo).format
            (planeArrays (k.bo bo)).handles (planeArrays (k.bo bo)).strides
            (planeArrays (k.bo bo)).offsets (planeArrays (k.bo bo)).modifiers
            DRM_MODE_FB_MODIFIERS]
        else if (k.addFB2 (k.bo bo).width (k.bo bo).height (k.bo bo).format
            (planeArrays (k.bo bo))).isSome = true
        then
          [DrmCall.addFB2 (k.bo bo).width (k.bo bo).height (k.bo bo).format
            (planeArrays (k.bo bo)).handles (planeArrays (k.bo bo)).strides
            (planeArrays (k.bo bo)).offsets 0]
        else
          [DrmCall.addFB2 (k.bo bo).width (k.bo bo).height (k.bo bo).format
            (planeArrays (k.bo bo)).handles (planeArrays (k.bo bo)).strides
            (planeArrays (k.bo bo)).offsets 0,
           DrmCall.addFB (k.bo bo).width (k.bo bo).height 24 32
            ((planeArrays (k.bo bo)).strides.headD 0)
            ((planeArrays (k.bo bo)).handles.headD 0)]) ∧
    ( DrmGbmBuffer.initialize k addFB2ModifiersSupported b bo).2.countP DrmCall.isAddFB2WithModifiers
      = (if firstModifier (k.bo bo) ≠ DRM_FORMAT_MOD_INVALID ∧ addFB2ModifiersSupported = true
        then 1 else 0) ∧
    ( DrmGbmBuffer.initialize k addFB2ModifiersSupported b bo).2.countP DrmCall.isAddFB2
      = (if firstModifier (k.bo bo) ≠ DRM_FORMAT_MOD_INVALID ∧ addFB2ModifiersSupported = true
        then 0 else 1) ∧
    ( DrmGbmBuffer.initialize k addFB2ModifiersSupported b bo).2.countP DrmCall.isAddFB
      = (if ¬ (firstModifier (k.bo bo) ≠ DRM_FORMAT_MOD_INVALID ∧
              addFB2ModifiersSupported = true) ∧
            k.addFB2 (k.bo bo).width (k.bo bo).height (k.bo bo).format
              (planeArrays (k.bo bo)) = none
        then 1 else 0) := by
  unfold DrmGbmBuffer.initialize firstModifier
  dsimp only
  generalize (planeArrays (k.bo bo)).modifiers.headD 0 = m
  by_cases h0 : m = DRM_FORMAT_MOD_INVALID
  · cases h2 : k.addFB2 (k.bo bo).width (k.bo bo).height (k.bo bo).format
        (planeArrays (k.bo bo)) with
    | some id =>
      simp [h0, DrmCall.isRegistration, DrmCall.isAddFB2WithModifiers, DrmCall.isAddFB2,
        DrmCall.isAddFB]
    | none =>
      cases k.addFB (k.bo bo).width (k.bo bo).height
          ((planeArrays (k.bo bo)).strides.headD 0)
          ((planeArrays (k.bo bo)).handles.headD 0) <;>
        simp [h0, DrmCall.isRegistration, DrmCall.isAddFB2WithModifiers, DrmCall.isAddFB2,
          DrmCall.isAddFB]
  · cases addFB2ModifiersSupported with
    | true =>
      cases k.addFB2WithModifiers (k.bo bo).width (k.bo bo).height (k.bo bo).format
          (planeArrays (k.bo bo)) <;>
        simp [h0, DrmCall.isRegistration, DrmCall.isAddFB2WithModifiers, DrmCall.isAddFB2,
          DrmCall.isAddFB]
    | false =>
      cases h2 : k.addFB2 (k.bo bo).width (k.bo bo).height (k.bo bo).format
          (planeArrays (k.bo bo)) with
      | some id =>
        simp [h0, DrmCall.isRegistration, DrmCall.isAddFB2WithModifiers, DrmCall.isAddFB2,
          DrmCall.isAddFB]
      | none =>
        cases k.addFB (k.bo bo).width (k.bo bo).height
            ((planeArrays (k.bo bo)).strides.headD 0)
            ((planeArrays (k.bo bo)).handles.headD 0) <;>
          simp [h0, DrmCall.isRegistration, DrmCall.isAddFB2WithModifiers, DrmCall.isAddFB2,
            DrmCall.isAddFB]

/-- A dumb buffer without handle or without framebuffer id refuses every `map()`: the
call returns false, makes no call and leaves the buffer as it is. -/
theorem DrmDumbBuffer.mapTimes_invalid (k : DumbKernel) (format : Nat) (b : DrmDumbBuffer)
    (h : b.m_handle = 0 ∨ b.m_bufferId = 0) :
    ∀ n, b.mapTimes k format n = (List.replicate n (false, []), b) := by
  have hmap : b.map k format = (false, b, []) := by
    unfold DrmDumbBuffer.map
    rw [if_pos h]
  intro n
  induction n with
  | zero => rfl
  | succ n ih =>
    unfold DrmDumbBuffer.mapTimes
    simp only [hmap, ih, List.replicate_succ]

/-- C18: registration failure leaves a buffer allocated but not presentable.  For a dumb
buffer whose allocation succeeds and whose `drmModeAddFB` fails, the framebuffer id is 0
afterwards, handle and size of the allocation are kept and nothing is released; if the
allocation fails no registration is attempted and the handle stays 0; in both cases
every later `map()` returns false without a map ioctl or `mmap`, the buffer unchanged.
For a hardware buffer object built around a buffer object or on a surface, if every
registration call fails the framebuffer id is 0 afterwards, the buffer object is kept
and nothing is released. -/
theorem registration_failure_not_presentable :
    (∀ (k : DumbKernel) (size : Nat × Nat) (handle bufferSize pitch : Nat),
      k.createDumb size.1 size.2 32 = some (handle, bufferSize, pitch) →
      k.addFB size.1 size.2 24 32 pitch handle = none →
      (DrmDumbBuffer.create k size).1.m_bufferId = 0 ∧
      (DrmDumbBuffer.create k size).1.m_handle = handle ∧
      (DrmDumbBuffer.create k size).1.m_bufferSize = bufferSize ∧
      (∀ c ∈ (DrmDumbBuffer.create k size).2, c.isRelease = false) ∧
      ∀ (k' : DumbKernel) (format n : Nat),
        (DrmDumbBuffer.create k size).1.mapTimes k' format n
          = (List.replicate n (false, []), (DrmDumbBuffer.create k size).1)) ∧
    (∀ (k : DumbKernel) (size : Nat × Nat),
      k.createDumb size.1 size.2 32 = none →
      (DrmDumbBuffer.create k size).1.m_handle = 0 ∧
      (DrmDumbBuffer.create k size).1.m_bufferId = 0 ∧
      (∀ c ∈ (DrmDumbBuffer.create k size).2, c.isRegistration = false) ∧
      ∀ (k' : DumbKernel) (format n : Nat),
        (DrmDumbBuffer.create k size).1.mapTimes k' format n
          = (List.replicate n (false, []), (DrmDumbBuffer.create k size).1)) ∧
    (∀ (k : GbmKernel) (supported : Bool) (buffer : Nat) (bufferInterface : Option Nat),
      (∀ w h f a, k.addFB2WithModifiers w h f a = none) → (∀ w h f a, k.addFB2 w h f a = none) →
      (∀ w h s d, k.addFB w h s d = none) →
      (DrmGbmBuffer.createFromBo k supported buffer bufferInterface).1.m_bufferId = 0 ∧
      (DrmGbmBuffer.createFromBo k supported buffer bufferInterface).1.gbm.m_bo = some buffer ∧
      ∀ c ∈ (DrmGbmBuffer.createFromBo k supported buffer bufferInterface).2,
        c.isRelease = false) ∧
    (∀ (k : GbmKernel) (supported : Bool) (surface : Nat),
      (∀ w h f a, k.addFB2WithModifiers w h f a = none) → (∀ w h f a, k.addFB2 w h f a = none) →
      (∀ w h s d, k.addFB w h s d = none) →
      (DrmGbmBuffer.createFromSurface k supported surface).1.m_bufferId = 0 ∧
      (DrmGbmBuffer.createFromSurface k supported surface).1.gbm.m_bo
        = k.lockFrontBuffer surface ∧
      ∀ c ∈ (DrmGbmBuffer.createFromSurface k supported surface).2, c.isRelease = false) := by
  refine ⟨?_, ?_, ?_, ?_⟩
  · intro k size handle bufferSize pitch hc ha
    have hb : (DrmDumbBuffer.create k size).1.m_bufferId = 0 := by
      unfold DrmDumbBuffer.create
      simp [hc, ha, DrmDumbBuffer.blank]
    refine ⟨hb, ?_, ?_, ?_, ?_⟩
    · unfold DrmDumbBuffer.create
      simp [hc, ha, DrmDumbBuffer.blank]
    · unfold DrmDumbBuffer.create
      simp [hc, ha, DrmDumbBuffer.blank]
    · intro c hcm
      unfold DrmDumbBuffer.create at hcm
      simp only [hc, ha, List.mem_cons, List.mem_singleton, List.not_mem_nil, or_false] at hcm
      rcases hcm with rfl | rfl <;> rfl
    · intro k' format n
      exact DrmDumbBuffer.mapTimes_invalid k' format _ (Or.inr hb) n
  · intro k size hc
    have hh : (DrmDumbBuffer.create k size).1.m_handle = 0 := by
      unfold DrmDumbBuffer.create
      simp [hc, DrmDumbBuffer.blank]
    refine ⟨hh, ?_, ?_, ?_⟩
    · unfold DrmDumbBuffer.create
      simp [hc, DrmDumbBuffer.blank]
    · intro c hcm
      unfold DrmDumbBuffer.create at hcm
      simp only [hc, List.mem_singleton] at hcm
      rw [hcm]
      rfl
    · intro k' format n
      exact DrmDumbBuffer.mapTimes_invalid k' format _ (Or.inl hh) n
  · intro k supported buffer bufferInterface h1 h2 h3
    unfold DrmGbmBuffer.createFromBo DrmGbmBuffer.initialize GbmBuffer.createFromBo
      DrmGbmBuffer.blank
    simp only [h1, h2, h3]
    refine ⟨?_, ?_, ?_⟩
    · split_ifs <;> rfl
    · split_ifs <;> rfl
    · intro c hcm
      cases bufferInterface <;> split_ifs at hcm <;>
        simp only [List.nil_append, List.cons_append, List.mem_cons, List.mem_singleton,
          List.not_mem_nil, or_false] at hcm <;>
        rcases hcm with rfl | rfl | rfl | rfl | rfl <;> rfl
  · intro k supported surface h1 h2 h3
    unfold DrmGbmBuffer.createFromSurface DrmGbmBuffer.initialize GbmBuffer.createFromSurface
      DrmGbmBuffer.blank
    simp only [h1, h2, h3]
    cases hl : k.lockFrontBuffer surface with
    | none =>
      refine ⟨rfl, rfl, ?_⟩
      intro c hcm
      simp only [List.mem_singleton] at hcm
      rw [hcm]
      rfl
    | some bo =>
      dsimp only
      refine ⟨?_, ?_, ?_⟩
      · split_ifs <;> rfl
      · split_ifs <;> rfl
      · intro c hcm
        split_ifs at hcm <;>
          simp only [List.nil_append, List.cons_append, List.mem_cons, List.mem_singleton,
            List.not_mem_nil, or_false] at hcm <;>
          rcases hcm with rfl | rfl | rfl | rfl <;> rfl

/-- C18 at concrete inputs: a dumb buffer the kernel allocates and refuses to register,
and one it refuses to allocate. -/
theorem registration_failure_not_presentable_witness :
    ((DrmDumbBuffer.create exDumbKernelNoFB (4, 4)).1.m_bufferId = 0 ∧
      (DrmDumbBuffer.create exDumbKernelNoFB (4, 4)).1.m_handle = 7 ∧
      (DrmDumbBuffer.create exDumbKernelNoFB (4, 4)).1.m_bufferSize = 64 ∧
      (∀ c ∈ (DrmDumbBuffer.create exDumbKernelNoFB (4, 4)).2, c.isRelease = false) ∧
      ∀ (k' : DumbKernel) (format n : Nat),
        (DrmDumbBuffer.create exDumbKernelNoFB (4, 4)).1.mapTimes k' format n
          = (List.replicate n (false, []), (DrmDumbBuffer.create exDumbKernelNoFB (4, 4)).1)) ∧
    ((DrmDumbBuffer.create exDumbKernelNoMemory (4, 4)).1.m_handle = 0 ∧
      (DrmDumbBuffer.create exDumbKernelNoMemory (4, 4)).1.m_bufferId = 0 ∧
      (∀ c ∈ (DrmDumbBuffer.create exDumbKernelNoMemory (4, 4)).2, c.isRegistration = false) ∧
      ∀ (k' : DumbKernel) (format n : Nat),
        (DrmDumbBuffer.create exDumbKernelNoMemory (4, 4)).1.mapTimes k' format n
          = (List.replicate n (false, []),
              (DrmDumbBuffer.create exDumbKernelNoMemory (4, 4)).1)) :=
  ⟨registration_failure_not_presentable.1 exDumbKernelNoFB (4, 4) 7 64 16 rfl rfl,
    registration_failure_not_presentable.2.1 exDumbKernelNoMemory (4, 4) rfl⟩

/-- A dumb buffer with handle, framebuffer id and image accepts every `map()` at once. -/
theorem DrmDumbBuffer.mapTimes_mapped (k : DumbKernel) (format : Nat) (b : DrmDumbBuffer)
    (hh : b.m_handle ≠ 0) (hb : b.m_bufferId ≠ 0) (hi : b.m_image.isSome = true) :
    ∀ n, b.mapTimes k format n = (List.replicate n (true, []), b) := by
  have hmap : b.map k format = (true, b, []) := by
    unfold DrmDumbBuffer.map
    rw [if_neg (by simp [hh, hb]), if_pos hi]
  intro n
  induction n with
  | zero => rfl
  | succ n ih =>
    unfold DrmDumbBuffer.mapTimes
    simp only [hmap, ih, List.replicate_succ]

/-- After a `map()` that returned true the buffer has handle, framebuffer id and image. -/
theorem DrmDumbBuffer.map_true (k : DumbKernel) (format : Nat) (b : DrmDumbBuffer)
    (h : (b.map k format).1 = true) :
    (b.map k format).2.1.m_handle ≠ 0 ∧ (b.map k format).2.1.m_bufferId ≠ 0 ∧
      (b.map k format).2.1.m_image.isSome = true := by
  unfold DrmDumbBuffer.map at h ⊢
  by_cases h0 : b.m_handle = 0 ∨ b.m_bufferId = 0
  · rw [if_pos h0] at h
    cases h
  · have hh : b.m_handle ≠ 0 := fun e => h0 (Or.inl e)
    have hb : b.m_bufferId ≠ 0 := fun e => h0 (Or.inr e)
    rw [if_neg h0] at h ⊢
    by_cases hi : b.m_image.isSome = true
    · rw [if_pos hi]
      exact ⟨hh, hb, hi⟩
    · rw [if_neg hi] at h ⊢
      rcases Option.eq_none_or_eq_some (k.mapDumb b.m_handle) with hm | ⟨offset, hm⟩
      · simp only [hm] at h
        cases h
      · simp only [hm] at h ⊢
        rcases Option.eq_none_or_eq_some (k.mmap b.m_bufferSize offset) with ha | ⟨address, ha⟩
        · simp only [ha] at h
          cases h
        · simp only [ha]
          exact ⟨hh, hb, rfl⟩

/-- C19: mapping a dumb buffer is idempotent.  For every dumb buffer on which `map()` has
returned true, every further `map()` call, whatever the format and the kernel's answers,
returns true, issues no ioctl and no `mmap`, and leaves the buffer, with its mapped memory
pointer and image, unchanged. -/
theorem map_idempotent (k : DumbKernel) (format : Nat) (b : DrmDumbBuffer)
    (h : (b.map k format).1 = true) (k' : DumbKernel) (format' n : Nat) :
    (b.map k format).2.1.mapTimes k' format' n
      = (List.replicate n (true, []), (b.map k format).2.1) := by
  obtain ⟨hh, hb, hi⟩ := DrmDumbBuffer.map_true k format b h
  exact DrmDumbBuffer.mapTimes_mapped k' format' _ hh hb hi n

/-- C19 at a concrete input: a registered 4 by 4 dumb buffer mapped once, then three
more times. -/
theorem map_idempotent_witness :
    ((DrmDumbBuffer.create exDumbKernel (4, 4)).1.map exDumbKernel 1).1 = true ∧
    ((DrmDumbBuffer.create exDumbKernel (4, 4)).1.map exDumbKernel 1).2.1.mapTimes
        exDumbKernelNoFB 2 3
      = (List.replicate 3 (true, []),
          ((DrmDumbBuffer.create exDumbKernel (4, 4)).1.map exDumbKernel 1).2.1) :=
  ⟨by decide,
    map_idempotent exDumbKernel 1 (DrmDumbBuffer.create exDumbKernel (4, 4)).1 (by decide)
      exDumbKernelNoFB 2 3⟩

theorem GbmBuffer.emissions_idle (b : GbmBuffer) (h : b.connected = false) :
    ∀ n, GbmBuffer.emissions n b = (b, []) := by
  intro n
  induction n with
  | zero => rfl
  | succ n ih =>
    unfold GbmBuffer.emissions GbmBuffer.aboutToBeDestroyed
    simp only [h, Bool.false_eq_true, if_false, ih, List.append_nil]

/-- C20: for every `GbmBuffer` constructed around an externally supplied buffer interface
the producer-side reference count is incremented exactly once, at construction, and
decremented exactly once over the buffer's life: by the first `aboutToBeDestroyed`
notification when there is one, and then not at destruction, or else at destruction.
For a `GbmBuffer` without a buffer interface, built around a buffer object or on a
surface, neither `ref` nor `unref` is called. -/
theorem bufferInterface_ref_unref_once (k : GbmKernel) (buffer bufferInterface surface : Nat)
    (emissions : Nat) :
    (GbmBuffer.lifetime k buffer (some bufferInterface) emissions).countP DrmCall.isRef = 1 ∧
    (GbmBuffer.lifetime k buffer (some bufferInterface) emissions).countP DrmCall.isUnref = 1 ∧
    (GbmBuffer.lifetime k buffer (some bufferInterface) emissions).filter
        (fun c => c.isRef || c.isUnref)
      = [DrmCall.ref bufferInterface, DrmCall.unref bufferInterface] ∧
    (GbmBuffer.createFromBo k buffer (some bufferInterface)).2.countP DrmCall.isRef = 1 ∧
    (GbmBuffer.emissions emissions (GbmBuffer.createFromBo k buffer (some bufferInterface)).1).2
        = (if emissions = 0 then []
          else [DrmCall.disconnect bufferInterface, DrmCall.unref bufferInterface]) ∧
    (GbmBuffer.emissions emissions
        (GbmBuffer.createFromBo k buffer (some bufferInterface)).1).1.destroy.countP
          DrmCall.isUnref
        = (if emissions = 0 then 1 else 0) ∧
    (GbmBuffer.lifetime k buffer none emissions).countP (fun c => c.isRef || c.isUnref) = 0 ∧
    (GbmBuffer.surfaceLifetime k surface emissions).countP (fun c => c.isRef || c.isUnref)
      = 0 := by
  have hnone : GbmBuffer.emissions emissions (GbmBuffer.createFromBo k buffer none).1
      = ((GbmBuffer.createFromBo k buffer none).1, []) :=
    GbmBuffer.emissions_idle _ rfl emissions
  have hsurf : GbmBuffer.emissions emissions (GbmBuffer.createFromSurface k surface).1
      = ((GbmBuffer.createFromSurface k surface).1, []) :=
    GbmBuffer.emissions_idle _ rfl emissions
  have hsome : GbmBuffer.emissions emissions
      (GbmBuffer.createFromBo k buffer (some bufferInterface)).1
      = (if emissions = 0 then (GbmBuffer.createFromBo k buffer (some bufferInterface)).1
          else { (GbmBuffer.createFromBo k buffer (some bufferInterface)).1 with
            m_bufferInterface := none, connected := false },
         if emissions = 0 then []
          else [DrmCall.disconnect bufferInterface, DrmCall.unref bufferInterface]) := by
    cases emissions with
    | zero => rfl
    | succ n =>
      unfold GbmBuffer.emissions GbmBuffer.aboutToBeDestroyed GbmBuffer.clearBufferInterface
        GbmBuffer.createFromBo
      simp only [Option.isSome_some, if_true]
      rw [GbmBuffer.emissions_idle _ rfl n]
      simp
  refine ⟨?_, ?_, ?_, rfl, ?_, ?_, ?_, ?_⟩
  · unfold GbmBuffer.lifetime
    rw [hsome]
    cases emissions <;>
      simp [GbmBuffer.createFromBo, GbmBuffer.destroy, GbmBuffer.clearBufferInterface,
        DrmCall.isRef]
  · unfold GbmBuffer.lifetime
    rw [hsome]
    cases emissions <;>
      simp [GbmBuffer.createFromBo, GbmBuffer.destroy, GbmBuffer.clearBufferInterface,
        DrmCall.isUnref]
  · unfold GbmBuffer.lifetime
    rw [hsome]
    cases emissions <;>
      simp [GbmBuffer.createFromBo, GbmBuffer.destroy, GbmBuffer.clearBufferInterface,
        DrmCall.isRef, DrmCall.isUnref]
  · rw [hsome]
  · rw [hsome]
    cases emissions <;>
      simp [GbmBuffer.createFromBo, GbmBuffer.destroy, GbmBuffer.clearBufferInterface,
        DrmCall.isUnref]
  · unfold GbmBuffer.lifetime
    rw [hnone]
    simp [GbmBuffer.createFromBo, GbmBuffer.destroy, DrmCall.isRef, DrmCall.isUnref]
  · unfold GbmBuffer.surfaceLifetime
    rw [hsurf]
    cases hl : k.lockFrontBuffer surface <;>
      simp [GbmBuffer.createFromSurface, GbmBuffer.destroy, hl, DrmCall.isRef, DrmCall.isUnref]

/-! ## Validity and size of the matcher's result -/

/-- The pipelines of a result use connectors and CRTCs of the input, on a CRTC one of the
connector's encoders allows; in atomic mode with a plane of the input forming an accepted
candidate, in legacy mode without plane. -/
theorem findWorkingCombination_valid (k : Kernel) (a : Bool) :
    ∀ (cs : List DrmConnector) (xs : List DrmCrtc) (ps : List DrmPlane),
      ∀ q ∈ findWorkingCombination k a cs xs ps,
        q.connector ∈ cs ∧ q.crtc ∈ xs ∧ encoderAllows k q.connector q.crtc = true ∧
        q.cursorPlane = none ∧
        (if a = true then
          ∃ p, q.primaryPlane = some p ∧ p ∈ ps ∧ atomicCandidate k q.connector q.crtc p
         else q.primaryPlane = none) := by
  apply findWorkingCombination_rules k a
    (fun cs xs ps r => ∀ q ∈ r,
      q.connector ∈ cs ∧ q.crtc ∈ xs ∧ encoderAllows k q.connector q.crtc = true ∧
      q.cursorPlane = none ∧
      (if a = true then
        ∃ p, q.primaryPlane = some p ∧ p ∈ ps ∧ atomicCandidate k q.connector q.crtc p
       else q.primaryPlane = none))
  · intro _ _ _ q hq
    cases hq
  · intro c cs xs ps x p r ha hx hp henc hcand ih q hq
    rcases List.mem_cons.mp hq with rfl | hq
    · refine ⟨List.mem_cons_self _ _, hx, henc, rfl, ?_⟩
      rw [if_pos ha]
      exact ⟨p, rfl, hp, hcand⟩
    · obtain ⟨h1, h2, h3, h4, h5⟩ := ih q hq
      refine ⟨List.mem_cons_of_mem _ h1, List.mem_of_mem_erase h2, h3, h4, ?_⟩
      rw [if_pos ha] at h5 ⊢
      obtain ⟨p', e1, e2, e3⟩ := h5
      exact ⟨p', e1, List.mem_of_mem_erase e2, e3⟩
  · intro c cs xs ps x r ha hx henc ih q hq
    have hna : ¬ a = true := by rw [ha]; decide
    rcases List.mem_append.mp hq with hq | hq
    · obtain ⟨h1, h2, h3, h4, h5⟩ := ih q hq
      refine ⟨List.mem_cons_of_mem _ (List.mem_of_mem_erase h1), List.mem_of_mem_erase h2,
        h3, h4, ?_⟩
      rw [if_neg hna] at h5 ⊢
      exact h5
    · rw [List.mem_singleton.mp hq]
      refine ⟨List.mem_cons_self _ _, hx, henc, rfl, ?_⟩
      rw [if_neg hna]

theorem legacyChoice_test (k : Kernel) (test : DrmPipeline → Bool) (xs : List DrmCrtc) :
    ∀ es, legacyChoice { k with test := test } xs es = legacyChoice k xs es := by
  intro es
  induction es with
  | nil => rfl
  | cons e es ih =>
    simp only [legacyChoice, ih]

/-- In legacy mode the result does not depend on the pipeline test: `test()` is not
consulted. -/
theorem findWorkingCombination_legacy_test (k : Kernel) (test : DrmPipeline → Bool) :
    ∀ (cs : List DrmConnector) (xs : List DrmCrtc) (ps : List DrmPlane),
      findWorkingCombination { k with test := test } false cs xs ps
        = findWorkingCombination k false cs xs ps := by
  have main : ∀ n : Nat, ∀ cs : List DrmConnector, cs.length ≤ n → ∀ xs ps,
      findWorkingCombination { k with test := test } false cs xs ps
        = findWorkingCombination k false cs xs ps := by
    intro n
    induction n with
    | zero =>
      intro cs hn xs ps
      have hcs : cs = [] := List.length_eq_zero.mp (Nat.le_zero.mp hn)
      subst hcs
      rfl
    | succ n ih =>
      intro cs hn xs ps
      cases cs with
      | nil => rfl
      | cons c cs =>
        simp only [List.length_cons, Nat.succ_le_succ_iff] at hn
        have hle : (cs.erase c).length ≤ n := by
          have : (cs.erase c).length ≤ cs.length := by
            rw [List.length_erase]; split_ifs <;> omega
          omega
        rw [findWorkingCombination_legacy_greedy, findWorkingCombination_legacy_greedy,
          legacyChoice_test]
        cases legacyChoice k xs c.encoders with
        | none => rfl
        | some x =>
          dsimp only
          rw [ih (cs.erase c) hle]
  intro cs xs ps
  exact main cs.length cs le_rfl xs ps

/-- C24: every pipeline returned by `findWorkingCombination` is valid.  Its connector
comes from the input list and its CRTC, of the input too, has its pipe bit set in
`possible_crtcs` of one of that connector's successfully queried encoders; in atomic mode
its plane is a plane of the input of type Primary that supports the CRTC's pipe index and
the pipeline passed `test()`; in legacy mode it has no plane, the result is the same
whatever `test()` would answer, and the first connector gets the first compatible CRTC in
encoder-then-CRTC order (`legacyChoice`), or the result is empty. -/
theorem findWorkingCombination_pipelines_valid (k : Kernel) (c : DrmConnector)
    (cs connectors : List DrmConnector) (crtcs : List DrmCrtc) (planes : List DrmPlane)
    (test : DrmPipeline → Bool) :
    (∀ q ∈ findWorkingCombination k true connectors crtcs planes,
      q.connector ∈ connectors ∧ q.crtc ∈ crtcs ∧ encoderAllows k q.connector q.crtc = true ∧
      q.cursorPlane = none ∧
      ∃ p, q.primaryPlane = some p ∧ p ∈ planes ∧ p.type = TypeIndex.Primary ∧
        p.isCrtcSupported q.crtc.pipeIndex = true ∧
        k.test ⟨q.connector, q.crtc, some p, none⟩ = true) ∧
    (∀ q ∈ findWorkingCombination k false connectors crtcs planes,
      q.connector ∈ connectors ∧ q.crtc ∈ crtcs ∧ encoderAllows k q.connector q.crtc = true ∧
      q.cursorPlane = none ∧ q.primaryPlane = none) ∧
    findWorkingCombination { k with test := test } false connectors crtcs planes
      = findWorkingCombination k false connectors crtcs planes ∧
    findWorkingCombination k false (c :: cs) crtcs planes
      = (match legacyChoice k crtcs c.encoders with
        | some x =>
          findWorkingCombination k false (cs.erase c) (crtcs.erase x) planes
            ++ [⟨c, x, none, none⟩]
        | none => []) := by
  refine ⟨?_, ?_, findWorkingCombination_legacy_test k test connectors crtcs planes,
    findWorkingCombination_legacy_greedy k c cs crtcs planes⟩
  · intro q hq
    obtain ⟨h1, h2, h3, h4, h5⟩ := findWorkingCombination_valid k true connectors crtcs planes q hq
    rw [if_pos rfl] at h5
    obtain ⟨p, e1, e2, e3, e4, e5⟩ := h5
    exact ⟨h1, h2, h3, h4, p, e1, e2, e4, e3, e5⟩
  · intro q hq
    obtain ⟨h1, h2, h3, h4, h5⟩ := findWorkingCombination_valid k false connectors crtcs planes q hq
    rw [if_neg (by decide)] at h5
    exact ⟨h1, h2, h3, h4, h5⟩

theorem countP_erase_primary (p : DrmPlane) (hp : p.type = TypeIndex.Primary) :
    ∀ (ps : List DrmPlane), p ∈ ps →
      (ps.erase p).countP (fun q => q.type == TypeIndex.Primary) + 1
        = ps.countP (fun q => q.type == TypeIndex.Primary) := by
  intro ps
  induction ps with
  | nil => intro h; cases h
  | cons h t ih =>
    intro hmem
    by_cases heq : h = p
    · subst heq
      rw [List.erase_cons_head, List.countP_cons_of_pos]
      simp [hp]
    · rw [List.erase_cons_tail (by simpa using heq)]
      have hpt : p ∈ t := by
        rcases List.mem_cons.mp hmem with e | e
        · exact absurd e.symm heq
        · exact e
      rw [List.countP_cons, List.countP_cons, ← ih hpt]
      omega

/-- C25: for every input `findWorkingCombination` returns the empty list when the
connector list is empty, and in general at most as many pipelines as there are
connectors and as there are CRTCs, and in atomic mode at most as many as there are
Primary planes in the input. -/
theorem findWorkingCombination_size (k : Kernel) (m_atomicModeSetting : Bool)
    (connectors : List DrmConnector) (crtcs : List DrmCrtc) (planes : List DrmPlane) :
    findWorkingCombination k m_atomicModeSetting [] crtcs planes = [] ∧
    (findWorkingCombination k m_atomicModeSetting connectors crtcs planes).length
      ≤ min connectors.length crtcs.length ∧
    (findWorkingCombination k true connectors crtcs planes).length
      ≤ planes.countP (fun p => p.type == TypeIndex.Primary) := by
  have hgen : ∀ (a : Bool) (cs : List DrmConnector) (xs : List DrmCrtc) (ps : List DrmPlane),
      (findWorkingCombination k a cs xs ps).length ≤ cs.length ∧
      (findWorkingCombination k a cs xs ps).length ≤ xs.length ∧
      (a = true → (findWorkingCombination k a cs xs ps).length
        ≤ ps.countP (fun p => p.type == TypeIndex.Primary)) := by
    intro a
    apply findWorkingCombination_rules k a
      (fun cs xs ps r => r.length ≤ cs.length ∧ r.length ≤ xs.length ∧
        (a = true → r.length ≤ ps.countP (fun p => p.type == TypeIndex.Primary)))
    · intro cs xs ps
      exact ⟨Nat.zero_le _, Nat.zero_le _, fun _ => Nat.zero_le _⟩
    · intro c cs xs ps x p r ha hx hp _ hcand ih
      obtain ⟨h1, h2, h3⟩ := ih
      have hxl := List.length_erase_of_mem hx
      have hxpos : 0 < xs.length := List.length_pos_of_mem hx
      have hpc := countP_erase_primary p hcand.2.1 ps hp
      refine ⟨?_, ?_, ?_⟩
      · simp only [List.length_cons]; omega
      · simp only [List.length_cons]; omega
      · intro _
        have := h3 ha
        simp only [List.length_cons]
        omega
    · intro c cs xs ps x r ha hx _ ih
      obtain ⟨h1, h2, _⟩ := ih
      have hxl := List.length_erase_of_mem hx
      have hxpos : 0 < xs.length := List.length_pos_of_mem hx
      have hcl : (cs.erase c).length ≤ cs.length := by
        rw [List.length_erase]; split_ifs <;> omega
      refine ⟨?_, ?_, ?_⟩
      · simp only [List.length_append, List.length_cons, List.length_nil]; omega
      · simp only [List.length_append, List.length_cons, List.length_nil]; omega
      · intro h
        rw [ha] at h
        cases h
  refine ⟨rfl, ?_, ?_⟩
  · obtain ⟨h1, h2, _⟩ := hgen m_atomicModeSetting connectors crtcs planes
    exact Nat.le_min.mpr ⟨h1, h2⟩
  · exact (hgen true connectors crtcs planes).2.2 rfl

/-! ## The buffer-modifier capability flag -/

/-- With `KWIN_DRM_NO_MODIFIERS` set the constructor leaves the flag at its default:
`addFB2ModifiersSupported()` is false. -/
theorem construct_noModifiers (k : CapKernel) (h : k.noModifiersSet = true) :
    (DrmGpu.construct k).addFB2ModifiersSupported = false := by
  simp [DrmGpu.construct, DrmGpuCaps.addFB2ModifiersSupported, h]

/-- Without the override the flag is the truth value of `drmGetCap(...) && capability
== 1`: the call returned nonzero, so it failed, and `capability` is 1. -/
theorem construct_addFB2ModifiersSupported (k : CapKernel) (h : k.noModifiersSet = false) :
    (DrmGpu.construct k).addFB2ModifiersSupported = true ↔
      (drmGetCap k DRM_CAP_ADDFB2_MODIFIERS
          (drmGetCap k DRM_CAP_TIMESTAMP_MONOTONIC
            (drmGetCap k DRM_CAP_CURSOR_HEIGHT
              (drmGetCap k DRM_CAP_CURSOR_WIDTH 0).2).2).2).1 ≠ 0 ∧
      (drmGetCap k DRM_CAP_ADDFB2_MODIFIERS
          (drmGetCap k DRM_CAP_TIMESTAMP_MONOTONIC
            (drmGetCap k DRM_CAP_CURSOR_HEIGHT
              (drmGetCap k DRM_CAP_CURSOR_WIDTH 0).2).2).2).2 = 1 := by
  simp [DrmGpu.construct, DrmGpuCaps.addFB2ModifiersSupported, h]

/-- A successful query for buffer modifiers never sets the flag. -/
theorem construct_query_succeeds (k : CapKernel) (value : Nat)
    (h : k.getCap DRM_CAP_ADDFB2_MODIFIERS = some value) :
    (DrmGpu.construct k).addFB2ModifiersSupported = false := by
  cases hn : k.noModifiersSet with
  | true => exact construct_noModifiers k hn
  | false =>
    have hne : ¬ (DrmGpu.construct k).addFB2ModifiersSupported = true := by
      rw [construct_addFB2ModifiersSupported k hn]
      simp [drmGetCap, h]
    simpa using hne

/-- C21 (evaluation): without the override, on a device whose query for buffer modifiers
succeeds and reports 1, `addFB2ModifiersSupported()` is false after construction; on a
device whose query fails after the query for monotonic timestamps reported 1, it is
true. -/
theorem construct_addFB2ModifiersSupported_inverted :
    exCapModifiers.noModifiersSet = false ∧
    exCapModifiers.getCap DRM_CAP_ADDFB2_MODIFIERS = some 1 ∧
    (DrmGpu.construct exCapModifiers).addFB2ModifiersSupported = false ∧
    exCapNoQuery.noModifiersSet = false ∧
    exCapNoQuery.getCap DRM_CAP_ADDFB2_MODIFIERS = none ∧
    (DrmGpu.construct exCapNoQuery).addFB2ModifiersSupported = true := by
  decide

/-! ## Registration of a buffer object without per-plane handle -/

/-- Without per-plane handle `initialize` fills slot 0 of `handles` with the format of the
buffer object, slot 0 of `strides` with its stride and slot 0 of `modifiers` with
`DRM_FORMAT_MOD_INVALID`; every other slot is zero. -/
theorem planeArrays_no_plane_handle (bo : GbmBo)
    (h : bo.handleForPlane 0 % 2 ^ 32 = 2 ^ 32 - 1) :
    planeArrays bo =
      ⟨[bo.format, 0, 0, 0], [bo.stride, 0, 0, 0], [0, 0, 0, 0],
        [DRM_FORMAT_MOD_INVALID, 0, 0, 0]⟩ := by
  have h' : bo.handleForPlane 0 % 4294967296 = 4294967295 := by
    norm_num at h
    exact h
  unfold planeArrays
  simp [h']

/-- Without per-plane handle `initialize` never calls `drmModeAddFB2WithModifiers`. -/
theorem initialize_no_plane_handle_plain (k : GbmKernel) (addFB2ModifiersSupported : Bool)
    (b : DrmGbmBuffer) (bo : Nat)
    (h : (k.bo bo).handleForPlane 0 % 2 ^ 32 = 2 ^ 32 - 1) :
    ∀ call ∈ ( DrmGbmBuffer.initialize k addFB2ModifiersSupported b bo).2,
      call.isAddFB2WithModifiers = false := by
  have ha := planeArrays_no_plane_handle (k.bo bo) h
  intro call hcall
  unfold DrmGbmBuffer.initialize at hcall
  simp only [ha, List.headD_cons, ne_eq, not_true_eq_false, false_and, if_false] at hcall
  rcases Option.eq_none_or_eq_some (k.addFB2 (k.bo bo).width (k.bo bo).height (k.bo bo).format
      ⟨[(k.bo bo).format, 0, 0, 0], [(k.bo bo).stride, 0, 0, 0], [0, 0, 0, 0],
        [DRM_FORMAT_MOD_INVALID, 0, 0, 0]⟩) with h2 | ⟨v, h2⟩
  · simp only [h2] at hcall
    rcases Option.eq_none_or_eq_some (k.addFB (k.bo bo).width (k.bo bo).height (k.bo bo).stride
        (k.bo bo).format) with h1 | ⟨v1, h1⟩
    · simp only [h1] at hcall
      simp only [List.mem_cons, List.mem_singleton, List.not_mem_nil, or_false] at hcall
      rcases hcall with rfl | rfl | rfl <;> rfl
    · simp only [h1] at hcall
      simp only [List.mem_cons, List.mem_singleton, List.not_mem_nil, or_false] at hcall
      rcases hcall with rfl | rfl | rfl <;> rfl
  · simp only [h2] at hcall
    simp only [List.mem_cons, List.mem_singleton, List.not_mem_nil, or_false] at hcall
    rcases hcall with rfl | rfl <;> rfl

/-- C28 (evaluation): for a buffer object without per-plane handle, with handle 9 and
the format code 875713112, on a device that supports modifiers, `initialize` registers
the framebuffer by `drmModeAddFB2` with the format code, not the handle, in slot 0 of
`handles`; the stride is in slot 0 of `strides`, every other slot is zero and
`drmModeAddFB2WithModifiers` is not called. -/
theorem initialize_no_plane_handle_registers_format :
    exBoNoPlaneHandle.handleForPlane 0 = 2 ^ 32 - 1 ∧
    exBoNoPlaneHandle.handle = 9 ∧
    (planeArrays exBoNoPlaneHandle).handles = [875713112, 0, 0, 0] ∧
    (planeArrays exBoNoPlaneHandle).handles ≠ [exBoNoPlaneHandle.handle, 0, 0, 0] ∧
    (planeArrays exBoNoPlaneHandle).strides = [exBoNoPlaneHandle.stride, 0, 0, 0] ∧
    (planeArrays exBoNoPlaneHandle).offsets = [0, 0, 0, 0] ∧
    ( DrmGbmBuffer.initialize exGbmKernelNoPlaneHandle true
        (DrmGbmBuffer.blank ⟨none, some 1, none, false, none, 0⟩) 1).2 =
      [DrmCall.addFB2 64 64 875713112 [875713112, 0, 0, 0] [256, 0, 0, 0] [0, 0, 0, 0] 0,
        DrmCall.setUserData 1] := by
  decide

/-! ## `findBackend` and the prefix sums of the screen counts -/

theorem wrap32_eq (x : Int) (h1 : -(2 ^ 31) ≤ x) (h2 : x < 2 ^ 31) : wrap32 x = x := by
  unfold wrap32
  rw [Int.emod_eq_of_lt (by omega) (by omega)]
  omega

theorem screensBefore_zero (bs : List AbstractEglDrmBackend) : screensBefore bs 0 = 0 := by
  simp [screensBefore]

theorem screensBefore_nil (i : Nat) : screensBefore [] i = 0 := by
  simp [screensBefore]

theorem screensBefore_cons (b : AbstractEglDrmBackend) (bs : List AbstractEglDrmBackend)
    (i : Nat) : screensBefore (b :: bs) (i + 1) = b.screenCount + screensBefore bs i := by
  simp [screensBefore]

theorem screensBefore_succ :
    ∀ (bs : List AbstractEglDrmBackend) (i : Nat) (b : AbstractEglDrmBackend),
      bs.get? i = some b → screensBefore bs (i + 1) = screensBefore bs i + b.screenCount := by
  intro bs
  induction bs with
  | nil => intro i b h; simp at h
  | cons a bs ih =>
    intro i b h
    cases i with
    | zero =>
      simp only [List.get?_cons_zero, Option.some.injEq] at h
      subst h
      rw [screensBefore_cons, screensBefore_zero, screensBefore_zero]
      omega
    | succ i =>
      simp only [List.get?_cons_succ] at h
      rw [screensBefore_cons, screensBefore_cons, ih i b h]
      omega

theorem screensBefore_mono :
    ∀ (bs : List AbstractEglDrmBackend), (∀ b ∈ bs, 0 ≤ b.screenCount) →
      ∀ (i j : Nat), i ≤ j → screensBefore bs i ≤ screensBefore bs j := by
  intro bs
  induction bs with
  | nil => intro _ i j _; rw [screensBefore_nil, screensBefore_nil]
  | cons a bs ih =>
    intro hc i j hij
    have ha : 0 ≤ a.screenCount := hc a (List.mem_cons_self _ _)
    have hbs : ∀ b ∈ bs, 0 ≤ b.screenCount := fun b hb => hc b (List.mem_cons_of_mem _ hb)
    cases i with
    | zero =>
      rw [screensBefore_zero]
      cases j with
      | zero => rw [screensBefore_zero]
      | succ j =>
        rw [screensBefore_cons]
        have := ih hbs 0 j (Nat.zero_le _)
        rw [screensBefore_zero] at this
        omega
    | succ i =>
      cases j with
      | zero => omega
      | succ j =>
        rw [screensBefore_cons, screensBefore_cons]
        have := ih hbs i j (by omega)
        omega

/-- The loop of `findBackend` started at a running sum `screens` that the requested
screen has not passed: past the last backend it returns `nullptr` and leaves
`internalScreenId`, otherwise it returns the backend whose range holds the screen. -/
theorem findBackendLoop_sums (screenId internalScreenId : Int) (hfit : screenId < 2 ^ 31) :
    ∀ (bs : List AbstractEglDrmBackend) (screens : Int),
      (∀ b ∈ bs, 0 ≤ b.screenCount) → 0 ≤ screens → screens ≤ screenId →
      screens + screensBefore bs bs.length < 2 ^ 31 →
      (screens + screensBefore bs bs.length ≤ screenId →
        findBackendLoop bs screens screenId internalScreenId = (none, internalScreenId)) ∧
      (screenId < screens + screensBefore bs bs.length →
        ∃ i backend, bs.get? i = some backend ∧
          findBackendLoop bs screens screenId internalScreenId
            = (some backend, screenId - (screens + screensBefore bs i)) ∧
          screens + screensBefore bs i ≤ screenId ∧
          screenId < screens + screensBefore bs (i + 1)) := by
  intro bs
  induction bs with
  | nil =>
    intro screens _ _ hle _
    refine ⟨fun _ => rfl, ?_⟩
    intro h
    rw [screensBefore_nil] at h
    omega
  | cons a bs ih =>
    intro screens hc h0 hle htot
    have ha : 0 ≤ a.screenCount := hc a (List.mem_cons_self _ _)
    have hbs : ∀ b ∈ bs, 0 ≤ b.screenCount := fun b hb => hc b (List.mem_cons_of_mem _ hb)
    rw [List.length_cons, screensBefore_cons] at htot
    have hrest : 0 ≤ screensBefore bs bs.length := by
      have := screensBefore_mono bs hbs 0 bs.length (Nat.zero_le _)
      rw [screensBefore_zero] at this
      exact this
    have hw : wrap32 (screens + a.screenCount) = screens + a.screenCount :=
      wrap32_eq _ (by omega) (by omega)
    have hw2 : wrap32 (screenId - screens) = screenId - screens :=
      wrap32_eq _ (by omega) (by omega)
    rw [List.length_cons, screensBefore_cons]
    by_cases hlt : screenId < screens + a.screenCount
    · have hrun : findBackendLoop (a :: bs) screens screenId internalScreenId
          = (some a, screenId - screens) := by
        simp only [findBackendLoop, hw, hw2, if_pos hlt]
      refine ⟨fun h => by omega, fun _ => ⟨0, a, rfl, ?_, ?_, ?_⟩⟩
      · rw [hrun, screensBefore_zero]
        simp
      · rw [screensBefore_zero]
        omega
      · rw [screensBefore_cons, screensBefore_zero]
        omega
    · have hrun : findBackendLoop (a :: bs) screens screenId internalScreenId
          = findBackendLoop bs (screens + a.screenCount) screenId internalScreenId := by
        simp only [findBackendLoop, hw, if_neg hlt]
      obtain ⟨ih1, ih2⟩ := ih (screens + a.screenCount) hbs (by omega) (by omega) (by omega)
      refine ⟨fun h => ?_, fun h => ?_⟩
      · rw [hrun]
        exact ih1 (by omega)
      · obtain ⟨i, backend, hget, hres, hlo, hhi⟩ := ih2 (by omega)
        refine ⟨i + 1, backend, hget, ?_, ?_, ?_⟩
        · rw [hrun, hres, screensBefore_cons]
          congr 2
          omega
        · rw [screensBefore_cons]
          omega
        · rw [screensBefore_cons]
          omega

/-- C29: for backends with non-negative screen counts whose total is in the range of
`int` and a screen id in `0 .. 2^31 - 1`, `findBackend` returns `nullptr`, leaving
`internalScreenId`, exactly when the screen id is at least the total; otherwise it returns
the backend of the unique index `i` with `c_0 + ... + c_{i-1} <= screenId < c_0 + ... +
c_i` and sets `internalScreenId` to `screenId - (c_0 + ... + c_{i-1})`, which lies in
`0 .. c_i - 1`. -/
theorem findBackend_prefix_sums (m_eglBackends : List AbstractEglDrmBackend)
    (screenId internalScreenId : Int)
    (hcount : ∀ b ∈ m_eglBackends, 0 ≤ b.screenCount)
    (hid : 0 ≤ screenId) (hidfit : screenId < 2 ^ 31)
    (hfit : screensBefore m_eglBackends m_eglBackends.length < 2 ^ 31) :
    ((findBackend m_eglBackends screenId internalScreenId).1 = none ↔
      screensBefore m_eglBackends m_eglBackends.length ≤ screenId) ∧
    (screensBefore m_eglBackends m_eglBackends.length ≤ screenId →
      findBackend m_eglBackends screenId internalScreenId = (none, internalScreenId)) ∧
    (screenId < screensBefore m_eglBackends m_eglBackends.length →
      ∃ i backend, m_eglBackends.get? i = some backend ∧
        findBackend m_eglBackends screenId internalScreenId
          = (some backend, screenId - screensBefore m_eglBackends i) ∧
        screensBefore m_eglBackends i ≤ screenId ∧
        screenId < screensBefore m_eglBackends (i + 1) ∧
        0 ≤ screenId - screensBefore m_eglBackends i ∧
        screenId - screensBefore m_eglBackends i < backend.screenCount ∧
        ∀ j, j < m_eglBackends.length → screensBefore m_eglBackends j ≤ screenId →
          screenId < screensBefore m_eglBackends (j + 1) → j = i) := by
  obtain ⟨h1, h2⟩ := findBackendLoop_sums screenId internalScreenId hidfit m_eglBackends 0
    hcount le_rfl hid (by omega)
  simp only [zero_add] at h1 h2
  have hsome : screenId < screensBefore m_eglBackends m_eglBackends.length →
      ∃ i backend, m_eglBackends.get? i = some backend ∧
        findBackend m_eglBackends screenId internalScreenId
          = (some backend, screenId - screensBefore m_eglBackends i) ∧
        screensBefore m_eglBackends i ≤ screenId ∧
        screenId < screensBefore m_eglBackends (i + 1) ∧
        0 ≤ screenId - screensBefore m_eglBackends i ∧
        screenId - screensBefore m_eglBackends i < backend.screenCount ∧
        ∀ j, j < m_eglBackends.length → screensBefore m_eglBackends j ≤ screenId →
          screenId < screensBefore m_eglBackends (j + 1) → j = i := by
    intro hlt
    obtain ⟨i, backend, hget, hres, hlo, hhi⟩ := h2 hlt
    have hsucc := screensBefore_succ m_eglBackends i backend hget
    refine ⟨i, backend, hget, hres, hlo, hhi, by omega, by omega, ?_⟩
    intro j _ hjlo hjhi
    rcases Nat.lt_trichotomy j i with hji | hji | hji
    · have := screensBefore_mono m_eglBackends hcount (j + 1) i (by omega)
      omega
    · exact hji
    · have := screensBefore_mono m_eglBackends hcount (i + 1) j (by omega)
      omega
  refine ⟨⟨fun hnone => ?_, fun hle => ?_⟩, h1, hsome⟩
  · by_contra hlt
    obtain ⟨i, backend, _, hres, _⟩ := hsome (by omega)
    rw [hres] at hnone
    cases hnone
  · have := h1 hle
    unfold findBackend
    rw [this]

/-- The statement of `findBackend_prefix_sums` for three backends with 2, 0 and 3 screens
and screen 2, which is screen 0 of the third backend. -/
theorem findBackend_prefix_sums_witness :
    findBackend exBackends 2 (-7) = (some ⟨2, 3⟩, 0) ∧
    ((findBackend exBackends 2 (-7)).1 = none ↔
      screensBefore exBackends exBackends.length ≤ 2) := by
  refine ⟨by decide, ?_⟩
  exact (findBackend_prefix_sums exBackends 2 (-7) (by decide) (by decide) (by decide)
    (by decide)).1

/-! ## `setRules` and the length of the cache -/

/-- The loop writing the rules never reads outside the cache; afterwards the cache has as
many objects as the longer of the old cache and the rule list, and one group name was
appended per rule. -/
theorem writeRules_lengths (generateGroupName : Nat → Nat) (list_length : Nat) :
    ∀ (rules : List Nat) (i : Nat) (s : RuleBookSettings),
      s.m_list.length = max list_length i →
      ∃ s', writeRules generateGroupName list_length rules i s = some s' ∧
        s'.m_list.length = max list_length (i + rules.length) ∧
        s'.mRuleGroupList.length = s.mRuleGroupList.length + rules.length := by
  intro rules
  induction rules with
  | nil =>
    intro i s h
    exact ⟨s, rfl, by simpa using h, by simp⟩
  | cons rule rest ih =>
    intro i s h
    by_cases hi : i < list_length
    · have hlen : i < s.m_list.length := by omega
      obtain ⟨settings, hget⟩ : ∃ settings, s.m_list.get? i = some settings :=
        ⟨s.m_list.get ⟨i, hlen⟩, List.get?_eq_get hlen⟩
      obtain ⟨s', h1, h2, h3⟩ := ih (i + 1)
        { s with
          m_list := s.m_list.set i { { settings with rule := none } with rule := some rule }
          mRuleGroupList := s.mRuleGroupList ++ [settings.currentGroup] }
        (by simp only [List.length_set]; omega)
      refine ⟨s', ?_, ?_, ?_⟩
      · simp only [writeRules, if_pos hi, hget]
        exact h1
      · rw [h2, List.length_cons]
        congr 1
        omega
      · rw [h3]
        simp only [List.length_append, List.length_cons, List.length_nil]
        omega
    · obtain ⟨s', h1, h2, h3⟩ := ih (i + 1)
        { s with
          m_list := s.m_list ++ [⟨generateGroupName s.m_list.length, some rule⟩]
          mRuleGroupList := s.mRuleGroupList ++ [generateGroupName s.m_list.length] }
        (by simp only [List.length_append, List.length_cons, List.length_nil]; omega)
      refine ⟨s', ?_, ?_, ?_⟩
      · simp only [writeRules, if_neg hi]
        exact h1
      · rw [h2, List.length_cons]
        congr 1
        omega
      · rw [h3]
        simp only [List.length_append, List.length_cons, List.length_nil]
        omega

/-- What `setRules` leaves for every cache and every rule list.  When the cache is not
longer than a non-empty rule list, the second loop deletes the settings object of the last
rule: the cache ends one object short of the rule list while `count()` and the group list
have one entry per rule.  When the cache is longer than the rule list, the second loop
does not run and the cache keeps its length.  When both are empty, the second loop reads
`m_list[-1]`. -/
theorem setRules_lengths (generateGroupName : Nat → Nat) (s : RuleBookSettings)
    (rules : List Nat) :
    (s.m_list.length ≤ rules.length → rules ≠ [] →
      ∃ s', s.setRules generateGroupName rules = some s' ∧
        s'.m_list.length + 1 = rules.length ∧ s'.rules.length + 1 = rules.length ∧
        s'.mRuleGroupList.length = rules.length ∧ s'.count = rules.length) ∧
    (rules.length < s.m_list.length →
      ∃ s', s.setRules generateGroupName rules = some s' ∧
        s'.m_list.length = s.m_list.length ∧ s'.rules.length = s.m_list.length ∧
        s'.mRuleGroupList.length = rules.length ∧ s'.count = rules.length) ∧
    (s.m_list = [] → rules = [] → s.setRules generateGroupName rules = none) := by
  obtain ⟨w, hw, hwl, hwg⟩ := writeRules_lengths generateGroupName s.m_list.length rules 0
    { s with mRuleGroupList := [] } (by simp)
  simp only [zero_add, List.length_nil] at hwl hwg
  refine ⟨?_, ?_, ?_⟩
  · intro hle hne
    have hpos : 0 < rules.length := List.length_pos.mpr hne
    have hlen : w.m_list.length = rules.length := by omega
    have hn : ((rules.length : Int) - ((w.m_list.length : Int) - 1)).toNat = 1 := by
      rw [hlen]
      omega
    have hj : (0 : Int) ≤ (w.m_list.length : Int) - 1 ∧
        (w.m_list.length : Int) - 1 < (w.m_list.length : Int) := by omega
    refine ⟨{ w with
      m_list := w.m_list.eraseIdx ((w.m_list.length : Int) - 1).toNat
      mCount := w.mRuleGroupList.length }, ?_, ?_, ?_, ?_, ?_⟩
    · simp only [RuleBookSettings.setRules, hw, hn, trimLoop, if_pos hj]
    · simp only [List.length_eraseIdx]
      rw [if_pos (by omega)]
      omega
    · simp only [RuleBookSettings.rules, List.length_map, List.length_eraseIdx]
      rw [if_pos (by omega)]
      omega
    · exact hwg
    · simp only [RuleBookSettings.count]
      rw [hwg]
  · intro hlt
    have hlen : w.m_list.length = s.m_list.length := by omega
    have hn : ((rules.length : Int) - ((w.m_list.length : Int) - 1)).toNat = 0 := by
      rw [hlen]
      omega
    refine ⟨{ w with mCount := w.mRuleGroupList.length }, ?_, hlen, ?_, hwg, ?_⟩
    · simp only [RuleBookSettings.setRules, hw, hn, trimLoop]
    · simp only [RuleBookSettings.rules, List.length_map]
      exact hlen
    · simp only [RuleBookSettings.count]
      rw [hwg]
  · intro hs hr
    subst hr
    simp only [RuleBookSettings.setRules, hs, writeRules, List.length_nil]
    rfl

/-- C30 (evaluation): with an empty cache and one rule, `setRules` leaves an empty settings
list while the group list has one entry and `count()` is 1, and a following `rules()`
returns no rule; with a cache of three objects and one rule the settings list keeps three
objects; with an empty cache and no rule the second loop reads `m_list[-1]`. -/
theorem setRules_cache_length_mismatch :
    exNoRules.setRules exGroupName [7] = some ⟨[], [100], 1⟩ ∧
    (exNoRules.setRules exGroupName [7]).map (·.rules) = some [] ∧
    (exNoRules.setRules exGroupName [7]).map (·.count) = some 1 ∧
    (exThreeRules.setRules exGroupName [7]).map (·.m_list.length) = some 3 ∧
    (exThreeRules.setRules exGroupName [7]).map (·.count) = some 1 ∧
    exNoRules.setRules exGroupName [] = none := by
  decide

/-! ## `waitIdle` -/

/-- With an inactive session `dispatchEvents` returns at once: no event is handled and no
output changes. -/
theorem dispatchEvents_inactive (env : WaitEnv) (k : Nat) (outputs : List DrmOutputFlip)
    (h : env.isActive k = false) : dispatchEvents env k outputs = (outputs, []) := by
  simp [dispatchEvents, h]

/-- The calls `dispatchEvents` makes are `drmHandleEvent` calls. -/
theorem dispatchEvents_calls (env : WaitEnv) (k : Nat) (outputs : List DrmOutputFlip) :
    ∀ c ∈ (dispatchEvents env k outputs).2, c = WaitCall.drmHandleEvent := by
  intro c hc
  unfold dispatchEvents at hc
  split_ifs at hc
  · cases hc
  · exact List.mem_singleton.mp hc

theorem dispatchEvents_count_poll (env : WaitEnv) (k : Nat) (outputs : List DrmOutputFlip) :
    (dispatchEvents env k outputs).2.count (WaitCall.poll 30000) = 0 := by
  unfold dispatchEvents
  split_ifs <;> simp

/-- Every way out of the loop of `waitIdle`.  When the loop, entered at iteration `k`
after `k` calls of `poll`, is left, only `poll` and `drmHandleEvent` calls were added to
the trace, and either every output is idle, or the last `poll` returned 0, or it failed
with an `errno` other than `EINTR`. -/
theorem waitLoop_left (env : WaitEnv) :
    ∀ (n k : Nat) (outputs : List DrmOutputFlip) (trace : List WaitCall)
      (exit : WaitExit) (o : List DrmOutputFlip) (t : List WaitCall),
      trace.count (WaitCall.poll 30000) = k →
      waitLoop env n k outputs trace = WaitOutcome.left exit o t →
      (∃ mid, t = trace ++ mid ∧
        ∀ c ∈ mid, c = WaitCall.poll 30000 ∨ c = WaitCall.drmHandleEvent) ∧
      (exit = WaitExit.idle → (o.all fun output => !output.m_pageFlipPending) = true) ∧
      (exit = WaitExit.timedOut →
        0 < t.count (WaitCall.poll 30000) ∧
        env.poll (t.count (WaitCall.poll 30000) - 1) = 0) ∧
      (∀ errno, exit = WaitExit.pollFailed errno →
        0 < t.count (WaitCall.poll 30000) ∧
        env.poll (t.count (WaitCall.poll 30000) - 1) < 0 ∧
        env.errno (t.count (WaitCall.poll 30000) - 1) = errno ∧ errno ≠ EINTR) := by
  intro n
  induction n with
  | zero =>
    intro k outputs trace exit o t _ h
    simp [waitLoop] at h
  | succ n ih =>
    intro k outputs trace exit o t hk h
    have hcount : (trace ++ [WaitCall.poll 30000]).count (WaitCall.poll 30000) = k + 1 := by
      rw [List.count_append, hk]
      rfl
    unfold waitLoop at h
    dsimp only at h
    split_ifs at h with hidle hneg herr hzero
    · -- every output is idle
      simp only [WaitOutcome.left.injEq] at h
      obtain ⟨rfl, rfl, rfl⟩ := h
      refine ⟨⟨[], by simp, by simp⟩, fun _ => hidle, fun h => (by cases h),
        fun _ h => (by cases h)⟩
    · -- poll failed, not interrupted
      simp only [WaitOutcome.left.injEq] at h
      obtain ⟨rfl, rfl, rfl⟩ := h
      refine ⟨⟨[WaitCall.poll 30000], rfl, by simp⟩, fun h => (by cases h),
        fun h => (by cases h), ?_⟩
      intro errno he
      simp only [WaitExit.pollFailed.injEq] at he
      rw [hcount]
      simp only [Nat.add_sub_cancel]
      exact ⟨Nat.succ_pos _, hneg, he, he ▸ herr⟩
    · -- poll interrupted: next iteration
      obtain ⟨⟨mid, hmid, hcalls⟩, h1, h2, h3⟩ := ih (k + 1) outputs _ exit o t hcount h
      refine ⟨⟨WaitCall.poll 30000 :: mid, ?_, ?_⟩, h1, h2, h3⟩
      · rw [hmid]
        simp
      · intro c hc
        rcases List.mem_cons.mp hc with rfl | hc
        · exact Or.inl rfl
        · exact hcalls c hc
    · -- poll timed out
      simp only [WaitOutcome.left.injEq] at h
      obtain ⟨rfl, rfl, rfl⟩ := h
      refine ⟨⟨[WaitCall.poll 30000], rfl, by simp⟩, fun h => (by cases h), ?_,
        fun _ h => (by cases h)⟩
      intro _
      rw [hcount]
      simp only [Nat.add_sub_cancel]
      exact ⟨Nat.succ_pos _, hzero⟩
    · -- events dispatched: next iteration
      have hcount2 : ((trace ++ [WaitCall.poll 30000]) ++ (dispatchEvents env k outputs).2).count
          (WaitCall.poll 30000) = k + 1 := by
        rw [List.count_append, hcount, dispatchEvents_count_poll]
      obtain ⟨⟨mid, hmid, hcalls⟩, h1, h2, h3⟩ := ih (k + 1) _ _ exit o t hcount2 h
      refine ⟨⟨WaitCall.poll 30000 :: ((dispatchEvents env k outputs).2 ++ mid), ?_, ?_⟩,
        h1, h2, h3⟩
      · rw [hmid]
        simp
      · intro c hc
        rcases List.mem_cons.mp hc with rfl | hc
        · exact Or.inl rfl
        · rcases List.mem_append.mp hc with hc | hc
          · exact Or.inr (dispatchEvents_calls env k outputs c hc)
          · exact hcalls c hc

/-- A `poll` that times out or fails with an `errno` other than `EINTR` in iteration `k`
ends the loop in that iteration at the latest. -/
theorem waitLoop_leaves (env : WaitEnv) :
    ∀ (m k : Nat) (outputs : List DrmOutputFlip) (trace : List WaitCall),
      (env.poll (k + m) = 0 ∨ (env.poll (k + m) < 0 ∧ env.errno (k + m) ≠ EINTR)) →
      ∃ exit o t, waitLoop env (m + 1) k outputs trace = WaitOutcome.left exit o t := by
  intro m
  induction m with
  | zero =>
    intro k outputs trace h
    simp only [Nat.add_zero] at h
    unfold waitLoop
    dsimp only
    split_ifs with hidle hneg herr hzero
    · exact ⟨_, _, _, rfl⟩
    · exact ⟨_, _, _, rfl⟩
    · rcases h with h | ⟨_, h⟩
      · omega
      · exact absurd h herr
    · exact ⟨_, _, _, rfl⟩
    · rcases h with h | ⟨h, _⟩
      · exact absurd h hzero
      · exact absurd h hneg
  | succ m ih =>
    intro k outputs trace h
    have h' : env.poll (k + 1 + m) = 0 ∨
        (env.poll (k + 1 + m) < 0 ∧ env.errno (k + 1 + m) ≠ EINTR) := by
      have e : k + 1 + m = k + (m + 1) := by omega
      rw [e]
      exact h
    unfold waitLoop
    dsimp only
    split_ifs with hidle hneg herr hzero
    · exact ⟨_, _, _, rfl⟩
    · exact ⟨_, _, _, rfl⟩
    · exact ih (k + 1) outputs _ h'
    · exact ⟨_, _, _, rfl⟩
    · exact ih (k + 1) _ _ h'

/-- C22: `waitIdle` makes no call of `poll` when no output has a pending page flip; when
it leaves its loop, every output is idle, or the last `poll` returned 0, or the last `poll`
failed with an `errno` other than `EINTR`; after a `poll` interrupted by `EINTR` the loop
goes on with its next iteration; a `poll` that times out or fails otherwise ends the loop;
and the trace of every run that leaves the loop starts with the notifier being disabled,
ends with it being enabled and has only `poll` and `drmHandleEvent` calls in between. -/
theorem waitIdle_exits (env : WaitEnv) (outputs : List DrmOutputFlip) :
    (∀ n, (outputs.all fun output => !output.m_pageFlipPending) = true →
      waitIdle env (n + 1) outputs = WaitOutcome.left WaitExit.idle outputs
        [WaitCall.setEnabled false, WaitCall.setEnabled true]) ∧
    (∀ n exit o t, waitIdle env n outputs = WaitOutcome.left exit o t →
      (∃ mid, t = [WaitCall.setEnabled false] ++ mid ++ [WaitCall.setEnabled true] ∧
        ∀ c ∈ mid, c = WaitCall.poll 30000 ∨ c = WaitCall.drmHandleEvent) ∧
      (exit = WaitExit.idle → (o.all fun output => !output.m_pageFlipPending) = true) ∧
      (exit = WaitExit.timedOut →
        0 < t.count (WaitCall.poll 30000) ∧
        env.poll (t.count (WaitCall.poll 30000) - 1) = 0) ∧
      (∀ errno, exit = WaitExit.pollFailed errno →
        0 < t.count (WaitCall.poll 30000) ∧
        env.poll (t.count (WaitCall.poll 30000) - 1) < 0 ∧
        env.errno (t.count (WaitCall.poll 30000) - 1) = errno ∧ errno ≠ EINTR)) ∧
    (∀ n k (pending : List DrmOutputFlip) trace,
      (pending.all fun output => !output.m_pageFlipPending) = false →
      env.poll k < 0 → env.errno k = EINTR →
      waitLoop env (n + 1) k pending trace
        = waitLoop env n (k + 1) pending (trace ++ [WaitCall.poll 30000])) ∧
    (∀ k, env.poll k = 0 ∨ (env.poll k < 0 ∧ env.errno k ≠ EINTR) →
      ∃ exit o t, waitIdle env (k + 1) outputs = WaitOutcome.left exit o t) := by
  refine ⟨?_, ?_, ?_, ?_⟩
  · intro n hidle
    simp [waitIdle, waitLoop, hidle]
  · intro n exit o t h
    unfold waitIdle at h
    cases hloop : waitLoop env n 0 outputs [WaitCall.setEnabled false] with
    | running o' t' =>
      rw [hloop] at h
      cases h
    | left exit' o' t' =>
      rw [hloop] at h
      simp only [WaitOutcome.left.injEq] at h
      obtain ⟨rfl, rfl, rfl⟩ := h
      obtain ⟨⟨mid, hmid, hcalls⟩, h1, h2, h3⟩ :=
        waitLoop_left env n 0 outputs [WaitCall.setEnabled false] exit' o' t' (by decide) hloop
      have hc : (t' ++ [WaitCall.setEnabled true]).count (WaitCall.poll 30000)
          = t'.count (WaitCall.poll 30000) := by
        rw [List.count_append]
        rfl
      refine ⟨⟨mid, by rw [hmid], hcalls⟩, h1, ?_, ?_⟩
      · rw [hc]
        exact h2
      · rw [hc]
        exact h3
  · intro n k pending trace hpending hneg herr
    have hlt : ¬ (env.poll k < 0 ∧ ¬ env.errno k = EINTR) := fun h => h.2 herr
    conv_lhs => unfold waitLoop
    simp [hpending, hneg, herr]
  · intro k h
    obtain ⟨exit, o, t, hl⟩ := waitLoop_leaves env k 0 outputs [WaitCall.setEnabled false]
      (by simpa using h)
    refine ⟨exit, o, t ++ [WaitCall.setEnabled true], ?_⟩
    simp only [waitIdle, hl]

/-- With an inactive session, every `poll` reporting the descriptor readable and an
output with a pending page flip, the loop of `waitIdle` is still running after any number
of iterations, with the outputs it started with. -/
theorem waitLoop_running (env : WaitEnv) (outputs : List DrmOutputFlip)
    (hsession : ∀ k, env.isActive k = false) (hpoll : ∀ k, 0 < env.poll k)
    (hpending : ∃ output ∈ outputs, output.m_pageFlipPending = true) :
    ∀ (n k : Nat) (trace : List WaitCall),
      waitLoop env n k outputs trace
        = WaitOutcome.running outputs (trace ++ List.replicate n (WaitCall.poll 30000)) := by
  have hidle : (outputs.all fun output => !output.m_pageFlipPending) = false := by
    obtain ⟨output, hmem, hp⟩ := hpending
    rw [Bool.eq_false_iff]
    intro hall
    have := List.all_eq_true.mp hall output hmem
    simp [hp] at this
  intro n
  induction n with
  | zero =>
    intro k trace
    simp [waitLoop]
  | succ n ih =>
    intro k trace
    have h1 : ¬ env.poll k < 0 := by have := hpoll k; omega
    have h2 : ¬ env.poll k = 0 := by have := hpoll k; omega
    unfold waitLoop
    simp only [hidle, Bool.false_eq_true, if_false, h1, h2,
      dispatchEvents_inactive env k outputs (hsession k), List.append_nil]
    rw [ih (k + 1), List.replicate_succ, List.append_assoc]
    rfl

/-- C27: `waitIdle` can fail to terminate.  When the session is not active, every `poll`
reports the descriptor readable and some output has a pending page flip, `dispatchEvents`
returns without handling an event in every iteration, and for every `n` the loop is
still running after `n` iterations, every output being as it was at the start, after `n`
calls of `poll` and without the notifier having been enabled again. -/
theorem waitIdle_can_run_forever (env : WaitEnv) (outputs : List DrmOutputFlip)
    (hsession : ∀ k, env.isActive k = false) (hpoll : ∀ k, 0 < env.poll k)
    (hpending : ∃ output ∈ outputs, output.m_pageFlipPending = true) :
    (∀ k, dispatchEvents env k outputs = (outputs, [])) ∧
    ∀ n, waitIdle env n outputs = WaitOutcome.running outputs
      (WaitCall.setEnabled false :: List.replicate n (WaitCall.poll 30000)) := by
  refine ⟨fun k => dispatchEvents_inactive env k outputs (hsession k), ?_⟩
  intro n
  unfold waitIdle
  rw [waitLoop_running env outputs hsession hpoll hpending n 0]
  rfl

/-- The statement of `waitIdle_can_run_forever` for one output with a pending page flip
whose completion event waits unread while the session is inactive. -/
theorem waitIdle_can_run_forever_witness :
    (∃ output ∈ [exPendingOutput], output.m_pageFlipPending = true) ∧
    ∀ n, waitIdle exWaitInactive n [exPendingOutput] = WaitOutcome.running [exPendingOutput]
      (WaitCall.setEnabled false :: List.replicate n (WaitCall.poll 30000)) :=
  ⟨⟨exPendingOutput, List.mem_singleton.mpr rfl, rfl⟩,
    (waitIdle_can_run_forever exWaitInactive [exPendingOutput] (fun _ => rfl)
      (fun _ => (by decide : (0 : Int) < 1)) ⟨exPendingOutput, List.mem_singleton.mpr rfl, rfl⟩).2⟩

/-! ## The removal loop of `updateOutputs` -/

/-- When every output is connected the removal loop, read as visiting every output once,
changes nothing. -/
theorem removeLoop_all_connected (h : Hotplug) :
    ∀ (outputs : List DrmOutput) (g : DrmGpu),
      (∀ output ∈ outputs, h.isConnected output.m_pipeline.connector = true) →
      removeLoop h outputs g = g := by
  intro outputs
  induction outputs with
  | nil => intro g _; rfl
  | cons output rest ih =>
    intro g hall
    have ho := hall output (List.mem_cons_self _ _)
    simp only [removeLoop, ho, Bool.not_true, Bool.false_eq_true, if_false]
    exact ih g fun o hmem => hall o (List.mem_cons_of_mem _ hmem)

/-- The removal loop on the storage changes nothing as long as every slot it visits holds
an output with a pipeline whose connector is connected. -/
theorem removeLoopRaw_all_connected (qAsserts : Bool) (h : Hotplug) (s : RemovalState) :
    ∀ (n it : Nat),
      (∀ j, it ≤ j → j < it + n →
        ∃ output pipeline, s.storage.get? j = some output ∧
          (s.objects.get? output).bind (·.m_pipeline) = some pipeline ∧
          h.isConnected pipeline.connector = true) →
      removeLoopRaw qAsserts h n it s = some s := by
  intro n
  induction n with
  | zero => intro it _; rfl
  | succ n ih =>
    intro it hall
    obtain ⟨output, pipeline, h1, h2, h3⟩ := hall it le_rfl (by omega)
    have hstep : removeStep qAsserts h it s = some s := by
      simp only [removeStep, h1, h2, h3, Bool.not_true, Bool.false_eq_true, if_false]
    simp only [removeLoopRaw, hstep]
    exact ih (it + 1) fun j hj1 hj2 => hall j (by omega) (by omega)

/-- When every output is connected, the removal step on the storage of `m_outputs` leaves
the device as it is, as the loop read as visiting every output once does. -/
theorem removeOutputs_all_connected (qAsserts : Bool) (h : Hotplug) (g : DrmGpu)
    (hall : ∀ output ∈ g.m_outputs, h.isConnected output.m_pipeline.connector = true) :
    removeOutputs qAsserts h (RemovalState.ofGpu g) = some (RemovalState.ofGpu g) ∧
    removeLoop h g.m_outputs g = g := by
  refine ⟨?_, removeLoop_all_connected h g.m_outputs g hall⟩
  unfold removeOutputs
  apply removeLoopRaw_all_connected
  intro j _ hj
  have hj' : j < g.m_outputs.length := by
    simpa [RemovalState.ofGpu] using hj
  refine ⟨j, (g.m_outputs.get ⟨j, hj'⟩).m_pipeline, ?_, ?_, ?_⟩
  · simp only [RemovalState.ofGpu, List.get?_eq_getElem?]
    rw [List.getElem?_range hj']
  · simp only [RemovalState.ofGpu, List.get?_eq_getElem?, List.getElem?_map,
      List.getElem?_eq_getElem hj', Option.map_some', Option.some_bind, List.get_eq_getElem]
  · exact hall _ (List.get_mem _ _ _)

/-- Three outputs on the connectors 1, 2 and 6, of which connector 6, the one of the
output in the last slot, is no longer connected: the slot keeps the pointer to the removed
output, and the removal step takes the third output and its pipeline out of the lists,
tears it down and announces it, with `Q_ASSERT` active or not. -/
theorem removeOutputs_last_slot (qAsserts : Bool) :
    removeOutputs qAsserts (exHotplug3 [1, 2] 6) (RemovalState.ofGpu exThreeOutputs)
      = some
        { objects :=
            [⟨some ⟨connPipe0, crtc0, some planeA, none⟩, false⟩,
              ⟨some ⟨connPipe1, crtc1, some planeB, none⟩, false⟩, ⟨none, true⟩]
          storage := [0, 1, 2]
          size := 2
          m_pipelines :=
            [⟨connPipe0, crtc0, some planeA, none⟩, ⟨connPipe1, crtc1, some planeB, none⟩]
          m_unusedPlanes := [planeC]
          outputRemoved := [2] } := by
  cases qAsserts <;> decide

/-- C23 (evaluation): three outputs on the connectors 1, 2 and 6, of which connector 1 is
no longer connected.  With `Q_ASSERT` inactive the removal step takes the first output
and its pipeline out of the lists and returns its plane, but the output torn down,
announced by `outputRemoved` and left with a null pipeline is the second one, whose
connector is connected and which stays in the output list; the first output is neither
torn down nor announced.  With `Q_ASSERT` active the step ends at the first assertion.
With only the first two outputs the step dereferences the null pipeline. -/
theorem removeOutputs_tears_down_next_output :
    removeOutputs false (exHotplug3 [2, 6] 1) (RemovalState.ofGpu exThreeOutputs)
      = some
        { objects :=
            [⟨some ⟨connPipe0, crtc0, some planeA, none⟩, false⟩, ⟨none, true⟩,
              ⟨some ⟨connPipe2, crtc2, some planeC, none⟩, false⟩]
          storage := [1, 2, 2]
          size := 2
          m_pipelines :=
            [⟨connPipe1, crtc1, some planeB, none⟩, ⟨connPipe2, crtc2, some planeC, none⟩]
          m_unusedPlanes := [planeA]
          outputRemoved := [1] } ∧
    removeOutputs true (exHotplug3 [2, 6] 1) (RemovalState.ofGpu exThreeOutputs) = none ∧
    removeOutputs false (exHotplug3 [2, 6] 1) (RemovalState.ofGpu exTwoOfThree) = none := by
  decide

/-- C26 (evaluation): after the rescan of three outputs in which connector 1 is gone, with
`Q_ASSERT` inactive, the output list holds the second and the third output and the
pipeline list their two pipelines, but the second output is bound to no pipeline; the
rescan finds no connector without pipeline, so nothing is added afterwards. -/
theorem removeOutputs_breaks_correspondence :
    (removeOutputs false (exHotplug3 [2, 6] 1) (RemovalState.ofGpu exThreeOutputs)).map
        (fun s => (s.m_outputs, s.boundPipelines, s.m_pipelines))
      = some ([1, 2], [none, some ⟨connPipe2, crtc2, some planeC, none⟩],
          [⟨connPipe1, crtc1, some planeB, none⟩, ⟨connPipe2, crtc2, some planeC, none⟩]) ∧
    collectConnectors (exHotplug3 [2, 6] 1)
        [⟨connPipe1, crtc1, some planeB, none⟩, ⟨connPipe2, crtc2, some planeC, none⟩]
        [2, 6] [] = [] := by
  decide

end KWin
